import Mathlib

/-!
# Floating Sandbox: parameter smoothing, ocean floor queries, game parameters

A shallow embedding of parts of the Floating Sandbox sources
(`Game/GameController.h`, `Game/OceanFloor.h`, `Game/GameParameters.h`).

Conventions of the embedding:

* `float` values are elements of a linearly ordered field `F`. The definitions are generic in
  `F`, so they run on `ℚ`. Where nothing else is said float arithmetic is exact field arithmetic;
  the theorems about the sinusoidal ease are stated for `F = ℝ` with `Real.sin` and `Real.pi`.
* Where the rounding of `float` operations matters, a definition takes the rounding `fl` as an
  argument (the value of an operation is `fl` of its exact result): the accessors of
  `AirBubblesDensity`, the templates of `GameParameters`, and `UpdateRounded`, which is `Update`
  in a float arithmetic. `Binary32.fl` is the rounding of IEEE 754 binary32 on `ℚ`.
* `GameWallClock::time_point` values and `std::chrono::milliseconds` durations are whole
  numbers of milliseconds (`Int`); a read of `GameWallClock::GetInstance().Now()` is an explicit
  argument `clockNow`.
* An invocation of the bound `mSetter` is recorded in the list of values that each operation
  returns next to the new state (in call order).
-/

namespace GameController

/-- The data members of `GameController::ParameterSmoother` (GameController.h, 644-654); the bound
`mGetter` is read only by the constructor and the bound `mSetter` is modelled by the returned
list of setter arguments. -/
structure ParameterSmoother (F : Type) where
  mTrajectoryTime : Int
  mStartValue : F
  mTargetValue : F
  mCurrentValue : F
  mCurrentTimestamp : Int
  mEndTimestamp : Int

namespace ParameterSmoother

variable {F : Type} [LinearOrderedField F]

/-- The constructor (GameController.h, 580-590): `getterValue` is the result of `mGetter()` and
`clockNow` the result of `GameWallClock::GetInstance().Now()`. -/
def create (getterValue : F) (trajectoryTime : Int) (clockNow : Int) : ParameterSmoother F :=
  { mTrajectoryTime := trajectoryTime
    mStartValue := getterValue
    mTargetValue := getterValue
    mCurrentValue := getterValue
    mCurrentTimestamp := clockNow
    mEndTimestamp := clockNow }

/-- `GetValue()` (GameController.h, 592-595). -/
def GetValue (ps : ParameterSmoother F) : F :=
  ps.mCurrentValue

/-- `SetValue(value)` (GameController.h, 597-607). The setter is not invoked: the returned list of
setter arguments is empty. -/
def SetValue (ps : ParameterSmoother F) (value : F) (clockNow : Int) :
    ParameterSmoother F × List F :=
  ({ ps with
      mStartValue := ps.mCurrentValue
      mTargetValue := value
      mCurrentTimestamp := clockNow
      mEndTimestamp := clockNow + ps.mTrajectoryTime + 1 }, [])

/-- The local `leftFraction` of `Update` (GameController.h, 617-620), as a function of the
trajectory time and of the already advanced `mCurrentTimestamp`. -/
def leftFraction (trajectoryTime endTimestamp currentTimestamp : Int) : F :=
  if trajectoryTime = 0 then 0
  else ((endTimestamp - currentTimestamp : Int) : F) / ((trajectoryTime : Int) : F)

/-- The local `phase` of `Update` (GameController.h, 625-627). -/
def phase (Pi : F) (leftFraction : F) : F :=
  Pi / 4 + Pi / 4 * (1 - leftFraction)

/-- The local `progress` of `Update` (GameController.h, 632-634). -/
def progress (sin : F → F) (Pi : F) (phase : F) : F :=
  (sin phase - sin (Pi / 4)) / (1 - sin (Pi / 4))

/-- `Update(now)` (GameController.h, 609-642) in exact arithmetic. `sin` and `Pi` stand for `sin`
of the C math library and the constant `Pi<float>` of `GameCore/GameMath.h`. `UpdateRounded` is
the same function in float arithmetic. -/
def Update (sin : F → F) (Pi : F) (ps : ParameterSmoother F) (now : Int) :
    ParameterSmoother F × List F :=
  if ps.mCurrentTimestamp < ps.mEndTimestamp then
    let currentTimestamp := min now ps.mEndTimestamp
    let lf : F := leftFraction ps.mTrajectoryTime ps.mEndTimestamp currentTimestamp
    let ph : F := phase Pi lf
    let pr : F := progress sin Pi ph
    let currentValue := ps.mStartValue + (ps.mTargetValue - ps.mStartValue) * pr
    ({ ps with mCurrentTimestamp := currentTimestamp, mCurrentValue := currentValue },
      [currentValue])
  else
    (ps, [])

/-- A run of `Update` calls, one per clock reading of the list, oldest first. -/
def UpdateAll (sin : F → F) (Pi : F) (ps : ParameterSmoother F) : List Int → ParameterSmoother F
  | [] => ps
  | now :: rest => UpdateAll sin Pi (Update sin Pi ps now).1 rest

/-- What a run of `Update` calls keeps after `SetValue(v)` has scheduled the end timestamp `e`:
the target, the end timestamp, and either the end is still ahead or the current value is the
target. -/
def Pending (v : F) (e : Int) (ps : ParameterSmoother F) : Prop :=
  ps.mTargetValue = v ∧ ps.mEndTimestamp = e ∧
    (ps.mCurrentTimestamp < ps.mEndTimestamp ∨ ps.mCurrentValue = v)

end ParameterSmoother

end GameController

/-! ## GameParameters -/

/-- The tunable fields of `struct GameParameters` (GameParameters.h, 89-302), in declaration
order: `float` fields are values of `F`, `size_t` fields are `Nat`, `std::chrono::seconds` is a
whole number of seconds. -/
structure GameParameters (F : Type) where
  NumMechanicalDynamicsIterationsAdjustment : F
  SpringStiffnessAdjustment : F
  SpringDampingAdjustment : F
  SpringStrengthAdjustment : F
  RotAcceler8r : F
  WaterDensityAdjustment : F
  WaterDragAdjustment : F
  WaterIntakeAdjustment : F
  WaterDiffusionSpeedAdjustment : F
  WaterCrazyness : F
  DoGenerateDebris : Bool
  DoGenerateSparkles : Bool
  DoGenerateAirBubbles : Bool
  CumulatedIntakenWaterThresholdForAirBubbles : F
  DoModulateWind : Bool
  WindSpeedBase : F
  WindSpeedMaxFactor : F
  WindGustFrequencyAdjustment : F
  BasalWaveHeightAdjustment : F
  BasalWaveLengthAdjustment : F
  BasalWaveSpeedAdjustment : F
  TsunamiRate : F
  RogueWaveRate : F
  FlameThrowerHeatFlow : F
  FlameThrowerRadius : F
  SeaDepth : F
  OceanFloorBumpiness : F
  OceanFloorDetailAmplification : F
  LuminiscenceAdjustment : F
  LightSpreadAdjustment : F
  NumberOfStars : Nat
  NumberOfClouds : Nat
  ToolSearchRadius : F
  DestroyRadius : F
  RepairRadius : F
  RepairSpeedAdjustment : F
  BombBlastRadius : F
  AntiMatterBombImplosionStrength : F
  TimerBombInterval : Int
  BombMass : F
  FloodRadius : F
  FloodQuantity : F
  ScrubRadius : F
  IsUltraViolentMode : Bool
  MoveToolInertia : F

namespace GameParameters

section constants
variable {F : Type} [LinearOrderedField F]

def MinNumMechanicalDynamicsIterationsAdjustment : F := 0.5
def MaxNumMechanicalDynamicsIterationsAdjustment : F := 20.0
def MinSpringStiffnessAdjustment : F := 0.001
def MaxSpringStiffnessAdjustment : F := 2.4
def MinSpringDampingAdjustment : F := 0.001
def MaxSpringDampingAdjustment : F := 4.0
def MinSpringStrengthAdjustment : F := 0.01
def MaxSpringStrengthAdjustment : F := 10.0
def MinRotAcceler8r : F := 0.0
def MaxRotAcceler8r : F := 1000.0
def MinWaterDensityAdjustment : F := 0.0
def MaxWaterDensityAdjustment : F := 4.0
def MinWaterDragAdjustment : F := 0.0
def MaxWaterDragAdjustment : F := 1000.0
def MinWaterIntakeAdjustment : F := 0.1
def MaxWaterIntakeAdjustment : F := 10.0
def MinWaterDiffusionSpeedAdjustment : F := 0.001
def MaxWaterDiffusionSpeedAdjustment : F := 2.0
def MinWaterCrazyness : F := 0.0
def MaxWaterCrazyness : F := 2.0
def MinCumulatedIntakenWaterThresholdForAirBubbles : F := 2.0
def MaxCumulatedIntakenWaterThresholdForAirBubbles : F := 128.0
def MinWindSpeedBase : F := -100.0
def MaxWindSpeedBase : F := 100.0
def MinWindSpeedMaxFactor : F := 1.0
def MaxWindSpeedMaxFactor : F := 10.0
def MinWindGustFrequencyAdjustment : F := 0.1
def MaxWindGustFrequencyAdjustment : F := 10.0
def MinBasalWaveHeightAdjustment : F := 0.0
def MaxBasalWaveHeightAdjustment : F := 100.0
def MinBasalWaveLengthAdjustment : F := 0.3
def MaxBasalWaveLengthAdjustment : F := 20.0
def MinBasalWaveSpeedAdjustment : F := 0.75
def MaxBasalWaveSpeedAdjustment : F := 20.0
def MinTsunamiRate : F := 0.0
def MaxTsunamiRate : F := 60.0
def MinRogueWaveRate : F := 0.0
def MaxRogueWaveRate : F := 15.0
def MinFlameThrowerHeatFlow : F := 1000.0
def MaxFlameThrowerHeatFlow : F := 100000.0
def MinFlameThrowerRadius : F := 1.0
def MaxFlameThrowerRadius : F := 20.0
def MinSeaDepth : F := 20.0
def MaxSeaDepth : F := 10000.0
def MinOceanFloorBumpiness : F := 0.0
def MaxOceanFloorBumpiness : F := 6.0
def MinOceanFloorDetailAmplification : F := 0.0
def MaxOceanFloorDetailAmplification : F := 200.0
def MinLuminiscenceAdjustment : F := 0.1
def MaxLuminiscenceAdjustment : F := 10.0
def MinLightSpreadAdjustment : F := 0.0
def MaxLightSpreadAdjustment : F := 5.0
def MinNumberOfStars : Nat := 0
def MaxNumberOfStars : Nat := 10000
def MinNumberOfClouds : Nat := 0
def MaxNumberOfClouds : Nat := 500
def MinDestroyRadius : F := 5.0
def MaxDestroyRadius : F := 100.0
def MinRepairRadius : F := 0.1
def MaxRepairRadius : F := 10.0
def MinRepairSpeedAdjustment : F := 0.25
def MaxRepairSpeedAdjustment : F := 10.0
def MinBombBlastRadius : F := 0.1
def MaxBombBlastRadius : F := 20.0
def MinAntiMatterBombImplosionStrength : F := 0.1
def MaxAntiMatterBombImplosionStrength : F := 10.0
def MinFloodRadius : F := 0.1
def MaxFloodRadius : F := 10.0
def MinFloodQuantity : F := 0.1
def MaxFloodQuantity : F := 100.0

/-- The constructor `GameParameters::GameParameters()` (GameParameters.cpp, 8-63). -/
def create : GameParameters F :=
  { NumMechanicalDynamicsIterationsAdjustment := 1.0
    SpringStiffnessAdjustment := 1.0
    SpringDampingAdjustment := 1.0
    SpringStrengthAdjustment := 1.0
    RotAcceler8r := 1.0
    WaterDensityAdjustment := 1.0
    WaterDragAdjustment := 1.0
    WaterIntakeAdjustment := 1.0
    WaterDiffusionSpeedAdjustment := 1.0
    WaterCrazyness := 1.0
    DoGenerateDebris := true
    DoGenerateSparkles := true
    DoGenerateAirBubbles := true
    CumulatedIntakenWaterThresholdForAirBubbles := 8.0
    DoModulateWind := true
    WindSpeedBase := -20.0
    WindSpeedMaxFactor := 2.5
    WindGustFrequencyAdjustment := 1.0
    BasalWaveHeightAdjustment := 1.0
    BasalWaveLengthAdjustment := 1.0
    BasalWaveSpeedAdjustment := 4.0
    TsunamiRate := 20.0
    RogueWaveRate := 2.0
    FlameThrowerHeatFlow := 40000.0
    FlameThrowerRadius := 2.0
    SeaDepth := 300.0
    OceanFloorBumpiness := 1.0
    OceanFloorDetailAmplification := 10.0
    LuminiscenceAdjustment := 1.0
    LightSpreadAdjustment := 1.0
    NumberOfStars := 1536
    NumberOfClouds := 48
    ToolSearchRadius := 2.0
    DestroyRadius := 8.0
    RepairRadius := 2.0
    RepairSpeedAdjustment := 1.0
    BombBlastRadius := 2.0
    AntiMatterBombImplosionStrength := 3.0
    TimerBombInterval := 10
    BombMass := 5000.0
    FloodRadius := 0.75
    FloodQuantity := 1.0
    ScrubRadius := 7.0
    IsUltraViolentMode := false
    MoveToolInertia := 3.0 }

/-- `BasisNumMechanicalDynamicsIterations` (GameParameters.h, 336). -/
def BasisNumMechanicalDynamicsIterations : Nat := 24

/-- What the templates of `GameParameters` use of their type parameter `T`: the conversion
`static_cast<T>` of a `float`, which is also the conversion of the literal `0.02f`, and the
division of `T`. -/
structure NumericType (F : Type) (T : Type) where
  ofFloat : F → T
  div : T → T → T

/-- The type `float` as `T`, with the rounding `fl`: the conversion is the identity and the
quotient is rounded. -/
def NumericType.float (fl : F → F) : NumericType F F :=
  { ofFloat := id, div := fun x y => fl (x / y) }

/-- An integral type as `T`, wide enough for the values: the conversion of a `float` truncates
toward zero, and so does the division. -/
def NumericType.integral [FloorRing F] : NumericType F Int :=
  { ofFloat := fun x => if 0 ≤ x then ⌊x⌋ else ⌈x⌉, div := Int.tdiv }

/-- `SimulationStepTimeDuration<T>` (GameParameters.h, 24-25): the literal `0.02f`, which is the
`float` nearest to 0.02, converted to `T`. -/
def SimulationStepTimeDuration {T : Type} (fl : F → F) (ty : NumericType F T) : T :=
  ty.ofFloat (fl 0.02)

/-- `NumMechanicalDynamicsIterations<T>()` (GameParameters.h, 93-99): the `float` product of
`static_cast<float>(BasisNumMechanicalDynamicsIterations)` and the adjustment, converted to
`T`. -/
def NumMechanicalDynamicsIterations {T : Type} (fl : F → F) (ty : NumericType F T)
    (gp : GameParameters F) : T :=
  ty.ofFloat
    (fl (fl ((BasisNumMechanicalDynamicsIterations : Nat) : F)
      * gp.NumMechanicalDynamicsIterationsAdjustment))

/-- The static overload `MechanicalSimulationStepTimeDuration<T>(numMechanicalDynamicsIterations)`
(GameParameters.h, 33-37). -/
def MechanicalSimulationStepTimeDurationFor {T : Type} (fl : F → F) (ty : NumericType F T)
    (numMechanicalDynamicsIterations : T) : T :=
  ty.div (SimulationStepTimeDuration fl ty) numMechanicalDynamicsIterations

/-- The member `MechanicalSimulationStepTimeDuration<T>()` (GameParameters.h, 27-31). -/
def MechanicalSimulationStepTimeDuration {T : Type} (fl : F → F) (ty : NumericType F T)
    (gp : GameParameters F) : T :=
  MechanicalSimulationStepTimeDurationFor fl ty (NumMechanicalDynamicsIterations fl ty gp)

/-- `MaxWorldWidth` (GameParameters.h, 308). -/
def MaxWorldWidth : F := 5000.0

/-- `HalfMaxWorldWidth` (GameParameters.h, 309). -/
def HalfMaxWorldWidth : F := MaxWorldWidth / 2.0

end constants

end GameParameters

/-! ## OceanFloor -/

/-- Modelled from the spec: `FastTruncateInt64` of `GameCore/GameMath.h`, which is not among the
sources; it converts a float to a 64-bit integer by truncation toward zero. -/
def FastTruncateInt64 {F : Type} [LinearOrderedField F] [FloorRing F] (value : F) : Int :=
  if 0 ≤ value then Int.floor value else Int.ceil value

/-- `OceanFloor::Sample` (OceanFloor.h, 84-88). -/
structure Physics.OceanFloor.Sample (F : Type) where
  SampleValue : F
  SampleValuePlusOneMinusSampleValue : F

/-- `Physics::OceanFloor`: the stored samples `mSamples` (OceanFloor.h, 90-91). -/
structure Physics.OceanFloor (F : Type) where
  mSamples : Array (Physics.OceanFloor.Sample F)

namespace Physics.OceanFloor

/-- `SamplesCount` (OceanFloor.h, 78). -/
def SamplesCount : Int := 2048

/-- `Dx` (OceanFloor.h, 81). -/
def Dx {F : Type} [LinearOrderedField F] : F :=
  GameParameters.MaxWorldWidth / ((SamplesCount : Int) : F)

/-- `GetHeightAt(x)` (OceanFloor.h, 41-72). A read of `mSamples` outside the stored array gives
`none`. -/
def GetHeightAt {F : Type} [LinearOrderedField F] [FloorRing F] (o : OceanFloor F) (x : F) :
    Option F :=
  let sampleIndexF : F := (x + GameParameters.HalfMaxWorldWidth) / Dx
  let sampleIndexI : Int := FastTruncateInt64 sampleIndexF
  let sampleIndexDx : F := sampleIndexF - ((sampleIndexI : Int) : F)
  if sampleIndexI < 0 then
    (o.mSamples[0]?).map (fun s => s.SampleValue)
  else if sampleIndexI > SamplesCount then
    (o.mSamples[SamplesCount.toNat]?).map (fun s => s.SampleValue)
  else
    (o.mSamples[sampleIndexI.toNat]?).map
      (fun s => s.SampleValue + s.SampleValuePlusOneMinusSampleValue * sampleIndexDx)

end Physics.OceanFloor

/-! ## GameController: the game-parameter accessors -/

/-- The state of `GameController` that the game-parameter accessors read and write
(GameController.h, 480 and 663). -/
structure GameController (F : Type) where
  mGameParameters : GameParameters F
  mParameterSmoothers : Array (GameController.ParameterSmoother F)

namespace GameController

section accessors
variable {F : Type} [LinearOrderedField F]

def SpringStiffnessAdjustmentParameterSmoother : Nat := 0

def SpringStrengthAdjustmentParameterSmoother : Nat := 1

def SeaDepthParameterSmoother : Nat := 2

def OceanFloorBumpinessParameterSmoother : Nat := 3

def OceanFloorDetailAmplificationParameterSmoother : Nat := 4

/-! The accessors of GameController.h, 171-358, for the parameters that have `GetMin`/`GetMax`
accessors. An accessor of a smoothed parameter reads `mParameterSmoothers[index]`; `SetValue`
on it reads the clock (`clockNow`). -/

def GetNumMechanicalDynamicsIterationsAdjustment (gc : GameController F) : F :=
  gc.mGameParameters.NumMechanicalDynamicsIterationsAdjustment

def SetNumMechanicalDynamicsIterationsAdjustment (gc : GameController F) (value : F) : GameController F :=
  { gc with mGameParameters := { gc.mGameParameters with NumMechanicalDynamicsIterationsAdjustment := value } }

def GetMinNumMechanicalDynamicsIterationsAdjustment : F :=
  GameParameters.MinNumMechanicalDynamicsIterationsAdjustment

def GetMaxNumMechanicalDynamicsIterationsAdjustment : F :=
  GameParameters.MaxNumMechanicalDynamicsIterationsAdjustment

def GetSpringStiffnessAdjustment (gc : GameController F) : Option F :=
  (gc.mParameterSmoothers[SpringStiffnessAdjustmentParameterSmoother]?).map ParameterSmoother.GetValue

def SetSpringStiffnessAdjustment (gc : GameController F) (value : F) (clockNow : Int) : GameController F :=
  { gc with
    mParameterSmoothers :=
      gc.mParameterSmoothers.modify SpringStiffnessAdjustmentParameterSmoother
        (fun ps => (ps.SetValue value clockNow).1) }

def GetMinSpringStiffnessAdjustment : F :=
  GameParameters.MinSpringStiffnessAdjustment

def GetMaxSpringStiffnessAdjustment : F :=
  GameParameters.MaxSpringStiffnessAdjustment

def GetSpringDampingAdjustment (gc : GameController F) : F :=
  gc.mGameParameters.SpringDampingAdjustment

def SetSpringDampingAdjustment (gc : GameController F) (value : F) : GameController F :=
  { gc with mGameParameters := { gc.mGameParameters with SpringDampingAdjustment := value } }

def GetMinSpringDampingAdjustment : F :=
  GameParameters.MinSpringDampingAdjustment

def GetMaxSpringDampingAdjustment : F :=
  GameParameters.MaxSpringDampingAdjustment

def GetSpringStrengthAdjustment (gc : GameController F) : Option F :=
  (gc.mParameterSmoothers[SpringStrengthAdjustmentParameterSmoother]?).map ParameterSmoother.GetValue

def SetSpringStrengthAdjustment (gc : GameController F) (value : F) (clockNow : Int) : GameController F :=
  { gc with
    mParameterSmoothers :=
      gc.mParameterSmoothers.modify SpringStrengthAdjustmentParameterSmoother
        (fun ps => (ps.SetValue value clockNow).1) }

def GetMinSpringStrengthAdjustment : F :=
  GameParameters.MinSpringStrengthAdjustment

def GetMaxSpringStrengthAdjustment : F :=
  GameParameters.MaxSpringStrengthAdjustment

def GetRotAcceler8r (gc : GameController F) : F :=
  gc.mGameParameters.RotAcceler8r

def SetRotAcceler8r (gc : GameController F) (value : F) : GameController F :=
  { gc with mGameParameters := { gc.mGameParameters with RotAcceler8r := value } }

def GetMinRotAcceler8r : F :=
  GameParameters.MinRotAcceler8r

def GetMaxRotAcceler8r : F :=
  GameParameters.MaxRotAcceler8r

def GetWaterDensityAdjustment (gc : GameController F) : F :=
  gc.mGameParameters.WaterDensityAdjustment

def SetWaterDensityAdjustment (gc : GameController F) (value : F) : GameController F :=
  { gc with mGameParameters := { gc.mGameParameters with WaterDensityAdjustment := value } }

def GetMinWaterDensityAdjustment : F :=
  GameParameters.MinWaterDensityAdjustment

def GetMaxWaterDensityAdjustment : F :=
  GameParameters.MaxWaterDensityAdjustment

def GetWaterDragAdjustment (gc : GameController F) : F :=
  gc.mGameParameters.WaterDragAdjustment

def SetWaterDragAdjustment (gc : GameController F) (value : F) : GameController F :=
  { gc with mGameParameters := { gc.mGameParameters with WaterDragAdjustment := value } }

def GetMinWaterDragAdjustment : F :=
  GameParameters.MinWaterDragAdjustment

def GetMaxWaterDragAdjustment : F :=
  GameParameters.MaxWaterDragAdjustment

def GetWaterIntakeAdjustment (gc : GameController F) : F :=
  gc.mGameParameters.WaterIntakeAdjustment

def SetWaterIntakeAdjustment (gc : GameController F) (value : F) : GameController F :=
  { gc with mGameParameters := { gc.mGameParameters with WaterIntakeAdjustment := value } }

def GetMinWaterIntakeAdjustment : F :=
  GameParameters.MinWaterIntakeAdjustment

def GetMaxWaterIntakeAdjustment : F :=
  GameParameters.MaxWaterIntakeAdjustment

def GetWaterCrazyness (gc : GameController F) : F :=
  gc.mGameParameters.WaterCrazyness

def SetWaterCrazyness (gc : GameController F) (value : F) : GameController F :=
  { gc with mGameParameters := { gc.mGameParameters with WaterCrazyness := value } }

def GetMinWaterCrazyness : F :=
  GameParameters.MinWaterCrazyness

def GetMaxWaterCrazyness : F :=
  GameParameters.MaxWaterCrazyness

def GetWaterDiffusionSpeedAdjustment (gc : GameController F) : F :=
  gc.mGameParameters.WaterDiffusionSpeedAdjustment

def SetWaterDiffusionSpeedAdjustment (gc : GameController F) (value : F) : GameController F :=
  { gc with mGameParameters := { gc.mGameParameters with WaterDiffusionSpeedAdjustment := value } }

def GetMinWaterDiffusionSpeedAdjustment : F :=
  GameParameters.MinWaterDiffusionSpeedAdjustment

def GetMaxWaterDiffusionSpeedAdjustment : F :=
  GameParameters.MaxWaterDiffusionSpeedAdjustment

def GetBasalWaveHeightAdjustment (gc : GameController F) : F :=
  gc.mGameParameters.BasalWaveHeightAdjustment

def SetBasalWaveHeightAdjustment (gc : GameController F) (value : F) : GameController F :=
  { gc with mGameParameters := { gc.mGameParameters with BasalWaveHeightAdjustment := value } }

def GetMinBasalWaveHeightAdjustment : F :=
  GameParameters.MinBasalWaveHeightAdjustment

def GetMaxBasalWaveHeightAdjustment : F :=
  GameParameters.MaxBasalWaveHeightAdjustment

def GetBasalWaveLengthAdjustment (gc : GameController F) : F :=
  gc.mGameParameters.BasalWaveLengthAdjustment

def SetBasalWaveLengthAdjustment (gc : GameController F) (value : F) : GameController F :=
  { gc with mGameParameters := { gc.mGameParameters with BasalWaveLengthAdjustment := value } }

def GetMinBasalWaveLengthAdjustment : F :=
  GameParameters.MinBasalWaveLengthAdjustment

def GetMaxBasalWaveLengthAdjustment : F :=
  GameParameters.MaxBasalWaveLengthAdjustment

def GetBasalWaveSpeedAdjustment (gc : GameController F) : F :=
  gc.mGameParameters.BasalWaveSpeedAdjustment

def SetBasalWaveSpeedAdjustment (gc : GameController F) (value : F) : GameController F :=
  { gc with mGameParameters := { gc.mGameParameters with BasalWaveSpeedAdjustment := value } }

def GetMinBasalWaveSpeedAdjustment : F :=
  GameParameters.MinBasalWaveSpeedAdjustment

def GetMaxBasalWaveSpeedAdjustment : F :=
  GameParameters.MaxBasalWaveSpeedAdjustment

def GetTsunamiRate (gc : GameController F) : F :=
  gc.mGameParameters.TsunamiRate

def SetTsunamiRate (gc : GameController F) (value : F) : GameController F :=
  { gc with mGameParameters := { gc.mGameParameters with TsunamiRate := value } }

def GetMinTsunamiRate : F :=
  GameParameters.MinTsunamiRate

def GetMaxTsunamiRate : F :=
  GameParameters.MaxTsunamiRate

def GetRogueWaveRate (gc : GameController F) : F :=
  gc.mGameParameters.RogueWaveRate

def SetRogueWaveRate (gc : GameController F) (value : F) : GameController F :=
  { gc with mGameParameters := { gc.mGameParameters with RogueWaveRate := value } }

def GetMinRogueWaveRate : F :=
  GameParameters.MinRogueWaveRate

def GetMaxRogueWaveRate : F :=
  GameParameters.MaxRogueWaveRate

def GetWindSpeedBase (gc : GameController F) : F :=
  gc.mGameParameters.WindSpeedBase

def SetWindSpeedBase (gc : GameController F) (value : F) : GameController F :=
  { gc with mGameParameters := { gc.mGameParameters with WindSpeedBase := value } }

def GetMinWindSpeedBase : F :=
  GameParameters.MinWindSpeedBase

def GetMaxWindSpeedBase : F :=
  GameParameters.MaxWindSpeedBase

def GetWindSpeedMaxFactor (gc : GameController F) : F :=
  gc.mGameParameters.WindSpeedMaxFactor

def SetWindSpeedMaxFactor (gc : GameController F) (value : F) : GameController F :=
  { gc with mGameParameters := { gc.mGameParameters with WindSpeedMaxFactor := value } }

def GetMinWindSpeedMaxFactor : F :=
  GameParameters.MinWindSpeedMaxFactor

def GetMaxWindSpeedMaxFactor : F :=
  GameParameters.MaxWindSpeedMaxFactor

def GetFlameThrowerHeatFlow (gc : GameController F) : F :=
  gc.mGameParameters.FlameThrowerHeatFlow

def SetFlameThrowerHeatFlow (gc : GameController F) (value : F) : GameController F :=
  { gc with mGameParameters := { gc.mGameParameters with FlameThrowerHeatFlow := value } }

def GetMinFlameThrowerHeatFlow : F :=
  GameParameters.MinFlameThrowerHeatFlow

def GetMaxFlameThrowerHeatFlow : F :=
  GameParameters.MaxFlameThrowerHeatFlow

def GetFlameThrowerRadius (gc : GameController F) : F :=
  gc.mGameParameters.FlameThrowerRadius

def SetFlameThrowerRadius (gc : GameController F) (value : F) : GameController F :=
  { gc with mGameParameters := { gc.mGameParameters with FlameThrowerRadius := value } }

def GetMinFlameThrowerRadius : F :=
  GameParameters.MinFlameThrowerRadius

def GetMaxFlameThrowerRadius : F :=
  GameParameters.MaxFlameThrowerRadius

def GetSeaDepth (gc : GameController F) : Option F :=
  (gc.mParameterSmoothers[SeaDepthParameterSmoother]?).map ParameterSmoother.GetValue

def SetSeaDepth (gc : GameController F) (value : F) (clockNow : Int) : GameController F :=
  { gc with
    mParameterSmoothers :=
      gc.mParameterSmoothers.modify SeaDepthParameterSmoother
        (fun ps => (ps.SetValue value clockNow).1) }

def GetMinSeaDepth : F :=
  GameParameters.MinSeaDepth

def GetMaxSeaDepth : F :=
  GameParameters.MaxSeaDepth

def GetOceanFloorBumpiness (gc : GameController F) : Option F :=
  (gc.mParameterSmoothers[OceanFloorBumpinessParameterSmoother]?).map ParameterSmoother.GetValue

def SetOceanFloorBumpiness (gc : GameController F) (value : F) (clockNow : Int) : GameController F :=
  { gc with
    mParameterSmoothers :=
      gc.mParameterSmoothers.modify OceanFloorBumpinessParameterSmoother
        (fun ps => (ps.SetValue value clockNow).1) }

def GetMinOceanFloorBumpiness : F :=
  GameParameters.MinOceanFloorBumpiness

def GetMaxOceanFloorBumpiness : F :=
  GameParameters.MaxOceanFloorBumpiness

def GetOceanFloorDetailAmplification (gc : GameController F) : Option F :=
  (gc.mParameterSmoothers[OceanFloorDetailAmplificationParameterSmoother]?).map ParameterSmoother.GetValue

def SetOceanFloorDetailAmplification (gc : GameController F) (value : F) (clockNow : Int) : GameController F :=
  { gc with
    mParameterSmoothers :=
      gc.mParameterSmoothers.modify OceanFloorDetailAmplificationParameterSmoother
        (fun ps => (ps.SetValue value clockNow).1) }

def GetMinOceanFloorDetailAmplification : F :=
  GameParameters.MinOceanFloorDetailAmplification

def GetMaxOceanFloorDetailAmplification : F :=
  GameParameters.MaxOceanFloorDetailAmplification

def GetDestroyRadius (gc : GameController F) : F :=
  gc.mGameParameters.DestroyRadius

def SetDestroyRadius (gc : GameController F) (value : F) : GameController F :=
  { gc with mGameParameters := { gc.mGameParameters with DestroyRadius := value } }

def GetMinDestroyRadius : F :=
  GameParameters.MinDestroyRadius

def GetMaxDestroyRadius : F :=
  GameParameters.MaxDestroyRadius

def GetRepairRadius (gc : GameController F) : F :=
  gc.mGameParameters.RepairRadius

def SetRepairRadius (gc : GameController F) (value : F) : GameController F :=
  { gc with mGameParameters := { gc.mGameParameters with RepairRadius := value } }

def GetMinRepairRadius : F :=
  GameParameters.MinRepairRadius

def GetMaxRepairRadius : F :=
  GameParameters.MaxRepairRadius

def GetRepairSpeedAdjustment (gc : GameController F) : F :=
  gc.mGameParameters.RepairSpeedAdjustment

def SetRepairSpeedAdjustment (gc : GameController F) (value : F) : GameController F :=
  { gc with mGameParameters := { gc.mGameParameters with RepairSpeedAdjustment := value } }

def GetMinRepairSpeedAdjustment : F :=
  GameParameters.MinRepairSpeedAdjustment

def GetMaxRepairSpeedAdjustment : F :=
  GameParameters.MaxRepairSpeedAdjustment

def GetBombBlastRadius (gc : GameController F) : F :=
  gc.mGameParameters.BombBlastRadius

def SetBombBlastRadius (gc : GameController F) (value : F) : GameController F :=
  { gc with mGameParameters := { gc.mGameParameters with BombBlastRadius := value } }

def GetMinBombBlastRadius : F :=
  GameParameters.MinBombBlastRadius

def GetMaxBombBlastRadius : F :=
  GameParameters.MaxBombBlastRadius

def GetAntiMatterBombImplosionStrength (gc : GameController F) : F :=
  gc.mGameParameters.AntiMatterBombImplosionStrength

def SetAntiMatterBombImplosionStrength (gc : GameController F) (value : F) : GameController F :=
  { gc with mGameParameters := { gc.mGameParameters with AntiMatterBombImplosionStrength := value } }

def GetMinAntiMatterBombImplosionStrength : F :=
  GameParameters.MinAntiMatterBombImplosionStrength

def GetMaxAntiMatterBombImplosionStrength : F :=
  GameParameters.MaxAntiMatterBombImplosionStrength

def GetFloodRadius (gc : GameController F) : F :=
  gc.mGameParameters.FloodRadius

def SetFloodRadius (gc : GameController F) (value : F) : GameController F :=
  { gc with mGameParameters := { gc.mGameParameters with FloodRadius := value } }

def GetMinFloodRadius : F :=
  GameParameters.MinFloodRadius

def GetMaxFloodRadius : F :=
  GameParameters.MaxFloodRadius

def GetFloodQuantity (gc : GameController F) : F :=
  gc.mGameParameters.FloodQuantity

def SetFloodQuantity (gc : GameController F) (value : F) : GameController F :=
  { gc with mGameParameters := { gc.mGameParameters with FloodQuantity := value } }

def GetMinFloodQuantity : F :=
  GameParameters.MinFloodQuantity

def GetMaxFloodQuantity : F :=
  GameParameters.MaxFloodQuantity

def GetLuminiscenceAdjustment (gc : GameController F) : F :=
  gc.mGameParameters.LuminiscenceAdjustment

def SetLuminiscenceAdjustment (gc : GameController F) (value : F) : GameController F :=
  { gc with mGameParameters := { gc.mGameParameters with LuminiscenceAdjustment := value } }

def GetMinLuminiscenceAdjustment : F :=
  GameParameters.MinLuminiscenceAdjustment

def GetMaxLuminiscenceAdjustment : F :=
  GameParameters.MaxLuminiscenceAdjustment

def GetLightSpreadAdjustment (gc : GameController F) : F :=
  gc.mGameParameters.LightSpreadAdjustment

def SetLightSpreadAdjustment (gc : GameController F) (value : F) : GameController F :=
  { gc with mGameParameters := { gc.mGameParameters with LightSpreadAdjustment := value } }

def GetMinLightSpreadAdjustment : F :=
  GameParameters.MinLightSpreadAdjustment

def GetMaxLightSpreadAdjustment : F :=
  GameParameters.MaxLightSpreadAdjustment

/-- `GetAirBubblesDensity()` (GameController.h, 345): a `float` subtraction, rounded by
`fl`. -/
def GetAirBubblesDensity (fl : F → F) (gc : GameController F) : F :=
  fl (GameParameters.MaxCumulatedIntakenWaterThresholdForAirBubbles
    - gc.mGameParameters.CumulatedIntakenWaterThresholdForAirBubbles)

/-- `SetAirBubblesDensity(value)` (GameController.h, 346): the `float` difference, rounded by
`fl`, is stored. -/
def SetAirBubblesDensity (fl : F → F) (gc : GameController F) (value : F) : GameController F :=
  { gc with
    mGameParameters :=
      { gc.mGameParameters with
        CumulatedIntakenWaterThresholdForAirBubbles :=
          fl (GameParameters.MaxCumulatedIntakenWaterThresholdForAirBubbles - value) } }

/-- `GetMinAirBubblesDensity()` (GameController.h, 347). -/
def GetMinAirBubblesDensity (fl : F → F) : F :=
  fl (GameParameters.MaxCumulatedIntakenWaterThresholdForAirBubbles
    - GameParameters.MaxCumulatedIntakenWaterThresholdForAirBubbles)

/-- `GetMaxAirBubblesDensity()` (GameController.h, 348). -/
def GetMaxAirBubblesDensity (fl : F → F) : F :=
  fl (GameParameters.MaxCumulatedIntakenWaterThresholdForAirBubbles
    - GameParameters.MinCumulatedIntakenWaterThresholdForAirBubbles)

def GetNumberOfStars (gc : GameController F) : Nat :=
  gc.mGameParameters.NumberOfStars

def SetNumberOfStars (gc : GameController F) (value : Nat) : GameController F :=
  { gc with mGameParameters := { gc.mGameParameters with NumberOfStars := value } }

def GetMinNumberOfStars : Nat :=
  GameParameters.MinNumberOfStars

def GetMaxNumberOfStars : Nat :=
  GameParameters.MaxNumberOfStars

def GetNumberOfClouds (gc : GameController F) : Nat :=
  gc.mGameParameters.NumberOfClouds

def SetNumberOfClouds (gc : GameController F) (value : Nat) : GameController F :=
  { gc with mGameParameters := { gc.mGameParameters with NumberOfClouds := value } }

def GetMinNumberOfClouds : Nat :=
  GameParameters.MinNumberOfClouds

def GetMaxNumberOfClouds : Nat :=
  GameParameters.MaxNumberOfClouds

/-- The four accessors `GetX`, `SetX`, `GetMinX`, `GetMaxX` of a directly stored parameter with
values in `V`. -/
structure TunableParameter (F : Type) (V : Type) where
  Get : GameController F → V
  Set : GameController F → V → GameController F
  GetMin : V
  GetMax : V

/-- The accessors of a smoothed parameter, with the index of its smoother. -/
structure SmoothedParameter (F : Type) where
  index : Nat
  Get : GameController F → Option F
  Set : GameController F → F → Int → GameController F
  GetMin : F
  GetMax : F

/-- The directly stored `float` parameters that have `GetMin`/`GetMax` accessors and whose
accessors are plain reads and assignments, in the order of GameController.h; the accessors of
`AirBubblesDensity` subtract and stand apart. -/

def directFloatParameters : List (TunableParameter F F) :=
  [ ⟨GetNumMechanicalDynamicsIterationsAdjustment, SetNumMechanicalDynamicsIterationsAdjustment, GetMinNumMechanicalDynamicsIterationsAdjustment, GetMaxNumMechanicalDynamicsIterationsAdjustment⟩,
    ⟨GetSpringDampingAdjustment, SetSpringDampingAdjustment, GetMinSpringDampingAdjustment, GetMaxSpringDampingAdjustment⟩,
    ⟨GetRotAcceler8r, SetRotAcceler8r, GetMinRotAcceler8r, GetMaxRotAcceler8r⟩,
    ⟨GetWaterDensityAdjustment, SetWaterDensityAdjustment, GetMinWaterDensityAdjustment, GetMaxWaterDensityAdjustment⟩,
    ⟨GetWaterDragAdjustment, SetWaterDragAdjustment, GetMinWaterDragAdjustment, GetMaxWaterDragAdjustment⟩,
    ⟨GetWaterIntakeAdjustment, SetWaterIntakeAdjustment, GetMinWaterIntakeAdjustment, GetMaxWaterIntakeAdjustment⟩,
    ⟨GetWaterCrazyness, SetWaterCrazyness, GetMinWaterCrazyness, GetMaxWaterCrazyness⟩,
    ⟨GetWaterDiffusionSpeedAdjustment, SetWaterDiffusionSpeedAdjustment, GetMinWaterDiffusionSpeedAdjustment, GetMaxWaterDiffusionSpeedAdjustment⟩,
    ⟨GetBasalWaveHeightAdjustment, SetBasalWaveHeightAdjustment, GetMinBasalWaveHeightAdjustment, GetMaxBasalWaveHeightAdjustment⟩,
    ⟨GetBasalWaveLengthAdjustment, SetBasalWaveLengthAdjustment, GetMinBasalWaveLengthAdjustment, GetMaxBasalWaveLengthAdjustment⟩,
    ⟨GetBasalWaveSpeedAdjustment, SetBasalWaveSpeedAdjustment, GetMinBasalWaveSpeedAdjustment, GetMaxBasalWaveSpeedAdjustment⟩,
    ⟨GetTsunamiRate, SetTsunamiRate, GetMinTsunamiRate, GetMaxTsunamiRate⟩,
    ⟨GetRogueWaveRate, SetRogueWaveRate, GetMinRogueWaveRate, GetMaxRogueWaveRate⟩,
    ⟨GetWindSpeedBase, SetWindSpeedBase, GetMinWindSpeedBase, GetMaxWindSpeedBase⟩,
    ⟨GetWindSpeedMaxFactor, SetWindSpeedMaxFactor, GetMinWindSpeedMaxFactor, GetMaxWindSpeedMaxFactor⟩,
    ⟨GetFlameThrowerHeatFlow, SetFlameThrowerHeatFlow, GetMinFlameThrowerHeatFlow, GetMaxFlameThrowerHeatFlow⟩,
    ⟨GetFlameThrowerRadius, SetFlameThrowerRadius, GetMinFlameThrowerRadius, GetMaxFlameThrowerRadius⟩,
    ⟨GetDestroyRadius, SetDestroyRadius, GetMinDestroyRadius, GetMaxDestroyRadius⟩,
    ⟨GetRepairRadius, SetRepairRadius, GetMinRepairRadius, GetMaxRepairRadius⟩,
    ⟨GetRepairSpeedAdjustment, SetRepairSpeedAdjustment, GetMinRepairSpeedAdjustment, GetMaxRepairSpeedAdjustment⟩,
    ⟨GetBombBlastRadius, SetBombBlastRadius, GetMinBombBlastRadius, GetMaxBombBlastRadius⟩,
    ⟨GetAntiMatterBombImplosionStrength, SetAntiMatterBombImplosionStrength, GetMinAntiMatterBombImplosionStrength, GetMaxAntiMatterBombImplosionStrength⟩,
    ⟨GetFloodRadius, SetFloodRadius, GetMinFloodRadius, GetMaxFloodRadius⟩,
    ⟨GetFloodQuantity, SetFloodQuantity, GetMinFloodQuantity, GetMaxFloodQuantity⟩,
    ⟨GetLuminiscenceAdjustment, SetLuminiscenceAdjustment, GetMinLuminiscenceAdjustment, GetMaxLuminiscenceAdjustment⟩,
    ⟨GetLightSpreadAdjustment, SetLightSpreadAdjustment, GetMinLightSpreadAdjustment, GetMaxLightSpreadAdjustment⟩ ]

/-- The directly stored `size_t` parameters that have `GetMin`/`GetMax` accessors. -/

def directCountParameters : List (TunableParameter F Nat) :=
  [ ⟨GetNumberOfStars, SetNumberOfStars, GetMinNumberOfStars, GetMaxNumberOfStars⟩,
    ⟨GetNumberOfClouds, SetNumberOfClouds, GetMinNumberOfClouds, GetMaxNumberOfClouds⟩ ]

/-- The parameters that are read and written through a smoother. -/

def smoothedParameters : List (SmoothedParameter F) :=
  [ ⟨SpringStiffnessAdjustmentParameterSmoother, GetSpringStiffnessAdjustment, SetSpringStiffnessAdjustment, GetMinSpringStiffnessAdjustment, GetMaxSpringStiffnessAdjustment⟩,
    ⟨SpringStrengthAdjustmentParameterSmoother, GetSpringStrengthAdjustment, SetSpringStrengthAdjustment, GetMinSpringStrengthAdjustment, GetMaxSpringStrengthAdjustment⟩,
    ⟨SeaDepthParameterSmoother, GetSeaDepth, SetSeaDepth, GetMinSeaDepth, GetMaxSeaDepth⟩,
    ⟨OceanFloorBumpinessParameterSmoother, GetOceanFloorBumpiness, SetOceanFloorBumpiness, GetMinOceanFloorBumpiness, GetMaxOceanFloorBumpiness⟩,
    ⟨OceanFloorDetailAmplificationParameterSmoother, GetOceanFloorDetailAmplification, SetOceanFloorDetailAmplification, GetMinOceanFloorDetailAmplification, GetMaxOceanFloorDetailAmplification⟩ ]

/-- A concrete controller state: the default parameters and five smoothers, each constructed at
clock reading 0 with a trajectory time of 1000 ms on the default value of its parameter. -/
def sampleController : GameController F :=
  { mGameParameters := GameParameters.create
    mParameterSmoothers :=
      #[ ParameterSmoother.create (GameParameters.create (F := F)).SpringStiffnessAdjustment 1000 0,
         ParameterSmoother.create (GameParameters.create (F := F)).SpringStrengthAdjustment 1000 0,
         ParameterSmoother.create (GameParameters.create (F := F)).SeaDepth 1000 0,
         ParameterSmoother.create (GameParameters.create (F := F)).OceanFloorBumpiness 1000 0,
         ParameterSmoother.create (GameParameters.create (F := F)).OceanFloorDetailAmplification
           1000 0 ] }

end accessors

end GameController
/-! ## GameParameters: the declared bounds -/

namespace GameParameters

section bounds
variable {F : Type} [LinearOrderedField F]

/-- A tunable field of `GameParameters` together with its declared bounds `MinX` and `MaxX`. -/
structure BoundedField (F : Type) (V : Type) where
  value : GameParameters F → V
  Min : V
  Max : V

/-- The `float` fields that declare `MinX` and `MaxX` (GameParameters.h, 89-296), in declaration
order. -/
def boundedFloatFields : List (BoundedField F F) :=
  [ ⟨NumMechanicalDynamicsIterationsAdjustment, MinNumMechanicalDynamicsIterationsAdjustment, MaxNumMechanicalDynamicsIterationsAdjustment⟩,
    ⟨SpringStiffnessAdjustment, MinSpringStiffnessAdjustment, MaxSpringStiffnessAdjustment⟩,
    ⟨SpringDampingAdjustment, MinSpringDampingAdjustment, MaxSpringDampingAdjustment⟩,
    ⟨SpringStrengthAdjustment, MinSpringStrengthAdjustment, MaxSpringStrengthAdjustment⟩,
    ⟨RotAcceler8r, MinRotAcceler8r, MaxRotAcceler8r⟩,
    ⟨WaterDensityAdjustment, MinWaterDensityAdjustment, MaxWaterDensityAdjustment⟩,
    ⟨WaterDragAdjustment, MinWaterDragAdjustment, MaxWaterDragAdjustment⟩,
    ⟨WaterIntakeAdjustment, MinWaterIntakeAdjustment, MaxWaterIntakeAdjustment⟩,
    ⟨WaterDiffusionSpeedAdjustment, MinWaterDiffusionSpeedAdjustment, MaxWaterDiffusionSpeedAdjustment⟩,
    ⟨WaterCrazyness, MinWaterCrazyness, MaxWaterCrazyness⟩,
    ⟨CumulatedIntakenWaterThresholdForAirBubbles, MinCumulatedIntakenWaterThresholdForAirBubbles, MaxCumulatedIntakenWaterThresholdForAirBubbles⟩,
    ⟨WindSpeedBase, MinWindSpeedBase, MaxWindSpeedBase⟩,
    ⟨WindSpeedMaxFactor, MinWindSpeedMaxFactor, MaxWindSpeedMaxFactor⟩,
    ⟨WindGustFrequencyAdjustment, MinWindGustFrequencyAdjustment, MaxWindGustFrequencyAdjustment⟩,
    ⟨BasalWaveHeightAdjustment, MinBasalWaveHeightAdjustment, MaxBasalWaveHeightAdjustment⟩,
    ⟨BasalWaveLengthAdjustment, MinBasalWaveLengthAdjustment, MaxBasalWaveLengthAdjustment⟩,
    ⟨BasalWaveSpeedAdjustment, MinBasalWaveSpeedAdjustment, MaxBasalWaveSpeedAdjustment⟩,
    ⟨TsunamiRate, MinTsunamiRate, MaxTsunamiRate⟩,
    ⟨RogueWaveRate, MinRogueWaveRate, MaxRogueWaveRate⟩,
    ⟨FlameThrowerHeatFlow, MinFlameThrowerHeatFlow, MaxFlameThrowerHeatFlow⟩,
    ⟨FlameThrowerRadius, MinFlameThrowerRadius, MaxFlameThrowerRadius⟩,
    ⟨SeaDepth, MinSeaDepth, MaxSeaDepth⟩,
    ⟨OceanFloorBumpiness, MinOceanFloorBumpiness, MaxOceanFloorBumpiness⟩,
    ⟨OceanFloorDetailAmplification, MinOceanFloorDetailAmplification, MaxOceanFloorDetailAmplification⟩,
    ⟨LuminiscenceAdjustment, MinLuminiscenceAdjustment, MaxLuminiscenceAdjustment⟩,
    ⟨LightSpreadAdjustment, MinLightSpreadAdjustment, MaxLightSpreadAdjustment⟩,
    ⟨DestroyRadius, MinDestroyRadius, MaxDestroyRadius⟩,
    ⟨RepairRadius, MinRepairRadius, MaxRepairRadius⟩,
    ⟨RepairSpeedAdjustment, MinRepairSpeedAdjustment, MaxRepairSpeedAdjustment⟩,
    ⟨BombBlastRadius, MinBombBlastRadius, MaxBombBlastRadius⟩,
    ⟨AntiMatterBombImplosionStrength, MinAntiMatterBombImplosionStrength, MaxAntiMatterBombImplosionStrength⟩,
    ⟨FloodRadius, MinFloodRadius, MaxFloodRadius⟩,
    ⟨FloodQuantity, MinFloodQuantity, MaxFloodQuantity⟩ ]

/-- The `size_t` fields that declare `MinX` and `MaxX` (GameParameters.h, 248-254). -/
def boundedCountFields : List (BoundedField F Nat) :=
  [ ⟨NumberOfStars, MinNumberOfStars, MaxNumberOfStars⟩,
    ⟨NumberOfClouds, MinNumberOfClouds, MaxNumberOfClouds⟩ ]

/-- The range invariant of the parameters: every field that declares bounds lies within them. -/
def InRange (gp : GameParameters F) : Prop :=
  (∀ b ∈ boundedFloatFields (F := F), b.Min ≤ b.value gp ∧ b.value gp ≤ b.Max) ∧
  (∀ b ∈ boundedCountFields (F := F), b.Min ≤ b.value gp ∧ b.value gp ≤ b.Max)

end bounds

end GameParameters

/-! ## OceanFloor: terrain edits and the locals of `GetHeightAt` -/

namespace Physics.OceanFloor

/-- Modelled from the spec: the world x of sample `i` of the fixed sample grid, which spans the
world width uniformly from `-HalfMaxWorldWidth` in steps of `Dx`. -/
def sampleX {F : Type} [LinearOrderedField F] (i : Nat) : F :=
  -GameParameters.HalfMaxWorldWidth + (i : F) * Dx

/-- Modelled from the spec: the value `AdjustTo(x1, targetY1, x2, targetY2)` gives to sample `i`
whose stored value is `oldValue`. The body of `OceanFloor::AdjustTo` is in `Game/OceanFloor.cpp`,
which is not among the sources (OceanFloor.h, 35-39 declares it); by the spec it rewrites the
samples between `x1` and `x2` with the linear interpolation from `targetY1` to `targetY2`. -/
def AdjustTo.newSampleValue {F : Type} [LinearOrderedField F] (x1 targetY1 x2 targetY2 : F)
    (i : Nat) (oldValue : F) : F :=
  if min x1 x2 ≤ sampleX i ∧ sampleX i ≤ max x1 x2 then
    targetY1 + (targetY2 - targetY1) * ((sampleX i - x1) / (x2 - x1))
  else
    oldValue

/-- Modelled from the spec: `OceanFloor::AdjustTo` (declared at OceanFloor.h, 35-39; its body is
in `Game/OceanFloor.cpp`, which is not among the sources). It rewrites the stored samples whose
x lies between `x1` and `x2` (the array is the sample grid, so the edit is clipped to it) with
the linear interpolation from `targetY1` to `targetY2`, recomputes each stored delta as the
forward difference to the next sample (the last sample keeps its delta), and returns whether
any sample value changed. -/
def AdjustTo {F : Type} [LinearOrderedField F] (o : OceanFloor F) (x1 targetY1 x2 targetY2 : F) :
    OceanFloor F × Bool :=
  let newValue : Fin o.mSamples.size → F := fun i =>
    AdjustTo.newSampleValue x1 targetY1 x2 targetY2 i.val (o.mSamples.get i).SampleValue
  let newSamples : Array (Sample F) := Array.ofFn (n := o.mSamples.size) (fun i =>
    { SampleValue := newValue i
      SampleValuePlusOneMinusSampleValue :=
        if h : i.val + 1 < o.mSamples.size then newValue ⟨i.val + 1, h⟩ - newValue i
        else (o.mSamples.get i).SampleValuePlusOneMinusSampleValue })
  ({ mSamples := newSamples },
    (List.finRange o.mSamples.size).any
      (fun i => decide (newValue i ≠ (o.mSamples.get i).SampleValue)))

/-- A flat floor at -40: `SamplesCount + 1` samples of value -40, every stored delta 0. -/
def flatFloor {F : Type} [LinearOrderedField F] : OceanFloor F :=
  { mSamples := Array.mkArray 2049 ⟨-40, 0⟩ }

end Physics.OceanFloor

namespace Physics.OceanFloor

/-- The local `sampleIndexF` of `GetHeightAt` (OceanFloor.h, 48). -/
def GetHeightAt.sampleIndexF {F : Type} [LinearOrderedField F] (x : F) : F :=
  (x + GameParameters.HalfMaxWorldWidth) / Dx

/-- The local `sampleIndexI` of `GetHeightAt` (OceanFloor.h, 51). -/
def GetHeightAt.sampleIndexI {F : Type} [LinearOrderedField F] [FloorRing F] (x : F) : Int :=
  FastTruncateInt64 (GetHeightAt.sampleIndexF x)

/-- The local `sampleIndexDx` of `GetHeightAt` (OceanFloor.h, 54). -/
def GetHeightAt.sampleIndexDx {F : Type} [LinearOrderedField F] [FloorRing F] (x : F) : F :=
  GetHeightAt.sampleIndexF x - ((GetHeightAt.sampleIndexI x : Int) : F)

/-- The interpolation branch of `GetHeightAt` is taken (OceanFloor.h, 60-64): neither
`sampleIndexI < 0` nor `sampleIndexI > SamplesCount`. -/
def GetHeightAt.interpolates {F : Type} [LinearOrderedField F] [FloorRing F] (x : F) : Prop :=
  ¬ GetHeightAt.sampleIndexI x < 0 ∧ ¬ GetHeightAt.sampleIndexI x > SamplesCount

/-- The first assertion of the interpolation branch (OceanFloor.h, 66). -/
def GetHeightAt.assertIndex {F : Type} [LinearOrderedField F] [FloorRing F] (x : F) : Prop :=
  GetHeightAt.sampleIndexI x ≥ 0 ∧ GetHeightAt.sampleIndexI x ≤ SamplesCount

/-- The second assertion of the interpolation branch (OceanFloor.h, 67). -/
def GetHeightAt.assertFraction {F : Type} [LinearOrderedField F] [FloorRing F] (x : F) : Prop :=
  GetHeightAt.sampleIndexDx x ≥ 0 ∧ GetHeightAt.sampleIndexDx x ≤ 1

end Physics.OceanFloor

/-! ## ParameterSmoother: sequences of calls -/

namespace GameController.ParameterSmoother

/-- A call made on a smoother after its construction: `SetValue(value)` with the clock reading
it takes, or `Update(now)`. -/
inductive Call (F : Type) where
  | setValue (value : F) (clockNow : Int)
  | update (now : Int)

/-- One call on a smoother: the new state and the arguments of the setter invocations the call
made. -/
def step {F : Type} [LinearOrderedField F] (sin : F → F) (Pi : F) (ps : ParameterSmoother F) :
    Call F → ParameterSmoother F × List F
  | Call.setValue value clockNow => SetValue ps value clockNow
  | Call.update now => Update sin Pi ps now

/-- A sequence of calls on a smoother, oldest first: the final state and the arguments of all
the setter invocations, in call order. -/
def run {F : Type} [LinearOrderedField F] (sin : F → F) (Pi : F) (ps : ParameterSmoother F) :
    List (Call F) → ParameterSmoother F × List F
  | [] => (ps, [])
  | c :: rest =>
    ((run sin Pi (step sin Pi ps c).1 rest).1,
      (step sin Pi ps c).2 ++ (run sin Pi (step sin Pi ps c).1 rest).2)

/-- The value of the managed parameter: the argument of the last setter invocation, or the value
the getter returned at construction when the setter was never invoked. -/
def managedValue {F : Type} (getterValue : F) (setterArguments : List F) : F :=
  (setterArguments.getLast?).getD getterValue

end GameController.ParameterSmoother

/-! ## SoundController -/

namespace SoundController

/-- Modelled from the spec: the enumeration `SizeType` of `SoundController.h`, which is not among
the sources; the size buckets Small, Medium, Large, in increasing order, with
`SizeType::Min = Small`. -/
inductive SizeType where
  | Small
  | Medium
  | Large
  deriving DecidableEq, Repr

/-- The conversion `static_cast<int>(sizeType)`. -/
def SizeType.toInt : SizeType → Int
  | SizeType.Small => 0
  | SizeType.Medium => 1
  | SizeType.Large => 2

/-- `SizeType::Min`. -/
def SizeType.Min : SizeType := SizeType.Small

/-- The local `sizeType` of `PlayMSUOneShotMultipleChoiceSound` (SoundController.cpp, 1337-1344),
as a function of the `unsigned int size` argument. -/
def PlayMSUOneShotMultipleChoiceSound.sizeType (size : Nat) : SizeType :=
  if size < 2 then SizeType.Small
  else if size < 10 then SizeType.Medium
  else SizeType.Large

end SoundController

namespace SoundController

/-- The entries of the vectors of currently playing one-shot sounds. The struct `PlayingSound` is
declared in `SoundController.h`, which is not among the sources; these are the four values it is
constructed from (SoundController.cpp, 1621-1625). `T` stands for the enumeration `SoundType`
and `S` for the `GameSound` object that `Sound` points to, both declared outside the sources;
timestamps are clock readings in whole milliseconds. -/
structure PlayingSound (T : Type) (S : Type) where
  SoundType : T
  Sound : S
  StartedTimestamp : Int
  IsInterruptible : Bool

/-- The locals of `ScavengeOldestSound` that its loop updates (SoundController.cpp,
1655-1658). -/
structure ScavengeOldestSound.Locals where
  iOldestInterruptibleSound : Nat
  oldestInterruptibleSoundStartTimestamp : Int
  iOldestNonInterruptibleSound : Nat
  oldestNonInterruptibleSoundStartTimestamp : Int

/-- `std::numeric_limits<size_t>::max()`. -/
def sizeMax : Nat := 2 ^ 64 - 1

/-- The initial values of the locals (SoundController.cpp, 1655-1658); `timeMax` stands for
`GameWallClock::time_point::max()`. -/
def ScavengeOldestSound.init (timeMax : Int) : ScavengeOldestSound.Locals :=
  { iOldestInterruptibleSound := sizeMax
    oldestInterruptibleSoundStartTimestamp := timeMax
    iOldestNonInterruptibleSound := sizeMax
    oldestNonInterruptibleSoundStartTimestamp := timeMax }

/-- The body of the loop of `ScavengeOldestSound` for index `i` (SoundController.cpp,
1661-1672). -/
def ScavengeOldestSound.body {T S : Type} (sound : PlayingSound T S) (i : Nat)
    (st : ScavengeOldestSound.Locals) : ScavengeOldestSound.Locals :=
  let st1 : ScavengeOldestSound.Locals :=
    if sound.StartedTimestamp < st.oldestNonInterruptibleSoundStartTimestamp then
      { st with
        iOldestNonInterruptibleSound := i
        oldestNonInterruptibleSoundStartTimestamp := sound.StartedTimestamp }
    else st
  if sound.StartedTimestamp < st1.oldestInterruptibleSoundStartTimestamp
      ∧ sound.IsInterruptible = true then
    { st1 with
      iOldestInterruptibleSound := i
      oldestInterruptibleSoundStartTimestamp := sound.StartedTimestamp }
  else st1

/-- The loop of `ScavengeOldestSound` (SoundController.cpp, 1659-1673) over the sounds that are
left, the first of which has index `i`. -/
def ScavengeOldestSound.loop {T S : Type} :
    List (PlayingSound T S) → Nat → ScavengeOldestSound.Locals → ScavengeOldestSound.Locals
  | [], _, st => st
  | sound :: rest, i, st =>
    ScavengeOldestSound.loop rest (i + 1) (ScavengeOldestSound.body sound i st)

/-- The local `iSoundToStop` of `ScavengeOldestSound` (SoundController.cpp, 1675-1684). -/
def ScavengeOldestSound.iSoundToStop (timeMax : Int) (st : ScavengeOldestSound.Locals) : Nat :=
  if st.oldestInterruptibleSoundStartTimestamp ≠ timeMax then st.iOldestInterruptibleSound
  else st.iOldestNonInterruptibleSound

/-- `ScavengeOldestSound(playingSounds)` (SoundController.cpp, 1645-1689): the entry whose sound
is stopped and the vector after the erasure; `none` when `iSoundToStop` is not an index of the
vector. -/
def ScavengeOldestSound {T S : Type} (timeMax : Int) (playingSounds : List (PlayingSound T S)) :
    Option (PlayingSound T S × List (PlayingSound T S)) :=
  let st := ScavengeOldestSound.loop playingSounds 0 (ScavengeOldestSound.init timeMax)
  let iSoundToStop := ScavengeOldestSound.iSoundToStop timeMax st
  (playingSounds[iSoundToStop]?).map (fun sound => (sound, playingSounds.eraseIdx iSoundToStop))

/-- Entry `k` of `l` is the first of the entries with the earliest start timestamp among those
that satisfy `p`. -/
def FirstOldest {T S : Type} (p : PlayingSound T S → Bool) (l : List (PlayingSound T S))
    (k : Nat) : Prop :=
  ∃ s, l[k]? = some s ∧ p s = true ∧
    ∀ (j : Nat) (s' : PlayingSound T S), l[j]? = some s' → p s' = true →
      s.StartedTimestamp ≤ s'.StartedTimestamp ∧ (j < k → s.StartedTimestamp < s'.StartedTimestamp)

/-- What the loop of `ScavengeOldestSound` has established for one of its two pairs of locals
`(index, timestamp)` after the entries `pre`: either no entry satisfies `p` and the timestamp is
still `timeMax`, or the pair is the first oldest entry that satisfies `p`, with its timestamp. -/
def Tracked {T S : Type} (timeMax : Int) (p : PlayingSound T S → Bool)
    (pre : List (PlayingSound T S)) (index : Nat) (timestamp : Int) : Prop :=
  (timestamp = timeMax ∧ ∀ s ∈ pre, p s = false) ∨
  (timestamp < timeMax ∧ FirstOldest p pre index ∧
    ∃ s, pre[index]? = some s ∧ s.StartedTimestamp = timestamp)

end SoundController

namespace SoundController

/-- The operations of `GameSound` that `PlayOneShotSound` and `ScavengeStoppedSounds` use.
`GameSound` and the SFML classes are declared outside the sources, so the operations are
parameters: the buffer the sound plays (the identity of the `sf::SoundBuffer`), whether its
status is `sf::Sound::Status::Stopped`, `addVolume`, and the construction of a sound from a
buffer and a volume (with the master volume and mute flag) followed by `play()`. `V` stands for
the volume values. -/
structure GameSoundOps (S : Type) (V : Type) where
  getBuffer : S → Nat
  isStopped : S → Bool
  addVolume : S → V → S
  makeAndPlay : Nat → V → S

/-- `ScavengeStoppedSounds(playingSounds)` (SoundController.cpp, 1628-1643). -/
def ScavengeStoppedSounds {T S V : Type} (ops : GameSoundOps S V) :
    List (PlayingSound T S) → List (PlayingSound T S)
  | [] => []
  | sound :: rest =>
    if ops.isStopped sound.Sound = true then ScavengeStoppedSounds ops rest
    else sound :: ScavengeStoppedSounds ops rest

/-- The first loop of `PlayOneShotSound` (SoundController.cpp, 1576-1585): `some` of the vector
with the volume added to the first sound that has the same buffer and started less than
`minDeltaTimeSoundForType` ago, when there is one (the function then returns); `none` when the
loop ends without finding one. -/
def PlayOneShotSound.addVolumeToRecent {T S V : Type} (ops : GameSoundOps S V)
    (minDeltaTimeSoundForType : Int) (now : Int) (soundBuffer : Nat) (volume : V) :
    List (PlayingSound T S) → Option (List (PlayingSound T S))
  | [] => none
  | playingSound :: rest =>
    if ops.getBuffer playingSound.Sound = soundBuffer
        ∧ now - playingSound.StartedTimestamp < minDeltaTimeSoundForType then
      some ({ playingSound with Sound := ops.addVolume playingSound.Sound volume } :: rest)
    else
      (PlayOneShotSound.addVolumeToRecent ops minDeltaTimeSoundForType now soundBuffer volume
        rest).map (fun rest' => playingSound :: rest')

/-- The part of `PlayOneShotSound` that makes room for the new sound (SoundController.cpp,
1592-1603): the vector as it is when the assertion `size() < maxPlayingSoundsForThisType` is
evaluated; `none` when `ScavengeOldestSound` has no entry to erase. -/
def PlayOneShotSound.makeRoom {T S V : Type} (ops : GameSoundOps S V) (timeMax : Int)
    (maxPlayingSoundsForThisType : Nat) (playingSounds : List (PlayingSound T S)) :
    Option (List (PlayingSound T S)) :=
  if playingSounds.length ≥ maxPlayingSoundsForThisType then
    if (ScavengeStoppedSounds ops playingSounds).length ≥ maxPlayingSoundsForThisType then
      (ScavengeOldestSound timeMax (ScavengeStoppedSounds ops playingSounds)).map
        (fun r => r.2)
    else some (ScavengeStoppedSounds ops playingSounds)
  else some playingSounds

/-- `PlayOneShotSound(soundType, soundBuffer, volume, isInterruptible)` (SoundController.cpp,
1557-1626) on the vector `mCurrentlyPlayingOneShotSounds[soundType]`: the vector after the call.
`now` is the clock reading; `maxPlayingSoundsForThisType` and `minDeltaTimeSoundForType` are the
results of `GetMaxPlayingSoundsForType(soundType)` and `GetMinDeltaTimeSoundForType(soundType)`,
which are declared outside the sources. -/
def PlayOneShotSound {T S V : Type} (ops : GameSoundOps S V) (timeMax : Int)
    (maxPlayingSoundsForThisType : Nat) (minDeltaTimeSoundForType : Int) (now : Int)
    (soundType : T) (soundBuffer : Nat) (volume : V) (isInterruptible : Bool)
    (thisTypeCurrentlyPlayingSounds : List (PlayingSound T S)) :
    Option (List (PlayingSound T S)) :=
  match PlayOneShotSound.addVolumeToRecent ops minDeltaTimeSoundForType now soundBuffer volume
      thisTypeCurrentlyPlayingSounds with
  | some adjusted => some adjusted
  | none =>
    (PlayOneShotSound.makeRoom ops timeMax maxPlayingSoundsForThisType
        thisTypeCurrentlyPlayingSounds).map
      (fun room => room ++
        [{ SoundType := soundType
           Sound := ops.makeAndPlay soundBuffer volume
           StartedTimestamp := now
           IsInterruptible := isInterruptible }])

/-- Three playing sounds, as a concrete input: sound types, sounds and buffers are numbers, a
sound being its own buffer, never stopped. -/
def samplePlayingSounds : List (PlayingSound Nat Nat) :=
  [ { SoundType := 0, Sound := 10, StartedTimestamp := 5, IsInterruptible := false },
    { SoundType := 0, Sound := 11, StartedTimestamp := 7, IsInterruptible := true },
    { SoundType := 0, Sound := 12, StartedTimestamp := 6, IsInterruptible := true } ]

/-- Operations for `samplePlayingSounds`: a sound is its own buffer, is never stopped, and its
volume is not recorded. -/
def sampleOps : GameSoundOps Nat Nat :=
  { getBuffer := fun s => s
    isStopped := fun _ => false
    addVolume := fun s _ => s
    makeAndPlay := fun b _ => b }

end SoundController

/-! ## Logger -/

/-- The state of `Logger` (Log.h, 123-133), for messages of type `M` (`std::string` in the
source): whether a listener is held by `mCurrentListener`, and the queue `mStoredMessages`,
oldest first. The mutex and the output to `std::cout` are not modelled; the messages passed to
the listener are returned by each operation, in call order. -/
structure Logger (M : Type) where
  mCurrentListener : Bool
  mStoredMessages : List M

namespace Logger

/-- `MaxStoredMessages` (Log.h, 130). -/
def MaxStoredMessages : Nat := 1000

/-- The constructor `Logger()` (Log.h, 49-54). -/
def create {M : Type} : Logger M :=
  { mCurrentListener := false
    mStoredMessages := [] }

/-- `RegisterListener(listener)` (Log.h, 61-76): the new state and the messages passed to the new
listener. -/
def RegisterListener {M : Type} (lg : Logger M) : Logger M × List M :=
  ({ lg with mCurrentListener := true }, lg.mStoredMessages)

/-- `UnregisterListener()` (Log.h, 78-82). -/
def UnregisterListener {M : Type} (lg : Logger M) : Logger M :=
  { lg with mCurrentListener := false }

/-- `Log(args...)` (Log.h, 84-111), as a function of the formatted `message`: the new state and
the messages passed to the current listener. -/
def Log {M : Type} (lg : Logger M) (message : M) : Logger M × List M :=
  let pushed := lg.mStoredMessages ++ [message]
  let stored := if pushed.length > MaxStoredMessages then pushed.tail else pushed
  ({ lg with mStoredMessages := stored }, if lg.mCurrentListener then [message] else [])

/-- A run of `Log` calls, one per message of the list, oldest first: the final state and all the
messages passed to the listener, in call order. -/
def LogAll {M : Type} (lg : Logger M) : List M → Logger M × List M
  | [] => (lg, [])
  | message :: rest =>
    ((LogAll (Log lg message).1 rest).1, (Log lg message).2 ++ (LogAll (Log lg message).1 rest).2)

end Logger

/-! ## UIPreferencesManager -/

/-- The values of `picojson::value` that the preferences code tells apart; an object is the
list of its members, looked up by key. -/
inductive JsonValue where
  | null
  | boolean (b : Bool)
  | number (n : Int)
  | string (s : String)
  | array (items : List JsonValue)
  | object (members : List (String × JsonValue))

/-- The part of the game controller that the preferences manager reads and writes through
`IGameController` (GameController.h, 440-441 and 527). -/
structure IGameController where
  mShowTsunamiNotifications : Bool

namespace IGameController

/-- `SetShowTsunamiNotifications(value)` (GameController.h, 441). -/
def SetShowTsunamiNotifications (_gc : IGameController) (value : Bool) : IGameController :=
  { mShowTsunamiNotifications := value }

end IGameController

/-- The data members of `UIPreferencesManager` that UIPreferencesManager.cpp reads and writes.
`P` stands for `std::filesystem::path` and `Ver` for `Version`, which is declared outside the
sources. -/
structure UIPreferencesManager (P : Type) (Ver : Type) where
  mDefaultShipLoadDirectory : P
  mShipLoadDirectories : List P
  mScreenshotsFolderPath : P
  mBlacklistedUpdates : List Ver
  mCheckUpdatesAtStartup : Bool
  mShowStartupTip : Bool
  mShowShipDescriptionsAtShipLoad : Bool
  mGameController : IGameController

namespace UIPreferencesManager

/-- What `LoadPreferences` uses of the file system and of `Version`, both outside the sources:
the conversion of a string to a path, `std::filesystem::exists`, and `Version::FromString`
(`none` when it throws). -/
structure Environment (P : Type) (Ver : Type) where
  pathOfString : String → P
  pathExists : P → Bool
  versionFromString : String → Option Ver

/-- The body of the loop over the array of ship load directories (UIPreferencesManager.cpp,
89-102), on the vector `mShipLoadDirectories`. -/
def LoadPreferences.addShipLoadDirectory {P Ver : Type} [DecidableEq P] (env : Environment P Ver)
    (shipLoadDirectories : List P) (shipLoadDirectory : JsonValue) : List P :=
  match shipLoadDirectory with
  | JsonValue.string s =>
    if env.pathExists (env.pathOfString s) = true
        ∧ env.pathOfString s ∉ shipLoadDirectories then
      shipLoadDirectories ++ [env.pathOfString s]
    else shipLoadDirectories
  | _ => shipLoadDirectories

/-- The section "Ship load directories" of `LoadPreferences` (UIPreferencesManager.cpp,
73-104). -/
def LoadPreferences.shipLoadDirectories {P Ver : Type} [DecidableEq P] (env : Environment P Ver)
    (preferencesRootObject : List (String × JsonValue)) (mgr : UIPreferencesManager P Ver) :
    UIPreferencesManager P Ver :=
  match preferencesRootObject.lookup "ship_load_directories" with
  | some (JsonValue.array shipLoadDirectories) =>
    { mgr with
      mShipLoadDirectories :=
        shipLoadDirectories.foldl (LoadPreferences.addShipLoadDirectory env)
          [mgr.mDefaultShipLoadDirectory] }
  | _ => mgr

/-- The section "Screenshots folder path" of `LoadPreferences` (UIPreferencesManager.cpp,
106-115). -/
def LoadPreferences.screenshotsFolderPath {P Ver : Type} (env : Environment P Ver)
    (preferencesRootObject : List (String × JsonValue)) (mgr : UIPreferencesManager P Ver) :
    UIPreferencesManager P Ver :=
  match preferencesRootObject.lookup "screenshots_folder_path" with
  | some (JsonValue.string s) => { mgr with mScreenshotsFolderPath := env.pathOfString s }
  | _ => mgr

/-- The loop over the array of blacklisted updates (UIPreferencesManager.cpp, 128-142), on the
vector `mBlacklistedUpdates`: the vector when the loop ends, and whether it ended normally
(`false` when `Version::FromString` threw). -/
def LoadPreferences.addBlacklistedUpdates {P Ver : Type} [DecidableEq Ver]
    (env : Environment P Ver) : List JsonValue → List Ver → List Ver × Bool
  | [], blacklistedUpdates => (blacklistedUpdates, true)
  | JsonValue.string s :: rest, blacklistedUpdates =>
    match env.versionFromString s with
    | none => (blacklistedUpdates, false)
    | some blacklistedVersion =>
      LoadPreferences.addBlacklistedUpdates env rest
        (if blacklistedVersion ∉ blacklistedUpdates then blacklistedUpdates ++ [blacklistedVersion]
          else blacklistedUpdates)
  | _ :: rest, blacklistedUpdates =>
    LoadPreferences.addBlacklistedUpdates env rest blacklistedUpdates

/-- The section "Blacklisted updates" of `LoadPreferences` (UIPreferencesManager.cpp, 117-143):
the state when the section ends, and whether it ended normally. -/
def LoadPreferences.blacklistedUpdates {P Ver : Type} [DecidableEq Ver]
    (env : Environment P Ver) (preferencesRootObject : List (String × JsonValue))
    (mgr : UIPreferencesManager P Ver) : UIPreferencesManager P Ver × Bool :=
  match preferencesRootObject.lookup "blacklisted_updates" with
  | some (JsonValue.array blacklistedUpdates) =>
    ({ mgr with
        mBlacklistedUpdates :=
          (LoadPreferences.addBlacklistedUpdates env blacklistedUpdates []).1 },
      (LoadPreferences.addBlacklistedUpdates env blacklistedUpdates []).2)
  | _ => (mgr, true)

/-- A boolean member of the root object: `find(key)` with `is<bool>()` and `get<bool>()`. -/
def LoadPreferences.findBool (preferencesRootObject : List (String × JsonValue)) (key : String) :
    Option Bool :=
  match preferencesRootObject.lookup key with
  | some (JsonValue.boolean b) => some b
  | _ => none

/-- The four boolean sections of `LoadPreferences` (UIPreferencesManager.cpp, 146-188). -/
def LoadPreferences.booleans {P Ver : Type} (preferencesRootObject : List (String × JsonValue))
    (mgr : UIPreferencesManager P Ver) : UIPreferencesManager P Ver :=
  let m1 :=
    match LoadPreferences.findBool preferencesRootObject "check_updates_at_startup" with
    | some b => { mgr with mCheckUpdatesAtStartup := b }
    | none => mgr
  let m2 :=
    match LoadPreferences.findBool preferencesRootObject "show_startup_tip" with
    | some b => { m1 with mShowStartupTip := b }
    | none => m1
  let m3 :=
    match LoadPreferences.findBool preferencesRootObject
        "show_ship_descriptions_at_ship_load" with
    | some b => { m2 with mShowShipDescriptionsAtShipLoad := b }
    | none => m2
  match LoadPreferences.findBool preferencesRootObject "show_tsunami_notifications" with
  | some b => { m3 with mGameController := m3.mGameController.SetShowTsunamiNotifications b }
  | none => m3

/-- `LoadPreferences()` (UIPreferencesManager.cpp, 64-190), as a function of the value
`preferencesRootValue` that `Utils::ParseJSONFile` returned: the state of the manager when the
function ends, and whether it ended normally (`false` when an exception left it). -/
def LoadPreferences {P Ver : Type} [DecidableEq P] [DecidableEq Ver] (env : Environment P Ver)
    (preferencesRootValue : JsonValue) (mgr : UIPreferencesManager P Ver) :
    UIPreferencesManager P Ver × Bool :=
  match preferencesRootValue with
  | JsonValue.object preferencesRootObject =>
    let m1 := LoadPreferences.shipLoadDirectories env preferencesRootObject mgr
    let m2 := LoadPreferences.screenshotsFolderPath env preferencesRootObject m1
    let r3 := LoadPreferences.blacklistedUpdates env preferencesRootObject m2
    if r3.2 = true then (LoadPreferences.booleans preferencesRootObject r3.1, true)
    else (r3.1, false)
  | _ => (mgr, true)

end UIPreferencesManager

namespace UIPreferencesManager

end UIPreferencesManager

/-! ## ShipRenderContext: the element VBO -/

/-- `GameParameters::MaxEphemeralParticles` (GameParameters.h, 147). -/
def GameParameters.MaxEphemeralParticles : Nat := 4096

namespace Render

/-- The values of `sizeof` for the three element types, which are declared in
`ShipRenderContext.h`, outside the sources. -/
structure ElementSizes where
  TriangleElement : Nat
  LineElement : Nat
  PointElement : Nat

/-- The members of `ShipRenderContext` that hold the elements and the places of their sections
in the element VBO (ShipRenderContext.cpp, 76-86). `T`, `L` and `P` stand for the element types
`TriangleElement`, `LineElement` and `PointElement`; the start indices are of type `size_t`. -/
structure ShipRenderContext (T L P : Type) where
  mPointElementBuffer : List P
  mEphemeralPointElementBuffer : List P
  mSpringElementBuffer : List L
  mRopeElementBuffer : List L
  mTriangleElementBuffer : List T
  mPointElementVBOStartIndex : Nat
  mEphemeralPointElementVBOStartIndex : Nat
  mSpringElementVBOStartIndex : Nat
  mRopeElementVBOStartIndex : Nat
  mTriangleElementVBOStartIndex : Nat

/-- The number of values of `size_t`. -/
def sizeModulus : Nat := 2 ^ 64

/-- A call `glBufferSubData(GL_ELEMENT_ARRAY_BUFFER, offset, size, data)`: the byte offset and
the byte size of the range that it writes. -/
structure BufferSubData where
  offset : Nat
  size : Nat
  deriving DecidableEq, Repr

/-- A call `glDrawElements(mode, count, GL_UNSIGNED_INT, indices)` with the element VBO bound:
the number of indices, of type `GLsizei`, and the byte offset of the first one. -/
structure DrawElements where
  count : Int
  indices : Nat
  deriving DecidableEq, Repr

/-- The size in bytes of an index of type `GL_UNSIGNED_INT`. -/
def sizeofGLuint : Nat := 4

/-- The conversion `static_cast<GLsizei>(n)` of a `size_t` to a 32-bit signed integer. -/
def toGLsizei (n : Nat) : Int :=
  ((((n + 2 ^ 31) % 2 ^ 32 : Nat) : Int)) - 2 ^ 31

/-- What `UploadElementsEnd` does besides updating the start indices: the size passed to
`glBufferData` and the `glBufferSubData` calls, in order. -/
structure ElementUpload where
  bufferDataSize : Nat
  bufferSubData : List BufferSubData
  deriving DecidableEq, Repr

/-- `UploadElementsEnd(doFinalizeEphemeralPoints)` (ShipRenderContext.cpp, 926-993). -/
def UploadElementsEnd {T L P : Type} (sizes : ElementSizes) (ctx : ShipRenderContext T L P)
    (doFinalizeEphemeralPoints : Bool) : ShipRenderContext T L P × ElementUpload :=
  let mTriangleElementVBOStartIndex := 0
  let mRopeElementVBOStartIndex :=
    (mTriangleElementVBOStartIndex
      + ctx.mTriangleElementBuffer.length * sizes.TriangleElement) % sizeModulus
  let mSpringElementVBOStartIndex :=
    (mRopeElementVBOStartIndex + ctx.mRopeElementBuffer.length * sizes.LineElement) % sizeModulus
  let mPointElementVBOStartIndex :=
    (mSpringElementVBOStartIndex
      + ctx.mSpringElementBuffer.length * sizes.LineElement) % sizeModulus
  let mEphemeralPointElementVBOStartIndex :=
    (mPointElementVBOStartIndex
      + ctx.mPointElementBuffer.length * sizes.PointElement) % sizeModulus
  ({ ctx with
      mTriangleElementVBOStartIndex := mTriangleElementVBOStartIndex
      mRopeElementVBOStartIndex := mRopeElementVBOStartIndex
      mSpringElementVBOStartIndex := mSpringElementVBOStartIndex
      mPointElementVBOStartIndex := mPointElementVBOStartIndex
      mEphemeralPointElementVBOStartIndex := mEphemeralPointElementVBOStartIndex },
    { bufferDataSize :=
        (mEphemeralPointElementVBOStartIndex
          + GameParameters.MaxEphemeralParticles * sizes.PointElement) % sizeModulus
      bufferSubData :=
        [ { offset := mTriangleElementVBOStartIndex
            size := (ctx.mTriangleElementBuffer.length * sizes.TriangleElement) % sizeModulus },
          { offset := mRopeElementVBOStartIndex
            size := (ctx.mRopeElementBuffer.length * sizes.LineElement) % sizeModulus },
          { offset := mSpringElementVBOStartIndex
            size := (ctx.mSpringElementBuffer.length * sizes.LineElement) % sizeModulus },
          { offset := mPointElementVBOStartIndex
            size := (ctx.mPointElementBuffer.length * sizes.PointElement) % sizeModulus } ]
        ++ (if doFinalizeEphemeralPoints = true then
              [ { offset := mEphemeralPointElementVBOStartIndex
                  size :=
                    (ctx.mEphemeralPointElementBuffer.length * sizes.PointElement)
                      % sizeModulus } ]
            else []) })

/-- The `glDrawElements` call of the section "Draw points" of `RenderEnd`
(ShipRenderContext.cpp, 1361-1382), which is made when the debug render mode is `None` or
`Points`. -/
def RenderEnd.drawPoints {T L P : Type} (ctx : ShipRenderContext T L P) : DrawElements :=
  let totalPoints :=
    (ctx.mPointElementBuffer.length + ctx.mEphemeralPointElementBuffer.length) % sizeModulus
  { count := toGLsizei ((1 * totalPoints) % sizeModulus)
    indices := ctx.mPointElementVBOStartIndex }

/-- The byte `b` of the element VBO lies in the range that the call writes. -/
def BufferSubData.Covers (u : BufferSubData) (b : Nat) : Prop :=
  u.offset ≤ b ∧ b < u.offset + u.size

/-- The byte `b` of the element VBO lies in the range of the indices that the call draws:
`count` indices of `sizeofGLuint` bytes each, from the byte offset `indices`. -/
def DrawElements.Reads (d : DrawElements) (b : Nat) : Prop :=
  d.indices ≤ b ∧ (b : Int) < (d.indices : Int) + (sizeofGLuint : Int) * d.count

/-- The byte sizes of the five sections, in the order triangles, ropes, springs, points,
ephemeral points. -/
def sectionSizes {T L P : Type} (sizes : ElementSizes) (ctx : ShipRenderContext T L P) :
    List Nat :=
  [ ctx.mTriangleElementBuffer.length * sizes.TriangleElement,
    ctx.mRopeElementBuffer.length * sizes.LineElement,
    ctx.mSpringElementBuffer.length * sizes.LineElement,
    ctx.mPointElementBuffer.length * sizes.PointElement,
    ctx.mEphemeralPointElementBuffer.length * sizes.PointElement ]

/-- The start indices of the five sections, in the same order. -/
def sectionStarts {T L P : Type} (ctx : ShipRenderContext T L P) : List Nat :=
  [ ctx.mTriangleElementVBOStartIndex, ctx.mRopeElementVBOStartIndex,
    ctx.mSpringElementVBOStartIndex, ctx.mPointElementVBOStartIndex,
    ctx.mEphemeralPointElementVBOStartIndex ]

/-- The element sizes that the draw calls of `RenderEnd` assume: three indices for a triangle,
two for a line, one for a point. -/
def sampleElementSizes : ElementSizes :=
  { TriangleElement := 12, LineElement := 8, PointElement := 4 }

/-- A concrete context with two triangles, one rope, three springs, two points and one ephemeral
point, before the first upload. -/
def sampleContext : ShipRenderContext (Nat × Nat × Nat) (Nat × Nat) Nat :=
  { mPointElementBuffer := [0, 1]
    mEphemeralPointElementBuffer := [7]
    mSpringElementBuffer := [(0, 1), (1, 2), (2, 3)]
    mRopeElementBuffer := [(3, 4)]
    mTriangleElementBuffer := [(0, 1, 2), (1, 2, 3)]
    mPointElementVBOStartIndex := 0
    mEphemeralPointElementVBOStartIndex := 0
    mSpringElementVBOStartIndex := 0
    mRopeElementVBOStartIndex := 0
    mTriangleElementVBOStartIndex := 0 }

end Render

/-! ## SoundController: the lookup of the material sounds -/

namespace SoundController

/-- The conversion `static_cast<SizeType>(s)`, for the values 0, 1 and 2 of the enumerators,
which are the only ones that the loops of `PlayMSUOneShotMultipleChoiceSound` pass. -/
def SizeType.ofInt (s : Int) : SizeType :=
  if s = 0 then SizeType.Small
  else if s = 1 then SizeType.Medium
  else SizeType.Large

/-- `mMSUOneShotMultipleChoiceSounds.find(key)` on the map seen as a function from keys
`(soundType, materialSound, sizeType, isUnderwater)` to the sounds stored under them: the entry
found, or `none` for `end()`. -/
def PlayMSUOneShotMultipleChoiceSound.find {T M V : Type}
    (sounds : T × M × SizeType × Bool → Option V) (key : T × M × SizeType × Bool) :
    Option ((T × M × SizeType × Bool) × V) :=
  (sounds key).map (fun v => (key, v))

/-- The loop `for (int s = ...; s >= static_cast<int>(SizeType::Min); --s)` of
`PlayMSUOneShotMultipleChoiceSound` (SoundController.cpp, 1364-1371 and 1377-1384), from the
value `s` on: the value of `it` when the loop ends. -/
def PlayMSUOneShotMultipleChoiceSound.findSmaller {T M V : Type}
    (sounds : T × M × SizeType × Bool → Option V) (soundType : T) (materialSound : M)
    (isUnderwater : Bool) (s : Int) : Option ((T × M × SizeType × Bool) × V) :=
  if s ≥ SizeType.Min.toInt then
    match PlayMSUOneShotMultipleChoiceSound.find sounds
        (soundType, materialSound, SizeType.ofInt s, isUnderwater) with
    | some it => some it
    | none =>
      PlayMSUOneShotMultipleChoiceSound.findSmaller sounds soundType materialSound isUnderwater
        (s - 1)
  else none
termination_by (s - SizeType.Min.toInt + 1).toNat
decreasing_by
  simp only [SizeType.Min, SizeType.toInt] at *
  omega

/-- The section "Find vector" of `PlayMSUOneShotMultipleChoiceSound` (SoundController.cpp,
1356-1391) for the size bucket `sizeType`: the entry that is passed to
`ChooseAndPlayOneShotMultipleChoiceSound`, or `none` when the function returns without
playing. -/
def PlayMSUOneShotMultipleChoiceSound.findVector {T M V : Type}
    (sounds : T × M × SizeType × Bool → Option V) (soundType : T) (materialSound : M)
    (sizeType : SizeType) (isUnderwater : Bool) : Option ((T × M × SizeType × Bool) × V) :=
  let it :=
    match PlayMSUOneShotMultipleChoiceSound.find sounds
        (soundType, materialSound, sizeType, isUnderwater) with
    | some it => some it
    | none =>
      PlayMSUOneShotMultipleChoiceSound.findSmaller sounds soundType materialSound isUnderwater
        (sizeType.toInt - 1)
  match it with
  | some it => some it
  | none =>
    PlayMSUOneShotMultipleChoiceSound.findSmaller sounds soundType materialSound
      (!isUnderwater) sizeType.toInt

/-- `PlayMSUOneShotMultipleChoiceSound(soundType, materialSound, size, isUnderwater, volume,
isInterruptible)` (SoundController.cpp, 1329-1403): the entry of the map whose sounds are passed
to `ChooseAndPlayOneShotMultipleChoiceSound`, or `none` when nothing is played. -/
def PlayMSUOneShotMultipleChoiceSound {T M V : Type}
    (sounds : T × M × SizeType × Bool → Option V) (soundType : T) (materialSound : M)
    (size : Nat) (isUnderwater : Bool) : Option ((T × M × SizeType × Bool) × V) :=
  PlayMSUOneShotMultipleChoiceSound.findVector sounds soundType materialSound
    (PlayMSUOneShotMultipleChoiceSound.sizeType size) isUnderwater

/-- The size buckets from the largest to the smallest. -/
def SizeType.descending : List SizeType :=
  [SizeType.Large, SizeType.Medium, SizeType.Small]

/-- The order of the lookup as the pairs (size bucket, underwater flag): the exact pair; the
smaller buckets with the same flag, largest first; then the requested bucket and the smaller
ones with the opposite flag, largest first. -/
def lookupOrder (sizeType : SizeType) (isUnderwater : Bool) : List (SizeType × Bool) :=
  [(sizeType, isUnderwater)]
    ++ (SizeType.descending.filter (fun b => decide (b.toInt < sizeType.toInt))).map
        (fun b => (b, isUnderwater))
    ++ (SizeType.descending.filter (fun b => decide (b.toInt ≤ sizeType.toInt))).map
        (fun b => (b, !isUnderwater))

end SoundController

/-! ## SoundController: the wave-splash trigger -/

namespace SoundController

/-- `WaveSplashTriggerSize` (SoundController.cpp, 24). -/
def WaveSplashTriggerSize {F : Type} [LinearOrderedField F] : F := 0.5

/-- The two members of `SoundController` that `OnWaterSplashed` reads and writes to trigger the
wave sounds. -/
structure WaterSplashState (F : Type) where
  mLastWaterSplashed : F
  mCurrentWaterSplashedTrigger : F

/-- The state of the two members after the constructor and after `Reset()`
(SoundController.cpp, 41-42 and 925-926). -/
def WaterSplashState.reset {F : Type} [LinearOrderedField F] : WaterSplashState F :=
  { mLastWaterSplashed := 0.0
    mCurrentWaterSplashedTrigger := WaveSplashTriggerSize }

/-- The part "Trigger waves" of `OnWaterSplashed(waterSplashed)` (SoundController.cpp,
1093-1119): the new state and whether the wave sound was requested
(`PlayOneShotMultipleChoiceSound(SoundType::Wave, ...)`). The volumes, computed with `std::pow`,
and the continuous splash sound are not modelled. -/
def OnWaterSplashed {F : Type} [LinearOrderedField F] (st : WaterSplashState F)
    (waterSplashed : F) : WaterSplashState F × Bool :=
  if waterSplashed > st.mLastWaterSplashed then
    if waterSplashed > st.mCurrentWaterSplashedTrigger then
      ({ mLastWaterSplashed := waterSplashed
         mCurrentWaterSplashedTrigger := waterSplashed + WaveSplashTriggerSize }, true)
    else
      ({ st with mLastWaterSplashed := waterSplashed }, false)
  else
    ({ mLastWaterSplashed := waterSplashed
       mCurrentWaterSplashedTrigger := waterSplashed + WaveSplashTriggerSize }, false)

/-- The state after a run of `OnWaterSplashed` calls, one per value of the list, oldest
first. -/
def OnWaterSplashedAll {F : Type} [LinearOrderedField F] (st : WaterSplashState F) :
    List F → WaterSplashState F
  | [] => st
  | waterSplashed :: rest => OnWaterSplashedAll (OnWaterSplashed st waterSplashed).1 rest

end SoundController

/-! ## MainFrame: the bomb counters -/

/-- The enumeration `BombType`, which is declared outside the sources (GameCore/GameTypes.h):
`RCBomb` and `AntiMatterBomb` are the enumerators that the code names (MainFrame.h, 224 and 229);
`ImpactBomb` and `TimerBomb` are the other kinds of bombs that the game controller toggles
(GameController.h, 140-143). -/
inductive BombType where
  | AntiMatterBomb
  | ImpactBomb
  | RCBomb
  | TimerBomb
  deriving DecidableEq, Repr

/-- The members of `MainFrame` that `OnBombPlaced` and `OnBombRemoved` read and write
(MainFrame.h, 305-306): the two counters, of type `size_t`, and for each of the two detonate menu
items the argument of the last `Enable` call made on it (`none` before the first call). -/
structure MainFrame where
  mCurrentRCBombCount : Nat
  mCurrentAntiMatterBombCount : Nat
  mRCBombsDetonateMenuItem : Option Bool
  mAntiMatterBombsDetonateMenuItem : Option Bool

namespace MainFrame

/-- The number of values of `size_t`. -/
def sizeModulus : Nat := 2 ^ 64

/-- The state with both counters at zero and no `Enable` call made yet. -/
def zeroCounts : MainFrame :=
  { mCurrentRCBombCount := 0
    mCurrentAntiMatterBombCount := 0
    mRCBombsDetonateMenuItem := none
    mAntiMatterBombsDetonateMenuItem := none }

/-- `OnBombPlaced(bombId, bombType, isUnderwater)` (MainFrame.h, 219-234). -/
def OnBombPlaced (mf : MainFrame) (bombType : BombType) : MainFrame :=
  if BombType.RCBomb = bombType then
    { mf with
      mCurrentRCBombCount := (mf.mCurrentRCBombCount + 1) % sizeModulus
      mRCBombsDetonateMenuItem :=
        some (decide ((mf.mCurrentRCBombCount + 1) % sizeModulus > 0)) }
  else if BombType.AntiMatterBomb = bombType then
    { mf with
      mCurrentAntiMatterBombCount := (mf.mCurrentAntiMatterBombCount + 1) % sizeModulus
      mAntiMatterBombsDetonateMenuItem :=
        some (decide ((mf.mCurrentAntiMatterBombCount + 1) % sizeModulus > 0)) }
  else mf

/-- `OnBombRemoved(bombId, bombType, isUnderwater)` (MainFrame.h, 236-253): the new state and
whether the assertion that the call evaluated held (`true` when it evaluated none). -/
def OnBombRemoved (mf : MainFrame) (bombType : BombType) : MainFrame × Bool :=
  if BombType.RCBomb = bombType then
    ({ mf with
        mCurrentRCBombCount := (mf.mCurrentRCBombCount + sizeModulus - 1) % sizeModulus
        mRCBombsDetonateMenuItem :=
          some (decide ((mf.mCurrentRCBombCount + sizeModulus - 1) % sizeModulus > 0)) },
      decide (mf.mCurrentRCBombCount > 0))
  else if BombType.AntiMatterBomb = bombType then
    ({ mf with
        mCurrentAntiMatterBombCount :=
          (mf.mCurrentAntiMatterBombCount + sizeModulus - 1) % sizeModulus
        mAntiMatterBombsDetonateMenuItem :=
          some (decide ((mf.mCurrentAntiMatterBombCount + sizeModulus - 1) % sizeModulus > 0)) },
      decide (mf.mCurrentAntiMatterBombCount > 0))
  else (mf, true)

/-- A bomb event delivered to the frame. -/
inductive BombEvent where
  | placed (bombType : BombType)
  | removed (bombType : BombType)

/-- A sequence of bomb events, oldest first: the final state and whether every assertion that
was evaluated held. -/
def onBombEvents (mf : MainFrame) : List BombEvent → MainFrame × Bool
  | [] => (mf, true)
  | BombEvent.placed bombType :: rest => onBombEvents (OnBombPlaced mf bombType) rest
  | BombEvent.removed bombType :: rest =>
    ((onBombEvents (OnBombRemoved mf bombType).1 rest).1,
      (OnBombRemoved mf bombType).2 && (onBombEvents (OnBombRemoved mf bombType).1 rest).2)

/-- The number of placements of bombs of type `bombType` among the events. -/
def placements (bombType : BombType) : List BombEvent → Nat
  | [] => 0
  | BombEvent.placed t :: rest =>
    (if t = bombType then 1 else 0) + placements bombType rest
  | BombEvent.removed _ :: rest => placements bombType rest

/-- The number of removals of bombs of type `bombType` among the events. -/
def removals (bombType : BombType) : List BombEvent → Nat
  | [] => 0
  | BombEvent.placed _ :: rest => removals bombType rest
  | BombEvent.removed t :: rest =>
    (if t = bombType then 1 else 0) + removals bombType rest

/-- No bomb type is removed more often than it was placed, at any point of the sequence. -/
def NeverOverRemoved (events : List BombEvent) : Prop :=
  ∀ (k : Nat) (bombType : BombType),
    removals bombType (events.take k) ≤ placements bombType (events.take k)

/-- The argument of the last `Enable` call on each detonate menu item, if there was one, says
whether the counter of the item is positive. -/
def MenuItemsAgree (mf : MainFrame) : Prop :=
  (∀ b, mf.mRCBombsDetonateMenuItem = some b → (b = true ↔ 0 < mf.mCurrentRCBombCount)) ∧
  (∀ b, mf.mAntiMatterBombsDetonateMenuItem = some b
    → (b = true ↔ 0 < mf.mCurrentAntiMatterBombCount))

/-- With `count` bombs of type `bombType` placed before the events, none is removed that was not
placed. -/
def SafeFrom (count : Nat) (bombType : BombType) (events : List BombEvent) : Prop :=
  ∀ k : Nat, removals bombType (events.take k) ≤ count + placements bombType (events.take k)

/-- Two RC bombs and a timer bomb placed, one RC bomb and the timer bomb removed. -/
def sampleBombEvents : List BombEvent :=
  [ BombEvent.placed BombType.RCBomb, BombEvent.placed BombType.TimerBomb,
    BombEvent.placed BombType.RCBomb, BombEvent.removed BombType.RCBomb,
    BombEvent.removed BombType.TimerBomb ]

end MainFrame

/-! ## UIPreferencesManager: SavePreferences -/

namespace UIPreferencesManager

end UIPreferencesManager

/-! ## Binary32: the rounding of `float` arithmetic -/

namespace Binary32

/-- The integer nearest to `x`, a tie going to the even one. -/
def roundHalfEven (x : ℚ) : ℤ :=
  if x - ⌊x⌋ < 1 / 2 then ⌊x⌋
  else if 1 / 2 < x - ⌊x⌋ then ⌊x⌋ + 1
  else if ⌊x⌋ % 2 = 0 then ⌊x⌋
  else ⌊x⌋ + 1

/-- The exponent of the binade of a positive `x`, not below the smallest exponent -126 of a
normal number. -/
def exponent (x : ℚ) : ℤ :=
  max (Int.log 2 x) (-126)

/-- The nearest binary32 number to a value `x >= 0`: a multiple of the unit in the last place
`2 ^ (exponent x - 23)` (24 significant bits). -/
def roundMagnitude (x : ℚ) : ℚ :=
  (roundHalfEven (x / 2 ^ (exponent x - 23)) : ℚ) * 2 ^ (exponent x - 23)

/-- The rounding of IEEE 754 binary32 (round to nearest, ties to even), on the rationals: the
value of an operation on `float`s is `fl` of its exact result. Overflow is not modelled: the
results in this development stay far below the largest finite number. -/
def fl (x : ℚ) : ℚ :=
  if x < 0 then -roundMagnitude (-x) else roundMagnitude x

end Binary32

/-! ## ParameterSmoother: float arithmetic -/

namespace GameController

/-- The floating-point arithmetic of `ParameterSmoother::Update`. `fl` rounds the exact result of
an operation on `float`s to a `float`. `sin` is the function that the calls `sin(...)` resolve
to, and `flMath` the rounding of its result type: `float`, or `double` when the calls resolve to
the function of the C library, in which case the operands of the expression for `progress` are
`double`s and the quotient is converted to `float`. `Pi` is the constant `Pi<float>` of
`GameCore/GameMath.h`. -/
structure FloatArithmetic (F : Type) where
  fl : F → F
  flMath : F → F
  sin : F → F
  Pi : F

/-- Exact arithmetic: no operation rounds. -/
def FloatArithmetic.exact {F : Type} (sin : F → F) (Pi : F) : FloatArithmetic F :=
  { fl := id, flMath := id, sin := sin, Pi := Pi }

/-- The arithmetic of binary32 with a `sin` on `float`s; `Pi<float>` is `3.14159274f`, the
`float` nearest to the number pi. -/
def FloatArithmetic.binary32 (sin : ℚ → ℚ) : FloatArithmetic ℚ :=
  { fl := Binary32.fl, flMath := Binary32.fl, sin := sin, Pi := 13176795 / 2 ^ 22 }

namespace ParameterSmoother

variable {F : Type} [LinearOrderedField F]

/-- The local `leftFraction` of `Update` (GameController.h, 617-620) in float arithmetic: both
counts are converted to `float` and the quotient is rounded. -/
def leftFractionRounded (A : FloatArithmetic F)
    (trajectoryTime endTimestamp currentTimestamp : Int) : F :=
  if trajectoryTime = 0 then 0
  else A.fl (A.fl ((endTimestamp - currentTimestamp : Int) : F)
    / A.fl ((trajectoryTime : Int) : F))

/-- The local `phase` of `Update` (GameController.h, 625-627) in float arithmetic. -/
def phaseRounded (A : FloatArithmetic F) (leftFraction : F) : F :=
  A.fl (A.fl (A.Pi / 4) + A.fl (A.fl (A.Pi / 4) * A.fl (1 - leftFraction)))

/-- The local `progress` of `Update` (GameController.h, 632-634) in float arithmetic: the
operations on the results of `sin` round in the type of these results, and the initialisation of
the `float` rounds once more. -/
def progressRounded (A : FloatArithmetic F) (phase : F) : F :=
  A.fl (A.flMath (A.flMath (A.sin phase - A.sin (A.fl (A.Pi / 4)))
    / A.flMath (1 - A.sin (A.fl (A.Pi / 4)))))

/-- The value that `Update` assigns to `mCurrentValue` (GameController.h, 636-638) in float
arithmetic, as a function of the start value, the target value and `leftFraction`. -/
def UpdateRounded.currentValue (A : FloatArithmetic F) (startValue targetValue leftFraction : F) :
    F :=
  A.fl (startValue
    + A.fl (A.fl (targetValue - startValue) * progressRounded A (phaseRounded A leftFraction)))

/-- `Update(now)` (GameController.h, 609-642) in the float arithmetic `A`. -/
def UpdateRounded (A : FloatArithmetic F) (ps : ParameterSmoother F) (now : Int) :
    ParameterSmoother F × List F :=
  if ps.mCurrentTimestamp < ps.mEndTimestamp then
    let currentTimestamp := min now ps.mEndTimestamp
    let lf : F := leftFractionRounded A ps.mTrajectoryTime ps.mEndTimestamp currentTimestamp
    let currentValue := UpdateRounded.currentValue A ps.mStartValue ps.mTargetValue lf
    ({ ps with mCurrentTimestamp := currentTimestamp, mCurrentValue := currentValue },
      [currentValue])
  else
    (ps, [])

/-- A run of `Update` calls in the float arithmetic `A`, one per clock reading of the list,
oldest first. -/
def UpdateAllRounded (A : FloatArithmetic F) (ps : ParameterSmoother F) :
    List Int → ParameterSmoother F
  | [] => ps
  | now :: rest => UpdateAllRounded A (UpdateRounded A ps now).1 rest

/-- A function with the values of `sin` on `float`s at the two arguments that `Update` passes
once a trajectory has ended: `0.707106769f` at `Pi<float> / 4 = 0.785398185f` and `1.0f` at
`Pi<float> / 2 = 1.57079637f`. It is used for concrete runs that end a trajectory. -/
def sinAtTrajectoryEnd (x : ℚ) : ℚ :=
  if x < 1 then 11863283 / 2 ^ 24 else 1

/-- The `float` nearest to 0.1, the literal `0.1f`. -/
def oneTenth : ℚ := 13421773 / 2 ^ 27

end ParameterSmoother

end GameController

namespace GameController.ParameterSmoother

/-- What a run of `Update` calls in a float arithmetic keeps after `SetValue` has recorded the
start value `s`, the target `v` and the end timestamp `e` on a smoother of trajectory time `T`:
these four, and either the end is still ahead or the current value is `x`. -/
def PendingRounded {F : Type} (s v : F) (e T : Int) (x : F) (ps : ParameterSmoother F) : Prop :=
  ps.mStartValue = s ∧ ps.mTargetValue = v ∧ ps.mEndTimestamp = e ∧ ps.mTrajectoryTime = T ∧
    (ps.mCurrentTimestamp < ps.mEndTimestamp ∨ ps.mCurrentValue = x)

end GameController.ParameterSmoother

namespace GameParameters

/-- The default parameters with the adjustment of the number of mechanical dynamics iterations
set to `a`. -/
def withIterationsAdjustment (a : ℚ) : GameParameters ℚ :=
  { (create : GameParameters ℚ) with NumMechanicalDynamicsIterationsAdjustment := a }

end GameParameters

/-! # Theorems -/

/-! ## The sinusoidal ease over the reals -/

namespace GameController.ParameterSmoother

theorem sin_pi_div_four_lt_one : Real.sin (Real.pi / 4) < 1 := by
  have h := Real.sin_lt_sin_of_lt_of_le_pi_div_two
    (x := Real.pi / 4) (y := Real.pi / 2) (by linarith [Real.pi_pos]) le_rfl
    (by linarith [Real.pi_pos])
  simpa using h

/-- At the end of the trajectory (`leftFraction = 0`) the progress is exactly 1. -/
theorem progress_phase_zero :
    progress Real.sin Real.pi (phase Real.pi 0) = 1 := by
  have h1 : phase Real.pi (0 : ℝ) = Real.pi / 2 := by unfold phase; ring
  have h2 : (1 : ℝ) - Real.sin (Real.pi / 4) ≠ 0 := by
    have := sin_pi_div_four_lt_one; linarith
  unfold progress
  rw [h1, Real.sin_pi_div_two]
  exact div_self h2

/-- With some of the trajectory left (`0 < leftFraction <= 2`) the progress is below 1. -/
theorem progress_lt_one (l : ℝ) (h0 : 0 < l) (h2 : l ≤ 2) :
    progress Real.sin Real.pi (phase Real.pi l) < 1 := by
  have hs := sin_pi_div_four_lt_one
  have hpi := Real.pi_pos
  have hlt : Real.sin (phase Real.pi l) < 1 := by
    have h := Real.sin_lt_sin_of_lt_of_le_pi_div_two
      (x := phase Real.pi l) (y := Real.pi / 2)
      (by unfold phase; nlinarith) le_rfl (by unfold phase; nlinarith)
    simpa using h
  unfold progress
  rw [div_lt_one (by linarith)]
  linarith

/-- Before the nominal beginning of the trajectory (`1 < leftFraction <= 2`) the progress is
negative. -/
theorem progress_neg (l : ℝ) (h1 : 1 < l) (h2 : l ≤ 2) :
    progress Real.sin Real.pi (phase Real.pi l) < 0 := by
  have hs := sin_pi_div_four_lt_one
  have hpi := Real.pi_pos
  have hlt : Real.sin (phase Real.pi l) < Real.sin (Real.pi / 4) := by
    apply Real.sin_lt_sin_of_lt_of_le_pi_div_two
    · unfold phase; nlinarith
    · linarith
    · unfold phase; nlinarith
  unfold progress
  apply div_neg_of_neg_of_pos <;> linarith

/-! ## ParameterSmoother: the two branches of `Update` -/

theorem Update_advance {F : Type} [LinearOrderedField F] (sin : F → F) (Pi : F)
    (ps : ParameterSmoother F) (now : Int)
    (h : ps.mCurrentTimestamp < ps.mEndTimestamp) :
    Update sin Pi ps now =
      ({ ps with
          mCurrentTimestamp := min now ps.mEndTimestamp
          mCurrentValue := ps.mStartValue + (ps.mTargetValue - ps.mStartValue) *
            progress sin Pi (phase Pi
              (leftFraction ps.mTrajectoryTime ps.mEndTimestamp (min now ps.mEndTimestamp))) },
        [ps.mStartValue + (ps.mTargetValue - ps.mStartValue) *
            progress sin Pi (phase Pi
              (leftFraction ps.mTrajectoryTime ps.mEndTimestamp (min now ps.mEndTimestamp)))]) := by
  unfold Update
  rw [if_pos h]

theorem Update_rest {F : Type} [LinearOrderedField F] (sin : F → F) (Pi : F)
    (ps : ParameterSmoother F) (now : Int)
    (h : ¬ ps.mCurrentTimestamp < ps.mEndTimestamp) :
    Update sin Pi ps now = (ps, []) := by
  unfold Update
  rw [if_neg h]

theorem leftFraction_end {F : Type} [LinearOrderedField F] (trajectoryTime endTimestamp : Int) :
    (leftFraction trajectoryTime endTimestamp endTimestamp : F) = 0 := by
  unfold leftFraction
  split_ifs <;> simp

/-- An `Update` whose argument is not before the end timestamp, on a smoother that has not
reached it yet, lands exactly on the target. -/
theorem Update_reaches_target (ps : ParameterSmoother ℝ) (now : Int)
    (hlt : ps.mCurrentTimestamp < ps.mEndTimestamp) (hnow : ps.mEndTimestamp ≤ now) :
    Update Real.sin Real.pi ps now =
      ({ ps with mCurrentTimestamp := ps.mEndTimestamp, mCurrentValue := ps.mTargetValue },
        [ps.mTargetValue]) := by
  rw [Update_advance _ _ _ _ hlt, min_eq_right hnow, leftFraction_end, progress_phase_zero]
  have e : ps.mStartValue + (ps.mTargetValue - ps.mStartValue) * 1 = ps.mTargetValue := by ring
  rw [e]

theorem Pending_Update (v : ℝ) (e : Int) (ps : ParameterSmoother ℝ) (now : Int)
    (h : Pending v e ps) : Pending v e (Update Real.sin Real.pi ps now).1 := by
  obtain ⟨ht, he, hc⟩ := h
  by_cases hlt : ps.mCurrentTimestamp < ps.mEndTimestamp
  · by_cases hnow : ps.mEndTimestamp ≤ now
    · rw [Update_reaches_target ps now hlt hnow]
      exact ⟨ht, he, Or.inr ht⟩
    · rw [Update_advance _ _ _ _ hlt]
      refine ⟨ht, he, Or.inl ?_⟩
      have : min now ps.mEndTimestamp = now := min_eq_left (by omega)
      simp only [this]
      omega
  · rw [Update_rest _ _ _ _ hlt]
    exact ⟨ht, he, hc⟩

theorem Pending_UpdateAll (v : ℝ) (e : Int) (nows : List Int) (ps : ParameterSmoother ℝ)
    (h : Pending v e ps) : Pending v e (UpdateAll Real.sin Real.pi ps nows) := by
  induction nows generalizing ps with
  | nil => exact h
  | cons a rest ih => exact ih _ (Pending_Update v e ps a h)

/-- After `SetValue(v)` at clock reading `t`, any run of `Update` calls followed by an `Update`
at or after `t + mTrajectoryTime + 1` leaves the current value equal to `v`. -/
theorem SetValue_UpdateAll_target (ps : ParameterSmoother ℝ) (v : ℝ) (t : Int)
    (nows : List Int) (now : Int) (hT : 0 ≤ ps.mTrajectoryTime)
    (hnow : t + ps.mTrajectoryTime + 1 ≤ now) :
    GetValue (Update Real.sin Real.pi
      (UpdateAll Real.sin Real.pi (SetValue ps v t).1 nows) now).1 = v := by
  have h0 : Pending v (t + ps.mTrajectoryTime + 1) (SetValue ps v t).1 := by
    refine ⟨rfl, rfl, Or.inl ?_⟩
    show t < t + ps.mTrajectoryTime + 1
    omega
  obtain ⟨ht, he, hc⟩ := Pending_UpdateAll v _ nows _ h0
  generalize UpdateAll Real.sin Real.pi (SetValue ps v t).1 nows = q at ht he hc
  by_cases hlt : q.mCurrentTimestamp < q.mEndTimestamp
  · rw [Update_reaches_target q now hlt (by omega)]
    exact ht
  · rw [Update_rest _ _ _ _ hlt]
    rcases hc with hc | hc
    · exact absurd hc hlt
    · exact hc

/-! ## ParameterSmoother: the claims -/

/-- C1, as stated, fails: with a trajectory time of 500 ms, `SetValue(1)` at clock reading 0 on a
smoother at rest on 0 and then `Update(500)` (elapsed time equal to the trajectory duration)
leaves `GetValue()` different from 1, because the end timestamp is 501. -/
theorem setValue_update_at_duration_misses_target :
    (500 : Int) - 0 ≥ (create (0 : ℝ) 500 0).mTrajectoryTime ∧
    GetValue (Update Real.sin Real.pi (SetValue (create (0 : ℝ) 500 0) 1 0).1 500).1 ≠ 1 := by
  refine ⟨by decide, ?_⟩
  rw [Update_advance _ _ _ _ (by decide)]
  have h : (leftFraction 500 501 500 : ℝ) = 1 / 500 := by
    norm_num [leftFraction]
  simp only [GetValue, SetValue, create]
  norm_num
  rw [h]
  exact ne_of_lt (progress_lt_one (1/500) (by norm_num) (by norm_num))

/-- C1, amended: for a smoother with trajectory duration `T >= 0`, after `SetValue(v)` at clock
reading `t`, any run of `Update` calls followed by an `Update(now)` with `now - t >= T + 1`
(one millisecond more than the trajectory duration) yields `GetValue() == v` exactly. -/
theorem setValue_updates_past_end_yield_target (ps : ParameterSmoother ℝ) (v : ℝ) (t : Int)
    (nows : List Int) (now : Int) (hT : 0 ≤ ps.mTrajectoryTime)
    (hnow : now - t ≥ ps.mTrajectoryTime + 1) :
    GetValue (Update Real.sin Real.pi
      (UpdateAll Real.sin Real.pi (SetValue ps v t).1 nows) now).1 = v :=
  SetValue_UpdateAll_target ps v t nows now hT (by omega)

theorem setValue_updates_past_end_yield_target_witness :
    GetValue (Update Real.sin Real.pi
      (UpdateAll Real.sin Real.pi (SetValue (create (0 : ℝ) 500 0) 1 0).1 [100, 250]) 501).1
      = 1 :=
  setValue_updates_past_end_yield_target (create (0 : ℝ) 500 0) 1 0 [100, 250] 501
    (by decide) (by decide)

/-- C6, evaluated at its failing input: a smoother with a trajectory time of 500 ms at rest on
0, `SetValue(1)` at clock reading 0, then `Update(0)`. The trajectory runs from start value 0 to
target 1, and `GetValue()` is negative, outside the interval between start and target. -/
theorem update_at_start_leaves_interval :
    (SetValue (create (0 : ℝ) 500 0) 1 0).1.mStartValue = 0 ∧
    (SetValue (create (0 : ℝ) 500 0) 1 0).1.mTargetValue = 1 ∧
    (Update Real.sin Real.pi (SetValue (create (0 : ℝ) 500 0) 1 0).1 0).1.mStartValue = 0 ∧
    (Update Real.sin Real.pi (SetValue (create (0 : ℝ) 500 0) 1 0).1 0).1.mTargetValue = 1 ∧
    GetValue (Update Real.sin Real.pi (SetValue (create (0 : ℝ) 500 0) 1 0).1 0).1 < 0 := by
  have h : (leftFraction 500 501 0 : ℝ) = 501 / 500 := by
    norm_num [leftFraction]
  refine ⟨rfl, rfl, ?_, ?_, ?_⟩
  · rw [Update_advance _ _ _ _ (by decide)]
    rfl
  · rw [Update_advance _ _ _ _ (by decide)]
    rfl
  · rw [Update_advance _ _ _ _ (by decide)]
    simp only [GetValue, SetValue, create]
    norm_num
    rw [h]
    exact progress_neg (501/500) (by norm_num) (by norm_num)

/-- C9: `SetValue(v)` records the value `GetValue()` returned just before the call as the start
value and `v` as the target, leaves `GetValue()` and the trajectory time unchanged and does not
invoke the setter, in every state of the smoother; it schedules the end timestamp at the clock
reading plus the trajectory time plus one millisecond. -/
theorem setValue_frame {F : Type} [LinearOrderedField F] (ps : ParameterSmoother F) (v : F)
    (clockNow : Int) :
    (SetValue ps v clockNow).1.mStartValue = GetValue ps ∧
    (SetValue ps v clockNow).1.mTargetValue = v ∧
    GetValue (SetValue ps v clockNow).1 = GetValue ps ∧
    (SetValue ps v clockNow).2 = [] ∧
    (SetValue ps v clockNow).1.mTrajectoryTime = ps.mTrajectoryTime ∧
    (SetValue ps v clockNow).1.mCurrentTimestamp = clockNow ∧
    (SetValue ps v clockNow).1.mEndTimestamp = clockNow + ps.mTrajectoryTime + 1 :=
  ⟨rfl, rfl, rfl, rfl, rfl, rfl, rfl⟩

end GameController.ParameterSmoother

/-! ## Truncation toward zero -/

section truncation
variable {F : Type} [LinearOrderedField F] [FloorRing F]

theorem FastTruncateInt64_of_neg (f : F) (h : f < 0) : FastTruncateInt64 f = Int.ceil f := by
  unfold FastTruncateInt64
  rw [if_neg (not_le.mpr h)]

/-- Truncation gives 0 on `(-1, 0)`. -/
theorem FastTruncateInt64_sliver (f : F) (h1 : -1 < f) (h2 : f < 0) :
    FastTruncateInt64 f = 0 := by
  rw [FastTruncateInt64_of_neg f h2, Int.ceil_eq_iff]
  constructor
  · simpa using h1
  · simpa using h2.le

end truncation

/-! ## OceanFloor: the branches of `GetHeightAt` -/

namespace Physics.OceanFloor
variable {F : Type} [LinearOrderedField F] [FloorRing F]

theorem Dx_pos {K : Type} [LinearOrderedField K] : (0 : K) < (Dx : K) := by
  unfold Dx GameParameters.MaxWorldWidth SamplesCount
  norm_num

end Physics.OceanFloor

namespace Physics.OceanFloor
variable {F : Type} [LinearOrderedField F] [FloorRing F]

/-- The fractional sample index of `x`, in closed form. -/
theorem sampleIndexF_eq {K : Type} [LinearOrderedField K] (x : K) :
    (x + GameParameters.HalfMaxWorldWidth) / Dx = (x + 2500) * 256 / 625 := by
  unfold Dx GameParameters.HalfMaxWorldWidth GameParameters.MaxWorldWidth SamplesCount
  norm_num
  ring

end Physics.OceanFloor

namespace Physics.OceanFloor
variable {F : Type} [LinearOrderedField F] [FloorRing F]

end Physics.OceanFloor

/-! ## GameController: the game-parameter setters -/

namespace GameController

/-- A directly stored `float` parameter reads back exactly the value its setter was given. -/
theorem directFloat_get_set {F : Type} [LinearOrderedField F] (p : TunableParameter F F)
    (hp : p ∈ directFloatParameters) (gc : GameController F) (v : F) :
    p.Get (p.Set gc v) = v := by
  simp only [directFloatParameters, List.mem_cons, List.mem_singleton, List.not_mem_nil,
    or_false] at hp
  rcases hp with h | h | h | h | h | h | h | h | h | h | h | h | h | h | h | h | h | h | h | h
    | h | h | h | h | h | h
  all_goals subst h
  all_goals rfl

/-- A directly stored `size_t` parameter reads back exactly the value its setter was given. -/
theorem directCount_get_set {F : Type} [LinearOrderedField F] (p : TunableParameter F Nat)
    (hp : p ∈ directCountParameters) (gc : GameController F) (v : Nat) :
    p.Get (p.Set gc v) = v := by
  simp only [directCountParameters, List.mem_cons, List.mem_singleton, List.not_mem_nil,
    or_false] at hp
  rcases hp with h | h
  all_goals subst h
  all_goals rfl

/-- The accessors of a smoothed parameter: the getter reads `GetValue()` of the smoother at the
parameter's index, the setter applies `SetValue` to that smoother and leaves the stored
parameters alone. -/
theorem smoothed_accessors {F : Type} [LinearOrderedField F] (p : SmoothedParameter F)
    (hp : p ∈ smoothedParameters) (gc : GameController F) :
    p.Get gc = (gc.mParameterSmoothers[p.index]?).map ParameterSmoother.GetValue ∧
    ∀ (v : F) (t : Int),
      (p.Set gc v t).mGameParameters = gc.mGameParameters ∧
      (p.Set gc v t).mParameterSmoothers[p.index]?
        = (gc.mParameterSmoothers[p.index]?).map (fun ps => (ps.SetValue v t).1) := by
  simp only [smoothedParameters, List.mem_cons, List.mem_singleton, List.not_mem_nil,
    or_false] at hp
  rcases hp with h | h | h | h | h
  all_goals subst h
  all_goals refine ⟨rfl, fun v t => ⟨rfl, ?_⟩⟩
  · simp [SetSpringStiffnessAdjustment, Array.getElem?_modify]
  · simp [SetSpringStrengthAdjustment, Array.getElem?_modify]
  · simp [SetSeaDepth, Array.getElem?_modify]
  · simp [SetOceanFloorBumpiness, Array.getElem?_modify]
  · simp [SetOceanFloorDetailAmplification, Array.getElem?_modify]

/-- C2, as stated, fails: on the default controller state `SetWaterDensityAdjustment(5)` stores
5, above `GetMaxWaterDensityAdjustment() = 4`; and `SetSeaDepth(5)` at clock reading 0 followed
by `Update(1001)` of its smoother leaves `GetValue() = 5`, below `GetMinSeaDepth() = 20`. -/
theorem setters_store_out_of_range_values :
    GetWaterDensityAdjustment (SetWaterDensityAdjustment (sampleController (F := ℝ)) 5) = 5 ∧
    (GetMaxWaterDensityAdjustment : ℝ) = 4 ∧
    ¬ (GetWaterDensityAdjustment (SetWaterDensityAdjustment (sampleController (F := ℝ)) 5)
        ≤ GetMaxWaterDensityAdjustment) ∧
    (SetSeaDepth (sampleController (F := ℝ)) 5 0).mParameterSmoothers[SeaDepthParameterSmoother]?
      = some (ParameterSmoother.SetValue
          (ParameterSmoother.create (GameParameters.create (F := ℝ)).SeaDepth 1000 0) 5 0).1 ∧
    ParameterSmoother.GetValue (ParameterSmoother.Update Real.sin Real.pi
      (ParameterSmoother.SetValue
        (ParameterSmoother.create (GameParameters.create (F := ℝ)).SeaDepth 1000 0) 5 0).1
      1001).1 = 5 ∧
    (GetMinSeaDepth : ℝ) = 20 := by
  have hmax : (GetMaxWaterDensityAdjustment : ℝ) = 4 := by
    unfold GetMaxWaterDensityAdjustment GameParameters.MaxWaterDensityAdjustment
    norm_num
  refine ⟨rfl, hmax, ?_, ?_, ?_, ?_⟩
  · rw [hmax]
    show ¬ ((5 : ℝ) ≤ 4)
    norm_num
  · simp [SetSeaDepth, sampleController, SeaDepthParameterSmoother, Array.getElem?_modify]
  · exact ParameterSmoother.SetValue_UpdateAll_target _ 5 0 [] 1001 (by decide) (by decide)
  · unfold GetMinSeaDepth GameParameters.MinSeaDepth
    norm_num

end GameController

/-! ## GameParameters: the defaults -/

namespace GameParameters

theorem boundedFloatFields_default {F : Type} [LinearOrderedField F] (b : BoundedField F F)
    (hb : b ∈ boundedFloatFields) :
    b.Min ≤ b.Max ∧ b.Min ≤ b.value create ∧ b.value create ≤ b.Max := by
  simp only [boundedFloatFields, List.mem_cons, List.mem_singleton, List.not_mem_nil,
    or_false] at hb
  rcases hb with h | h | h | h | h | h | h | h | h | h | h | h | h | h | h | h | h | h | h | h | h | h | h | h | h | h | h | h | h | h | h | h | h
  all_goals subst h
  all_goals norm_num [create,
    MinNumMechanicalDynamicsIterationsAdjustment, MinSpringStiffnessAdjustment,
    MinSpringDampingAdjustment, MinSpringStrengthAdjustment, MinRotAcceler8r,
    MinWaterDensityAdjustment, MinWaterDragAdjustment, MinWaterIntakeAdjustment,
    MinWaterDiffusionSpeedAdjustment, MinWaterCrazyness,
    MinCumulatedIntakenWaterThresholdForAirBubbles, MinWindSpeedBase, MinWindSpeedMaxFactor,
    MinWindGustFrequencyAdjustment, MinBasalWaveHeightAdjustment, MinBasalWaveLengthAdjustment,
    MinBasalWaveSpeedAdjustment, MinTsunamiRate, MinRogueWaveRate, MinFlameThrowerHeatFlow,
    MinFlameThrowerRadius, MinSeaDepth, MinOceanFloorBumpiness, MinOceanFloorDetailAmplification,
    MinLuminiscenceAdjustment, MinLightSpreadAdjustment, MinDestroyRadius, MinRepairRadius,
    MinRepairSpeedAdjustment, MinBombBlastRadius, MinAntiMatterBombImplosionStrength,
    MinFloodRadius, MinFloodQuantity, MaxNumMechanicalDynamicsIterationsAdjustment,
    MaxSpringStiffnessAdjustment, MaxSpringDampingAdjustment, MaxSpringStrengthAdjustment,
    MaxRotAcceler8r, MaxWaterDensityAdjustment, MaxWaterDragAdjustment, MaxWaterIntakeAdjustment,
    MaxWaterDiffusionSpeedAdjustment, MaxWaterCrazyness,
    MaxCumulatedIntakenWaterThresholdForAirBubbles, MaxWindSpeedBase, MaxWindSpeedMaxFactor,
    MaxWindGustFrequencyAdjustment, MaxBasalWaveHeightAdjustment, MaxBasalWaveLengthAdjustment,
    MaxBasalWaveSpeedAdjustment, MaxTsunamiRate, MaxRogueWaveRate, MaxFlameThrowerHeatFlow,
    MaxFlameThrowerRadius, MaxSeaDepth, MaxOceanFloorBumpiness, MaxOceanFloorDetailAmplification,
    MaxLuminiscenceAdjustment, MaxLightSpreadAdjustment, MaxDestroyRadius, MaxRepairRadius,
    MaxRepairSpeedAdjustment, MaxBombBlastRadius, MaxAntiMatterBombImplosionStrength,
    MaxFloodRadius, MaxFloodQuantity]

theorem boundedCountFields_default {F : Type} [LinearOrderedField F] (b : BoundedField F Nat)
    (hb : b ∈ boundedCountFields) :
    b.Min ≤ b.Max ∧ b.Min ≤ b.value (create (F := F)) ∧ b.value (create (F := F)) ≤ b.Max := by
  simp only [boundedCountFields, List.mem_cons, List.mem_singleton, List.not_mem_nil,
    or_false] at hb
  rcases hb with h | h
  all_goals subst h
  all_goals simp [create, MinNumberOfStars, MaxNumberOfStars, MinNumberOfClouds, MaxNumberOfClouds]

/-- C11: every default assigned by the `GameParameters` constructor lies within the bounds its
field declares: for each of the 33 `float` fields and 2 `size_t` fields `X` that declare `MinX`
and `MaxX`, `MinX <= MaxX` and `MinX <= default(X) <= MaxX`; so a freshly constructed
`GameParameters` satisfies the range invariant. -/
theorem defaults_within_bounds {F : Type} [LinearOrderedField F] :
    (∀ b ∈ boundedFloatFields (F := F),
      b.Min ≤ b.Max ∧ b.Min ≤ b.value create ∧ b.value create ≤ b.Max) ∧
    (∀ b ∈ boundedCountFields (F := F),
      b.Min ≤ b.Max ∧ b.Min ≤ b.value create ∧ b.value create ≤ b.Max) ∧
    (boundedFloatFields (F := F)).length = 33 ∧
    (boundedCountFields (F := F)).length = 2 ∧
    InRange (create : GameParameters F) :=
  ⟨fun b hb => boundedFloatFields_default b hb,
    fun b hb => boundedCountFields_default b hb,
    rfl, rfl,
    fun b hb => (boundedFloatFields_default b hb).2,
    fun b hb => (boundedCountFields_default b hb).2⟩

end GameParameters

/-! ## OceanFloor: `AdjustTo` -/

namespace Physics.OceanFloor

/-- The samples after `AdjustTo`, read by index. -/
theorem AdjustTo_sample {F : Type} [LinearOrderedField F] (o : OceanFloor F)
    (x1 y1 x2 y2 : F) (i : Nat) :
    ((AdjustTo o x1 y1 x2 y2).1.mSamples[i]?).map (fun s => s.SampleValue)
      = (o.mSamples[i]?).map
          (fun s => AdjustTo.newSampleValue x1 y1 x2 y2 i s.SampleValue) := by
  unfold AdjustTo
  simp only [Array.getElem?_ofFn]
  by_cases h : i < o.mSamples.size
  · simp [h, Array.getElem?_eq_getElem h]
  · simp [h, Array.getElem?_size_le _ _ (not_lt.mp h)]

theorem AdjustTo_size {F : Type} [LinearOrderedField F] (o : OceanFloor F) (x1 y1 x2 y2 : F) :
    (AdjustTo o x1 y1 x2 y2).1.mSamples.size = o.mSamples.size := by
  simp [AdjustTo]

/-- `AdjustTo` returns true exactly when some sample value changed. -/
theorem AdjustTo_changed {F : Type} [LinearOrderedField F] (o : OceanFloor F)
    (x1 y1 x2 y2 : F) :
    (AdjustTo o x1 y1 x2 y2).2 = true ↔
      ∃ i : Nat, ((AdjustTo o x1 y1 x2 y2).1.mSamples[i]?).map (fun s => s.SampleValue)
        ≠ (o.mSamples[i]?).map (fun s => s.SampleValue) := by
  constructor
  · intro h
    simp only [AdjustTo, List.any_eq_true, decide_eq_true_eq] at h
    obtain ⟨i, _, hi⟩ := h
    refine ⟨i.val, ?_⟩
    rw [AdjustTo_sample, Array.getElem?_eq_getElem i.isLt]
    simp only [Option.map_some', ne_eq, Option.some.injEq]
    exact hi
  · rintro ⟨i, hi⟩
    rw [AdjustTo_sample] at hi
    by_cases h : i < o.mSamples.size
    · rw [Array.getElem?_eq_getElem h] at hi
      simp only [Option.map_some', ne_eq, Option.some.injEq] at hi
      simp only [AdjustTo, List.any_eq_true, decide_eq_true_eq]
      exact ⟨⟨i, h⟩, List.mem_finRange _, hi⟩
    · rw [Array.getElem?_size_le _ _ (not_lt.mp h)] at hi
      exact absurd rfl hi

theorem flatFloor_sample {F : Type} [LinearOrderedField F] (i : Nat) (h : i < 2049) :
    (flatFloor (F := F)).mSamples[i]? = some ⟨-40, 0⟩ := by
  unfold flatFloor
  rw [Array.getElem?_eq_getElem (by simpa using h)]
  simp

/-- Sample `i` lies between x = 0 and x = 100 exactly when `1024 <= i <= 1064`. -/
theorem sampleX_between {F : Type} [LinearOrderedField F] (i : Nat) :
    ((0 : F) ≤ sampleX i ∧ (sampleX i : F) ≤ 100) ↔ (1024 ≤ i ∧ i ≤ 1064) := by
  have e : (sampleX i : F) = (i : F) * 625 / 256 - 2500 := by
    unfold sampleX Dx GameParameters.HalfMaxWorldWidth GameParameters.MaxWorldWidth SamplesCount
    norm_num
    ring
  rw [e]
  constructor
  · rintro ⟨h1, h2⟩
    have h1' : (1024 : F) ≤ (i : F) := by linarith
    have h2' : (i : F) < 1065 := by linarith
    have h1'' : 1024 ≤ i := by exact_mod_cast h1'
    have h2'' : i < 1065 := by exact_mod_cast h2'
    omega
  · rintro ⟨h1, h2⟩
    have h1' : (1024 : F) ≤ (i : F) := by exact_mod_cast h1
    have h2' : (i : F) ≤ 1064 := by exact_mod_cast h2
    constructor <;> linarith

/-- C12: `AdjustTo(x1=0, y1=-50, x2=100, y2=-60)` on a flat floor at -40 returns true, gives
every stored sample whose x lies between 0 and 100 (the samples 1024 to 1064) the value of the
linear ramp from -50 to -60 at its x, and leaves the value of every other sample at -40, with
the number of samples unchanged; in general `AdjustTo` returns true exactly when the value of at
least one sample changed. -/
theorem adjustTo_ramp_scenario {F : Type} [LinearOrderedField F] :
    (AdjustTo (flatFloor (F := F)) 0 (-50) 100 (-60)).2 = true ∧
    (AdjustTo (flatFloor (F := F)) 0 (-50) 100 (-60)).1.mSamples.size = 2049 ∧
    (∀ i : Nat, i < 2049 → 1024 ≤ i → i ≤ 1064 →
      (0 : F) ≤ sampleX i ∧ (sampleX i : F) ≤ 100 ∧
      ((AdjustTo (flatFloor (F := F)) 0 (-50) 100 (-60)).1.mSamples[i]?).map
          (fun s => s.SampleValue)
        = some (-50 + (-60 - (-50)) * ((sampleX i - 0) / (100 - 0)))) ∧
    (∀ i : Nat, i < 2049 → ¬ (1024 ≤ i ∧ i ≤ 1064) →
      ¬ ((0 : F) ≤ sampleX i ∧ (sampleX i : F) ≤ 100) ∧
      ((AdjustTo (flatFloor (F := F)) 0 (-50) 100 (-60)).1.mSamples[i]?).map
          (fun s => s.SampleValue)
        = some (-40)) ∧
    (∀ (o : OceanFloor F) (x1 y1 x2 y2 : F),
      (AdjustTo o x1 y1 x2 y2).2 = true ↔
        ∃ i : Nat, ((AdjustTo o x1 y1 x2 y2).1.mSamples[i]?).map (fun s => s.SampleValue)
          ≠ (o.mSamples[i]?).map (fun s => s.SampleValue)) := by
  have hmin : min (0 : F) 100 = 0 := min_eq_left (by norm_num)
  have hmax : max (0 : F) 100 = 100 := max_eq_right (by norm_num)
  have hin : ∀ i : Nat, i < 2049 → 1024 ≤ i → i ≤ 1064 →
      ((AdjustTo (flatFloor (F := F)) 0 (-50) 100 (-60)).1.mSamples[i]?).map
          (fun s => s.SampleValue)
        = some (-50 + (-60 - (-50)) * ((sampleX i - 0) / (100 - 0))) := by
    intro i hi h1 h2
    have hb := (sampleX_between (F := F) i).mpr ⟨h1, h2⟩
    rw [AdjustTo_sample, flatFloor_sample i hi]
    simp only [Option.map_some', AdjustTo.newSampleValue, hmin, hmax]
    rw [if_pos hb]
  refine ⟨?_, ?_, ?_, ?_, fun o x1 y1 x2 y2 => AdjustTo_changed o x1 y1 x2 y2⟩
  · rw [AdjustTo_changed]
    refine ⟨1024, ?_⟩
    rw [hin 1024 (by decide) (by decide) (by decide), flatFloor_sample 1024 (by decide)]
    have e : (sampleX 1024 : F) = 0 := by
      unfold sampleX Dx GameParameters.HalfMaxWorldWidth GameParameters.MaxWorldWidth
        SamplesCount
      norm_num
    simp only [Option.map_some', e]
    norm_num
  · rw [AdjustTo_size]
    simp [flatFloor]
  · intro i hi h1 h2
    have hb := (sampleX_between (F := F) i).mpr ⟨h1, h2⟩
    exact ⟨hb.1, hb.2, hin i hi h1 h2⟩
  · intro i hi hout
    have hb : ¬ ((0 : F) ≤ sampleX i ∧ (sampleX i : F) ≤ 100) :=
      fun h => hout ((sampleX_between (F := F) i).mp h)
    refine ⟨hb, ?_⟩
    rw [AdjustTo_sample, flatFloor_sample i hi]
    simp only [Option.map_some', AdjustTo.newSampleValue, hmin, hmax]
    rw [if_neg hb]

end Physics.OceanFloor

/-! ## ParameterSmoother: the managed parameter and the ease -/

namespace GameController.ParameterSmoother

theorem managedValue_cons {F : Type} (g x : F) (l : List F) :
    managedValue g (x :: l) = managedValue x l := by
  cases l with
  | nil => rfl
  | cons y t =>
    simp only [managedValue, List.getLast?_cons_cons]
    rw [List.getLast?_eq_getLast (y :: t) (List.cons_ne_nil y t)]
    rfl

/-- A run of calls keeps the managed parameter equal to the current value. -/
theorem run_managedValue {F : Type} [LinearOrderedField F] (sin : F → F) (Pi : F)
    (calls : List (Call F)) (ps : ParameterSmoother F) :
    managedValue ps.mCurrentValue (run sin Pi ps calls).2 = GetValue (run sin Pi ps calls).1 := by
  induction calls generalizing ps with
  | nil => rfl
  | cons c rest ih =>
    cases c with
    | setValue v t =>
      have h := ih (SetValue ps v t).1
      simpa [run, step, SetValue] using h
    | update now =>
      by_cases hlt : ps.mCurrentTimestamp < ps.mEndTimestamp
      · have h := ih (Update sin Pi ps now).1
        simp only [run, step]
        rw [Update_advance sin Pi ps now hlt] at h ⊢
        simp only [List.singleton_append, managedValue_cons]
        exact h
      · have h := ih ps
        simp only [run, step]
        rw [Update_rest sin Pi ps now hlt]
        simpa using h

/-- C13: after any sequence of `SetValue` and `Update` calls on a constructed smoother, the
value last passed to the bound setter (or the value the getter returned at construction, if the
setter was never invoked) equals `GetValue()`; an `Update` that advances the trajectory invokes
the setter exactly once, with the new current value, an `Update` that does not advance and a
`SetValue` do not invoke it. -/
theorem managed_parameter_agrees {F : Type} [LinearOrderedField F] (sin : F → F) (Pi : F)
    (getterValue : F) (trajectoryTime clockNow : Int) (calls : List (Call F)) :
    managedValue getterValue (run sin Pi (create getterValue trajectoryTime clockNow) calls).2
      = GetValue (run sin Pi (create getterValue trajectoryTime clockNow) calls).1 ∧
    (∀ (ps : ParameterSmoother F) (now : Int),
      (ps.mCurrentTimestamp < ps.mEndTimestamp →
        (Update sin Pi ps now).2 = [GetValue (Update sin Pi ps now).1]) ∧
      (¬ ps.mCurrentTimestamp < ps.mEndTimestamp → Update sin Pi ps now = (ps, []))) ∧
    (∀ (ps : ParameterSmoother F) (value : F) (t : Int), (SetValue ps value t).2 = []) :=
  ⟨run_managedValue sin Pi calls (create getterValue trajectoryTime clockNow),
    fun ps now => ⟨fun h => by rw [Update_advance sin Pi ps now h]; rfl,
      fun h => Update_rest sin Pi ps now h⟩,
    fun _ _ _ => rfl⟩

end GameController.ParameterSmoother

namespace GameController.ParameterSmoother

/-- At the beginning of the trajectory (`leftFraction = 1`) the progress is 0. -/
theorem progress_phase_one :
    progress Real.sin Real.pi (phase Real.pi 1) = 0 := by
  have h1 : phase Real.pi (1 : ℝ) = Real.pi / 4 := by unfold phase; ring
  unfold progress
  rw [h1, sub_self, zero_div]

/-- The progress does not increase with the fraction of the trajectory that is left, as long as
that fraction is within `[0, 4]` (so that the phase is within `[-Pi/2, Pi/2]`). -/
theorem progress_antitone (a b : ℝ) (ha : 0 ≤ a) (hab : a ≤ b) (hb : b ≤ 4) :
    progress Real.sin Real.pi (phase Real.pi b) ≤ progress Real.sin Real.pi (phase Real.pi a) := by
  have hs := sin_pi_div_four_lt_one
  have hpi := Real.pi_pos
  have hle : Real.sin (phase Real.pi b) ≤ Real.sin (phase Real.pi a) := by
    apply Real.sin_le_sin_of_le_of_le_pi_div_two
    · unfold phase; nlinarith
    · unfold phase; nlinarith
    · unfold phase; nlinarith
  unfold progress
  apply div_le_div_of_nonneg_right _ (by linarith)
  linarith

theorem progress_strictAnti (a b : ℝ) (ha : 0 ≤ a) (hab : a < b) (hb : b ≤ 4) :
    progress Real.sin Real.pi (phase Real.pi b) < progress Real.sin Real.pi (phase Real.pi a) := by
  have hs := sin_pi_div_four_lt_one
  have hpi := Real.pi_pos
  have hlt : Real.sin (phase Real.pi b) < Real.sin (phase Real.pi a) := by
    apply Real.sin_lt_sin_of_lt_of_le_pi_div_two
    · unfold phase; nlinarith
    · unfold phase; nlinarith
    · unfold phase; nlinarith
  unfold progress
  apply div_lt_div_of_pos_right _ (by linarith)
  linarith

/-- The fraction left at a later timestamp is not larger, and both are within `[0, 2]` for
timestamps that are not before the clock reading of `SetValue`. -/
theorem leftFraction_bounds (T e c1 c2 : Int) (hT : 0 ≤ T) (h12 : c1 ≤ c2) (h2e : c2 ≤ e)
    (h1 : e - c1 ≤ T + 1) :
    (0 : ℝ) ≤ leftFraction T e c2 ∧ (leftFraction T e c2 : ℝ) ≤ leftFraction T e c1 ∧
      (leftFraction T e c1 : ℝ) ≤ 2 := by
  unfold leftFraction
  by_cases hz : T = 0
  · simp [hz]
  · simp only [if_neg hz]
    have hTpos : (0 : ℝ) < (T : ℝ) := by
      have : 0 < T := by omega
      exact_mod_cast this
    have hT1 : (1 : ℝ) ≤ (T : ℝ) := by
      have : 1 ≤ T := by omega
      exact_mod_cast this
    have e2 : (0 : ℝ) ≤ ((e - c2 : Int) : ℝ) := by
      have : 0 ≤ e - c2 := by omega
      exact_mod_cast this
    have e12 : ((e - c2 : Int) : ℝ) ≤ ((e - c1 : Int) : ℝ) := by
      have : e - c2 ≤ e - c1 := by omega
      exact_mod_cast this
    have e1 : ((e - c1 : Int) : ℝ) ≤ (T : ℝ) + 1 := by
      exact_mod_cast h1
    refine ⟨div_nonneg e2 hTpos.le, div_le_div_of_nonneg_right e12 hTpos.le, ?_⟩
    rw [div_le_iff₀ hTpos]
    linarith

/-- C14: the progress of the ease as a function of the fraction `l` of the trajectory that is
left, `p(l) = (sin(Pi/4 + (Pi/4)(1 - l)) - sin(Pi/4)) / (1 - sin(Pi/4))`, has `p(1) = 0` and
`p(0) = 1` and is strictly decreasing in `l` on `[0, 1]`; and of two consecutive `Update` calls
within one trajectory, with clock readings `now1 <= now2` that are not before the clock reading
of `SetValue`, the later one does not leave `GetValue()` farther from the target than the
earlier one did. -/
theorem ease_progress_monotone :
    progress Real.sin Real.pi (phase Real.pi 1) = 0 ∧
    progress Real.sin Real.pi (phase Real.pi 0) = 1 ∧
    StrictAntiOn (fun l : ℝ => progress Real.sin Real.pi (phase Real.pi l)) (Set.Icc 0 1) ∧
    (∀ (ps : ParameterSmoother ℝ) (now1 now2 : Int), 0 ≤ ps.mTrajectoryTime →
      ps.mEndTimestamp - now1 ≤ ps.mTrajectoryTime + 1 → now1 ≤ now2 →
      |ps.mTargetValue
          - GetValue (Update Real.sin Real.pi (Update Real.sin Real.pi ps now1).1 now2).1|
        ≤ |ps.mTargetValue - GetValue (Update Real.sin Real.pi ps now1).1|) := by
  refine ⟨progress_phase_one, progress_phase_zero, ?_, ?_⟩
  · intro a ha b hb hab
    exact progress_strictAnti a b ha.1 hab (by linarith [hb.2])
  · intro ps now1 now2 hT h1 h12
    by_cases hlt : ps.mCurrentTimestamp < ps.mEndTimestamp
    · by_cases hn1 : now1 < ps.mEndTimestamp
      · have hm1 : min now1 ps.mEndTimestamp = now1 := min_eq_left hn1.le
        rw [Update_advance _ _ ps now1 hlt, hm1]
        rw [Update_advance _ _ _ now2 (by simpa using hn1)]
        simp only [GetValue]
        obtain ⟨b0, b12, b2⟩ := leftFraction_bounds ps.mTrajectoryTime ps.mEndTimestamp now1
          (min now2 ps.mEndTimestamp) hT (le_min h12 hn1.le) (min_le_right _ _) h1
        have hp := progress_antitone _ _ b0 b12 (by linarith)
        have hp1 := progress_antitone 0 _ le_rfl b0 (by linarith)
        rw [progress_phase_zero] at hp1
        generalize progress Real.sin Real.pi (phase Real.pi
          (leftFraction ps.mTrajectoryTime ps.mEndTimestamp (min now2 ps.mEndTimestamp))) = p2
          at hp hp1
        generalize progress Real.sin Real.pi (phase Real.pi
          (leftFraction ps.mTrajectoryTime ps.mEndTimestamp now1)) = p1 at hp
        have e1 : ps.mTargetValue - (ps.mStartValue + (ps.mTargetValue - ps.mStartValue) * p1)
            = (ps.mTargetValue - ps.mStartValue) * (1 - p1) := by ring
        have e2 : ps.mTargetValue - (ps.mStartValue + (ps.mTargetValue - ps.mStartValue) * p2)
            = (ps.mTargetValue - ps.mStartValue) * (1 - p2) := by ring
        rw [e1, e2, abs_mul, abs_mul, abs_of_nonneg (by linarith : (0 : ℝ) ≤ 1 - p2),
          abs_of_nonneg (by linarith : (0 : ℝ) ≤ 1 - p1)]
        exact mul_le_mul_of_nonneg_left (by linarith) (abs_nonneg _)
      · have hq : ¬ (Update Real.sin Real.pi ps now1).1.mCurrentTimestamp
            < (Update Real.sin Real.pi ps now1).1.mEndTimestamp := by
          rw [Update_reaches_target ps now1 hlt (not_lt.mp hn1)]
          exact lt_irrefl _
        rw [Update_rest _ _ _ now2 hq]
    · rw [Update_rest _ _ ps now1 hlt, Update_rest _ _ ps now2 hlt]

theorem ease_progress_monotone_witness :
    |(SetValue (create (0 : ℝ) 500 0) 1 0).1.mTargetValue
        - GetValue (Update Real.sin Real.pi
            (Update Real.sin Real.pi (SetValue (create (0 : ℝ) 500 0) 1 0).1 100).1 300).1|
      ≤ |(SetValue (create (0 : ℝ) 500 0) 1 0).1.mTargetValue
        - GetValue (Update Real.sin Real.pi (SetValue (create (0 : ℝ) 500 0) 1 0).1 100).1| :=
  ease_progress_monotone.2.2.2 (SetValue (create (0 : ℝ) 500 0) 1 0).1 100 300
    (by decide) (by decide) (by decide)

end GameController.ParameterSmoother

/-! ## OceanFloor: the assertions of `GetHeightAt` -/

namespace Physics.OceanFloor

/-- `GetHeightAt` in terms of its locals. -/
theorem GetHeightAt_locals {F : Type} [LinearOrderedField F] [FloorRing F] (o : OceanFloor F)
    (x : F) :
    GetHeightAt o x =
      if GetHeightAt.sampleIndexI x < 0 then
        (o.mSamples[0]?).map (fun s => s.SampleValue)
      else if GetHeightAt.sampleIndexI x > SamplesCount then
        (o.mSamples[SamplesCount.toNat]?).map (fun s => s.SampleValue)
      else
        (o.mSamples[(GetHeightAt.sampleIndexI x).toNat]?).map
          (fun s => s.SampleValue
            + s.SampleValuePlusOneMinusSampleValue * GetHeightAt.sampleIndexDx x) :=
  rfl

/-- C15, evaluated at its failing input `x = -2501` (one metre left of the world): the
truncated index is 0, so the interpolation branch is taken and the first assertion holds, but
the fractional part `sampleIndexDx` is `-256/625`, so the second assertion
`sampleIndexDx >= 0.0f && sampleIndexDx <= 1.0f` fails. -/
theorem getHeightAt_assert_fails_left_of_world :
    GetHeightAt.sampleIndexI (-2501 : ℚ) = 0 ∧
    GetHeightAt.interpolates (-2501 : ℚ) ∧
    GetHeightAt.assertIndex (-2501 : ℚ) ∧
    GetHeightAt.sampleIndexDx (-2501 : ℚ) = -256 / 625 ∧
    ¬ GetHeightAt.assertFraction (-2501 : ℚ) := by
  have hf : GetHeightAt.sampleIndexF (-2501 : ℚ) = -256 / 625 := by
    unfold GetHeightAt.sampleIndexF
    rw [sampleIndexF_eq]
    norm_num
  have hi : GetHeightAt.sampleIndexI (-2501 : ℚ) = 0 := by
    unfold GetHeightAt.sampleIndexI
    rw [hf]
    exact FastTruncateInt64_sliver _ (by norm_num) (by norm_num)
  have hd : GetHeightAt.sampleIndexDx (-2501 : ℚ) = -256 / 625 := by
    unfold GetHeightAt.sampleIndexDx
    rw [hf, hi]
    norm_num
  refine ⟨hi, ?_, ?_, hd, ?_⟩
  · unfold GetHeightAt.interpolates
    rw [hi]
    decide
  · unfold GetHeightAt.assertIndex
    rw [hi]
    decide
  · unfold GetHeightAt.assertFraction
    rw [hd]
    norm_num

end Physics.OceanFloor

/-! ## SoundController: the size buckets -/

namespace SoundController

/-- C16: the size carried by a structural event is bucketed as `size < 2` Small,
`2 <= size < 10` Medium, `size >= 10` Large; the mapping is defined on every unsigned size and is
monotone: a larger size never gives a smaller bucket. -/
theorem sizeType_buckets :
    (∀ size : Nat, size < 2 → PlayMSUOneShotMultipleChoiceSound.sizeType size = SizeType.Small) ∧
    (∀ size : Nat, 2 ≤ size → size < 10 →
      PlayMSUOneShotMultipleChoiceSound.sizeType size = SizeType.Medium) ∧
    (∀ size : Nat, 10 ≤ size → PlayMSUOneShotMultipleChoiceSound.sizeType size = SizeType.Large) ∧
    (∀ a b : Nat, a ≤ b →
      (PlayMSUOneShotMultipleChoiceSound.sizeType a).toInt
        ≤ (PlayMSUOneShotMultipleChoiceSound.sizeType b).toInt) := by
  refine ⟨?_, ?_, ?_, ?_⟩
  · intro size h
    simp [PlayMSUOneShotMultipleChoiceSound.sizeType, h]
  · intro size h1 h2
    have : ¬ size < 2 := by omega
    simp [PlayMSUOneShotMultipleChoiceSound.sizeType, this, h2]
  · intro size h
    have h1 : ¬ size < 2 := by omega
    have h2 : ¬ size < 10 := by omega
    simp [PlayMSUOneShotMultipleChoiceSound.sizeType, h1, h2]
  · intro a b hab
    unfold PlayMSUOneShotMultipleChoiceSound.sizeType
    split_ifs <;> simp [SizeType.toInt] <;> omega

end SoundController

/-! ## SoundController: scavenging -/

namespace SoundController

/-- One step of tracking the first oldest entry that satisfies `p`. -/
theorem Tracked_step {T S : Type} (timeMax : Int) (p : PlayingSound T S → Bool)
    (pre : List (PlayingSound T S)) (sound : PlayingSound T S) (index : Nat) (timestamp : Int)
    (hts : sound.StartedTimestamp < timeMax)
    (h : Tracked timeMax p pre index timestamp) :
    Tracked timeMax p (pre ++ [sound])
      (if sound.StartedTimestamp < timestamp ∧ p sound = true then pre.length else index)
      (if sound.StartedTimestamp < timestamp ∧ p sound = true then sound.StartedTimestamp
        else timestamp) := by
  have hlast : (pre ++ [sound])[pre.length]? = some sound := by simp
  have hget : ∀ (j : Nat) (s' : PlayingSound T S), (pre ++ [sound])[j]? = some s' →
      (j < pre.length ∧ pre[j]? = some s') ∨ (j = pre.length ∧ s' = sound) := by
    intro j s' hj
    rcases Nat.lt_trichotomy j pre.length with hlt | heq | hgt
    · left
      rw [List.getElem?_append_left hlt] at hj
      exact ⟨hlt, hj⟩
    · right
      subst heq
      rw [hlast] at hj
      exact ⟨rfl, (Option.some.inj hj).symm⟩
    · exfalso
      have : (pre ++ [sound]).length ≤ j := by simp; omega
      rw [List.getElem?_eq_none this] at hj
      exact Option.noConfusion hj
  by_cases hc : sound.StartedTimestamp < timestamp ∧ p sound = true
  · simp only [if_pos hc]
    right
    refine ⟨hts, ⟨sound, hlast, hc.2, ?_⟩, sound, hlast, rfl⟩
    intro j s' hj hp
    rcases hget j s' hj with ⟨hlt, hj'⟩ | ⟨heq, hs⟩
    · rcases h with ⟨_, hnone⟩ | ⟨_, ⟨s, hs, _, hmin⟩, s2, hs2, hts2⟩
      · have := hnone s' (List.getElem?_mem hj')
        rw [this] at hp
        exact Bool.noConfusion hp
      · have e : s2 = s := Option.some.inj (hs2.symm.trans hs)
        subst e
        have := (hmin j s' hj' hp).1
        constructor
        · omega
        · intro _; omega
    · subst hs
      exact ⟨le_refl _, fun hlt => absurd hlt (by omega)⟩
  · simp only [if_neg hc]
    rcases h with ⟨heq, hnone⟩ | ⟨hlt, ⟨s, hs, hps, hmin⟩, s2, hs2, hts2⟩
    · left
      refine ⟨heq, ?_⟩
      intro s' hs'
      rcases List.mem_append.mp hs' with hm | hm
      · exact hnone s' hm
      · have e : s' = sound := by simpa using hm
        subst e
        by_contra hp
        exact hc ⟨by omega, by simpa using hp⟩
    · right
      have hidx : index < pre.length := by
        by_contra hge
        rw [List.getElem?_eq_none (not_lt.mp hge)] at hs
        exact Option.noConfusion hs
      have e : s2 = s := Option.some.inj (hs2.symm.trans hs)
      subst e
      refine ⟨hlt, ⟨s2, ?_, hps, ?_⟩, s2, ?_, hts2⟩
      · rw [List.getElem?_append_left hidx]; exact hs
      · intro j s' hj hp
        rcases hget j s' hj with ⟨_, hj'⟩ | ⟨heq, hs'⟩
        · exact hmin j s' hj' hp
        · subst hs'
          constructor
          · by_contra hlt'
            exact hc ⟨by omega, hp⟩
          · intro hji; omega
      · rw [List.getElem?_append_left hidx]; exact hs

/-- The body of the loop of `ScavengeOldestSound`, field by field. -/
theorem ScavengeOldestSound.body_eq {T S : Type} (sound : PlayingSound T S) (i : Nat)
    (st : ScavengeOldestSound.Locals) :
    (ScavengeOldestSound.body sound i st).iOldestInterruptibleSound
      = (if sound.StartedTimestamp < st.oldestInterruptibleSoundStartTimestamp
          ∧ sound.IsInterruptible = true then i else st.iOldestInterruptibleSound) ∧
    (ScavengeOldestSound.body sound i st).oldestInterruptibleSoundStartTimestamp
      = (if sound.StartedTimestamp < st.oldestInterruptibleSoundStartTimestamp
          ∧ sound.IsInterruptible = true then sound.StartedTimestamp
          else st.oldestInterruptibleSoundStartTimestamp) ∧
    (ScavengeOldestSound.body sound i st).iOldestNonInterruptibleSound
      = (if sound.StartedTimestamp < st.oldestNonInterruptibleSoundStartTimestamp
          ∧ (fun _ : PlayingSound T S => true) sound = true
          then i else st.iOldestNonInterruptibleSound) ∧
    (ScavengeOldestSound.body sound i st).oldestNonInterruptibleSoundStartTimestamp
      = (if sound.StartedTimestamp < st.oldestNonInterruptibleSoundStartTimestamp
          ∧ (fun _ : PlayingSound T S => true) sound = true
          then sound.StartedTimestamp else st.oldestNonInterruptibleSoundStartTimestamp) := by
  unfold ScavengeOldestSound.body
  simp only [and_true]
  split_ifs <;> simp_all

/-- The loop of `ScavengeOldestSound` tracks the first oldest interruptible entry and the first
oldest entry. -/
theorem ScavengeOldestSound.loop_tracked {T S : Type} (timeMax : Int)
    (suf pre : List (PlayingSound T S)) (st : ScavengeOldestSound.Locals)
    (hts : ∀ s ∈ suf, s.StartedTimestamp < timeMax)
    (hint : Tracked timeMax (fun s => s.IsInterruptible) pre
      st.iOldestInterruptibleSound st.oldestInterruptibleSoundStartTimestamp)
    (hall : Tracked timeMax (fun _ => true) pre
      st.iOldestNonInterruptibleSound st.oldestNonInterruptibleSoundStartTimestamp) :
    Tracked timeMax (fun s => s.IsInterruptible) (pre ++ suf)
      (ScavengeOldestSound.loop suf pre.length st).iOldestInterruptibleSound
      (ScavengeOldestSound.loop suf pre.length st).oldestInterruptibleSoundStartTimestamp ∧
    Tracked timeMax (fun _ => true) (pre ++ suf)
      (ScavengeOldestSound.loop suf pre.length st).iOldestNonInterruptibleSound
      (ScavengeOldestSound.loop suf pre.length st).oldestNonInterruptibleSoundStartTimestamp := by
  induction suf generalizing pre st with
  | nil => simpa [ScavengeOldestSound.loop] using ⟨hint, hall⟩
  | cons sound rest ih =>
    have hs : sound.StartedTimestamp < timeMax := hts sound (List.mem_cons_self _ _)
    obtain ⟨e1, e2, e3, e4⟩ := ScavengeOldestSound.body_eq sound pre.length st
    have h1 := Tracked_step timeMax (fun s => s.IsInterruptible) pre sound _ _ hs hint
    have h2 := Tracked_step timeMax (fun _ => true) pre sound _ _ hs hall
    rw [← e1, ← e2] at h1
    rw [← e3, ← e4] at h2
    have := ih (pre ++ [sound]) (ScavengeOldestSound.body sound pre.length st)
      (fun s hm => hts s (List.mem_cons_of_mem _ hm)) h1 h2
    simpa [ScavengeOldestSound.loop] using this

/-- On a non-empty list whose start timestamps are below `timeMax`, `ScavengeOldestSound` erases
exactly one entry: the first oldest interruptible entry if any entry is interruptible, otherwise
the first oldest entry. -/
theorem ScavengeOldestSound_spec {T S : Type} (timeMax : Int)
    (playingSounds : List (PlayingSound T S)) (hne : playingSounds ≠ [])
    (hts : ∀ s ∈ playingSounds, s.StartedTimestamp < timeMax) :
    ∃ (k : Nat) (sound : PlayingSound T S),
      playingSounds[k]? = some sound ∧
      ScavengeOldestSound timeMax playingSounds = some (sound, playingSounds.eraseIdx k) ∧
      (playingSounds.eraseIdx k).length + 1 = playingSounds.length ∧
      ((∃ s ∈ playingSounds, s.IsInterruptible = true) →
        FirstOldest (fun s => s.IsInterruptible) playingSounds k) ∧
      ((∀ s ∈ playingSounds, s.IsInterruptible = false) →
        FirstOldest (fun _ => true) playingSounds k) := by
  have hinit1 : Tracked timeMax (fun s : PlayingSound T S => s.IsInterruptible) []
      (ScavengeOldestSound.init timeMax).iOldestInterruptibleSound
      (ScavengeOldestSound.init timeMax).oldestInterruptibleSoundStartTimestamp :=
    Or.inl ⟨rfl, fun s hs => absurd hs (List.not_mem_nil s)⟩
  have hinit2 : Tracked timeMax (fun _ : PlayingSound T S => true) []
      (ScavengeOldestSound.init timeMax).iOldestNonInterruptibleSound
      (ScavengeOldestSound.init timeMax).oldestNonInterruptibleSoundStartTimestamp :=
    Or.inl ⟨rfl, fun s hs => absurd hs (List.not_mem_nil s)⟩
  obtain ⟨hI, hA⟩ := ScavengeOldestSound.loop_tracked timeMax playingSounds []
    (ScavengeOldestSound.init timeMax) hts hinit1 hinit2
  simp only [List.nil_append, List.length_nil] at hI hA
  have key : ∀ (k : Nat) (sound : PlayingSound T S), playingSounds[k]? = some sound →
      ScavengeOldestSound.iSoundToStop timeMax
        (ScavengeOldestSound.loop playingSounds 0 (ScavengeOldestSound.init timeMax)) = k →
      ScavengeOldestSound timeMax playingSounds = some (sound, playingSounds.eraseIdx k) ∧
      (playingSounds.eraseIdx k).length + 1 = playingSounds.length := by
    intro k sound hk hi
    have hlt : k < playingSounds.length := by
      by_contra hge
      rw [List.getElem?_eq_none (not_lt.mp hge)] at hk
      exact Option.noConfusion hk
    refine ⟨?_, ?_⟩
    · unfold ScavengeOldestSound
      simp only [hi, hk, Option.map_some']
    · rw [List.length_eraseIdx, if_pos hlt]
      omega
  rcases hI with ⟨hImax, hInone⟩ | ⟨hIlt, hIfirst, _⟩
  · -- no entry is interruptible
    rcases hA with ⟨_, hAnone⟩ | ⟨_, hAfirst, _⟩
    · obtain ⟨s, hs⟩ := List.exists_mem_of_ne_nil playingSounds hne
      exact absurd (hAnone s hs) (by simp)
    · obtain ⟨sound, hk, hp, hmin⟩ := hAfirst
      have hi : ScavengeOldestSound.iSoundToStop timeMax
          (ScavengeOldestSound.loop playingSounds 0 (ScavengeOldestSound.init timeMax))
          = (ScavengeOldestSound.loop playingSounds 0
              (ScavengeOldestSound.init timeMax)).iOldestNonInterruptibleSound := by
        unfold ScavengeOldestSound.iSoundToStop
        rw [if_neg (by simpa using hImax)]
      obtain ⟨h1, h2⟩ := key _ sound hk hi
      refine ⟨_, sound, hk, h1, h2, ?_, fun _ => ⟨sound, hk, hp, hmin⟩⟩
      rintro ⟨s, hs, hint⟩
      have := hInone s hs
      simp only at this
      rw [this] at hint
      exact Bool.noConfusion hint
  · -- some entry is interruptible
    obtain ⟨sound, hk, hp, hmin⟩ := hIfirst
    have hi : ScavengeOldestSound.iSoundToStop timeMax
        (ScavengeOldestSound.loop playingSounds 0 (ScavengeOldestSound.init timeMax))
        = (ScavengeOldestSound.loop playingSounds 0
            (ScavengeOldestSound.init timeMax)).iOldestInterruptibleSound := by
      unfold ScavengeOldestSound.iSoundToStop
      rw [if_pos (by omega)]
    obtain ⟨h1, h2⟩ := key _ sound hk hi
    refine ⟨_, sound, hk, h1, h2, fun _ => ⟨sound, hk, hp, hmin⟩, ?_⟩
    intro hnone
    have := hnone sound (List.getElem?_mem hk)
    simp only at hp
    rw [this] at hp
    exact Bool.noConfusion hp

/-- C17: on every non-empty list of playing sounds (whose start timestamps are clock readings,
below `time_point::max()`), `ScavengeOldestSound` stops and removes exactly one entry and keeps
the others in their order: the first of the interruptible entries with the earliest start
timestamp if any entry is interruptible, otherwise the first of the entries with the earliest
start timestamp. -/
theorem scavengeOldestSound_removes_first_oldest {T S : Type} (timeMax : Int)
    (playingSounds : List (PlayingSound T S)) (hne : playingSounds ≠ [])
    (hts : ∀ s ∈ playingSounds, s.StartedTimestamp < timeMax) :
    ∃ (k : Nat) (sound : PlayingSound T S),
      playingSounds[k]? = some sound ∧
      ScavengeOldestSound timeMax playingSounds = some (sound, playingSounds.eraseIdx k) ∧
      (playingSounds.eraseIdx k).length + 1 = playingSounds.length ∧
      ((∃ s ∈ playingSounds, s.IsInterruptible = true) →
        FirstOldest (fun s => s.IsInterruptible) playingSounds k) ∧
      ((∀ s ∈ playingSounds, s.IsInterruptible = false) →
        FirstOldest (fun _ => true) playingSounds k) :=
  ScavengeOldestSound_spec timeMax playingSounds hne hts

theorem scavengeOldestSound_removes_first_oldest_witness :
    ∃ (k : Nat) (sound : PlayingSound Nat Nat),
      samplePlayingSounds[k]? = some sound ∧
      ScavengeOldestSound 1000 samplePlayingSounds
        = some (sound, samplePlayingSounds.eraseIdx k) ∧
      (samplePlayingSounds.eraseIdx k).length + 1 = samplePlayingSounds.length ∧
      ((∃ s ∈ samplePlayingSounds, s.IsInterruptible = true) →
        FirstOldest (fun s => s.IsInterruptible) samplePlayingSounds k) ∧
      ((∀ s ∈ samplePlayingSounds, s.IsInterruptible = false) →
        FirstOldest (fun _ => true) samplePlayingSounds k) :=
  scavengeOldestSound_removes_first_oldest 1000 samplePlayingSounds
    (by simp [samplePlayingSounds]) (by simp [samplePlayingSounds])

/-! ## SoundController: the limit of simultaneously playing sounds -/

theorem ScavengeStoppedSounds_length_le {T S V : Type} (ops : GameSoundOps S V)
    (l : List (PlayingSound T S)) : (ScavengeStoppedSounds ops l).length ≤ l.length := by
  induction l with
  | nil => simp [ScavengeStoppedSounds]
  | cons a t ih =>
    unfold ScavengeStoppedSounds
    split_ifs
    · simp only [List.length_cons]; omega
    · simp only [List.length_cons]; omega

theorem ScavengeStoppedSounds_mem {T S V : Type} (ops : GameSoundOps S V)
    (l : List (PlayingSound T S)) (s : PlayingSound T S)
    (h : s ∈ ScavengeStoppedSounds ops l) : s ∈ l := by
  induction l with
  | nil => simp [ScavengeStoppedSounds] at h
  | cons a t ih =>
    unfold ScavengeStoppedSounds at h
    split_ifs at h
    · exact List.mem_cons_of_mem _ (ih h)
    · rcases List.mem_cons.mp h with h | h
      · exact h ▸ List.mem_cons_self _ _
      · exact List.mem_cons_of_mem _ (ih h)

/-- The first loop of `PlayOneShotSound` finds a sound exactly when one with the same buffer
started less than the minimum delta ago; it then only changes the `Sound` of one entry. -/
theorem addVolumeToRecent_spec {T S V : Type} (ops : GameSoundOps S V) (minDelta now : Int)
    (soundBuffer : Nat) (volume : V) (l : List (PlayingSound T S)) :
    ((∃ s ∈ l, ops.getBuffer s.Sound = soundBuffer ∧ now - s.StartedTimestamp < minDelta) →
      ∃ adjusted, PlayOneShotSound.addVolumeToRecent ops minDelta now soundBuffer volume l
          = some adjusted ∧
        adjusted.map (fun s => (s.SoundType, s.StartedTimestamp, s.IsInterruptible))
          = l.map (fun s => (s.SoundType, s.StartedTimestamp, s.IsInterruptible))) ∧
    ((¬ ∃ s ∈ l, ops.getBuffer s.Sound = soundBuffer ∧ now - s.StartedTimestamp < minDelta) →
      PlayOneShotSound.addVolumeToRecent ops minDelta now soundBuffer volume l = none) := by
  induction l with
  | nil => simp [PlayOneShotSound.addVolumeToRecent]
  | cons a t ih =>
    obtain ⟨ih1, ih2⟩ := ih
    by_cases hc : ops.getBuffer a.Sound = soundBuffer ∧ now - a.StartedTimestamp < minDelta
    · constructor
      · intro _
        refine ⟨{ a with Sound := ops.addVolume a.Sound volume } :: t, ?_, ?_⟩
        · simp only [PlayOneShotSound.addVolumeToRecent, if_pos hc]
        · simp
      · intro hno
        exact absurd ⟨a, List.mem_cons_self _ _, hc⟩ hno
    · constructor
      · rintro ⟨s, hs, hrec⟩
        rcases List.mem_cons.mp hs with h | h
        · subst h; exact absurd hrec hc
        · obtain ⟨adj, hadj, hmap⟩ := ih1 ⟨s, h, hrec⟩
          refine ⟨a :: adj, ?_, ?_⟩
          · simp only [PlayOneShotSound.addVolumeToRecent, if_neg hc, hadj, Option.map_some']
          · simp only [List.map_cons, hmap]
      · intro hno
        have : ¬ ∃ s ∈ t, ops.getBuffer s.Sound = soundBuffer
            ∧ now - s.StartedTimestamp < minDelta := by
          rintro ⟨s, hs, hrec⟩
          exact hno ⟨s, List.mem_cons_of_mem _ hs, hrec⟩
        simp only [PlayOneShotSound.addVolumeToRecent, if_neg hc, ih2 this, Option.map_none']

/-- Making room leaves fewer than the maximum number of sounds. -/
theorem makeRoom_spec {T S V : Type} (ops : GameSoundOps S V) (timeMax : Int) (maxPlaying : Nat)
    (l : List (PlayingSound T S)) (hlen : l.length ≤ maxPlaying) (hmax : 1 ≤ maxPlaying)
    (hts : ∀ s ∈ l, s.StartedTimestamp < timeMax) :
    ∃ room, PlayOneShotSound.makeRoom ops timeMax maxPlaying l = some room ∧
      room.length < maxPlaying ∧ room.length ≤ l.length := by
  unfold PlayOneShotSound.makeRoom
  have hle := ScavengeStoppedSounds_length_le ops l
  split_ifs with h1 h2
  · have hne : ScavengeStoppedSounds ops l ≠ [] := by
      intro he
      rw [he] at h2
      simp at h2
      omega
    obtain ⟨k, sound, _, hsc, hlen', _⟩ := ScavengeOldestSound_spec timeMax
      (ScavengeStoppedSounds ops l) hne
      (fun s hs => hts s (ScavengeStoppedSounds_mem ops l s hs))
    refine ⟨_, by rw [hsc]; rfl, ?_, ?_⟩ <;> simp only <;> omega
  · exact ⟨_, rfl, by omega, hle⟩
  · exact ⟨_, rfl, by omega, le_refl _⟩

/-- C18: if the list of playing sounds of the given type has at most `Max(type)` entries before
`PlayOneShotSound` and `Max(type) >= 1` (the start timestamps being clock readings, below
`time_point::max()`), then the call returns a list with at most `Max(type)` entries and at most
one entry more than before. When a sound with the same buffer started less than the type's
minimum delta ago, no entry is added or removed (only the volume of a sound changes); otherwise
the assertion `size() < maxPlayingSoundsForThisType` holds when it is evaluated and exactly the
new sound is appended to the list that was asserted on. -/
theorem playOneShotSound_keeps_limit {T S V : Type} (ops : GameSoundOps S V) (timeMax : Int)
    (maxPlaying : Nat) (minDelta now : Int) (soundType : T) (soundBuffer : Nat) (volume : V)
    (isInterruptible : Bool) (l : List (PlayingSound T S))
    (hlen : l.length ≤ maxPlaying) (hmax : 1 ≤ maxPlaying)
    (hts : ∀ s ∈ l, s.StartedTimestamp < timeMax) :
    (∃ result, PlayOneShotSound ops timeMax maxPlaying minDelta now soundType soundBuffer volume
        isInterruptible l = some result ∧
      result.length ≤ maxPlaying ∧ result.length ≤ l.length + 1) ∧
    ((∃ s ∈ l, ops.getBuffer s.Sound = soundBuffer ∧ now - s.StartedTimestamp < minDelta) →
      ∃ result, PlayOneShotSound ops timeMax maxPlaying minDelta now soundType soundBuffer volume
          isInterruptible l = some result ∧
        result.length = l.length ∧
        result.map (fun s => (s.SoundType, s.StartedTimestamp, s.IsInterruptible))
          = l.map (fun s => (s.SoundType, s.StartedTimestamp, s.IsInterruptible))) ∧
    ((¬ ∃ s ∈ l, ops.getBuffer s.Sound = soundBuffer ∧ now - s.StartedTimestamp < minDelta) →
      ∃ room, PlayOneShotSound.makeRoom ops timeMax maxPlaying l = some room ∧
        room.length < maxPlaying ∧
        PlayOneShotSound ops timeMax maxPlaying minDelta now soundType soundBuffer volume
          isInterruptible l
          = some (room ++ [{ SoundType := soundType
                             Sound := ops.makeAndPlay soundBuffer volume
                             StartedTimestamp := now
                             IsInterruptible := isInterruptible }])) := by
  obtain ⟨hyes, hno⟩ := addVolumeToRecent_spec ops minDelta now soundBuffer volume l
  obtain ⟨room, hroom, hroomlt, hroomle⟩ := makeRoom_spec ops timeMax maxPlaying l hlen hmax hts
  have hB : (∃ s ∈ l, ops.getBuffer s.Sound = soundBuffer
      ∧ now - s.StartedTimestamp < minDelta) →
      ∃ result, PlayOneShotSound ops timeMax maxPlaying minDelta now soundType soundBuffer volume
          isInterruptible l = some result ∧
        result.length = l.length ∧
        result.map (fun s => (s.SoundType, s.StartedTimestamp, s.IsInterruptible))
          = l.map (fun s => (s.SoundType, s.StartedTimestamp, s.IsInterruptible)) := by
    intro h
    obtain ⟨adj, hadj, hmap⟩ := hyes h
    refine ⟨adj, ?_, ?_, hmap⟩
    · unfold PlayOneShotSound
      rw [hadj]
    · have := congrArg List.length hmap
      simpa using this
  have hC : (¬ ∃ s ∈ l, ops.getBuffer s.Sound = soundBuffer
      ∧ now - s.StartedTimestamp < minDelta) →
      PlayOneShotSound ops timeMax maxPlaying minDelta now soundType soundBuffer volume
          isInterruptible l
        = some (room ++ [{ SoundType := soundType
                           Sound := ops.makeAndPlay soundBuffer volume
                           StartedTimestamp := now
                           IsInterruptible := isInterruptible }]) := by
    intro h
    unfold PlayOneShotSound
    rw [hno h, hroom]
    rfl
  refine ⟨?_, hB, fun h => ⟨room, hroom, hroomlt, hC h⟩⟩
  by_cases h : ∃ s ∈ l, ops.getBuffer s.Sound = soundBuffer
      ∧ now - s.StartedTimestamp < minDelta
  · obtain ⟨result, hr, hl, _⟩ := hB h
    exact ⟨result, hr, by omega, by omega⟩
  · refine ⟨_, hC h, ?_, ?_⟩ <;> simp only [List.length_append, List.length_singleton] <;> omega

theorem playOneShotSound_keeps_limit_witness :
    ∃ result, PlayOneShotSound sampleOps 1000 3 50 100 0 13 1 false samplePlayingSounds
        = some result ∧
      result.length ≤ 3 ∧ result.length ≤ samplePlayingSounds.length + 1 :=
  (playOneShotSound_keeps_limit sampleOps 1000 3 50 100 0 13 1 false samplePlayingSounds
    (by simp [samplePlayingSounds]) (by decide) (by simp [samplePlayingSounds])).1

end SoundController

/-! ## Logger -/

namespace Logger

theorem Log_listener {M : Type} (lg : Logger M) (message : M) :
    (Log lg message).1.mCurrentListener = lg.mCurrentListener := rfl

/-- One `Log` call leaves the last `MaxStoredMessages` messages of the queue with the new message
appended. -/
theorem Log_stored {M : Type} (lg : Logger M) (message : M)
    (h : lg.mStoredMessages.length ≤ MaxStoredMessages) :
    (Log lg message).1.mStoredMessages
      = (lg.mStoredMessages ++ [message]).drop
          ((lg.mStoredMessages ++ [message]).length - MaxStoredMessages) := by
  unfold Log
  simp only
  split_ifs with hlen
  · have e : (lg.mStoredMessages ++ [message]).length - MaxStoredMessages = 1 := by
      simp only [List.length_append, List.length_singleton] at hlen ⊢
      omega
    rw [e, List.drop_one]
  · have e : (lg.mStoredMessages ++ [message]).length - MaxStoredMessages = 0 := by
      omega
    rw [e, List.drop_zero]

/-- Keeping the last `k` entries, appending, and keeping the last `k` again keeps the last `k`
entries of the whole. -/
theorem drop_append_drop {M : Type} (s rest : List M) (k : Nat) :
    (s.drop (s.length - k) ++ rest).drop ((s.drop (s.length - k) ++ rest).length - k)
      = (s ++ rest).drop ((s ++ rest).length - k) := by
  have hk : s.length - k ≤ s.length := Nat.sub_le _ _
  rw [← List.drop_append_of_le_length hk, List.drop_drop]
  have e : s.length - k + ((List.drop (s.length - k) (s ++ rest)).length - k)
      = (s ++ rest).length - k := by
    simp only [List.length_drop, List.length_append]
    omega
  rw [e]

/-- A run of `Log` calls leaves the last `MaxStoredMessages` messages of the queue followed by
the logged messages. -/
theorem LogAll_stored {M : Type} (msgs : List M) (lg : Logger M)
    (h : lg.mStoredMessages.length ≤ MaxStoredMessages) :
    (LogAll lg msgs).1.mStoredMessages
      = (lg.mStoredMessages ++ msgs).drop
          ((lg.mStoredMessages ++ msgs).length - MaxStoredMessages) ∧
    (LogAll lg msgs).1.mCurrentListener = lg.mCurrentListener := by
  induction msgs generalizing lg with
  | nil =>
    have e : (lg.mStoredMessages ++ []).length - MaxStoredMessages = 0 := by
      simp only [List.append_nil]
      omega
    simp only [LogAll]
    rw [e]
    simp
  | cons m rest ih =>
    have h1 := Log_stored lg m h
    have hlen : (Log lg m).1.mStoredMessages.length ≤ MaxStoredMessages := by
      rw [h1, List.length_drop]
      omega
    obtain ⟨ih1, ih2⟩ := ih (Log lg m).1 hlen
    refine ⟨?_, by simpa [LogAll] using ih2⟩
    simp only [LogAll]
    rw [ih1, h1, drop_append_drop]
    simp

/-- With a listener registered, a run of `Log` calls passes exactly the logged messages to it,
in order. -/
theorem LogAll_delivered {M : Type} (msgs : List M) (lg : Logger M) :
    (LogAll lg msgs).2 = if lg.mCurrentListener then msgs else [] := by
  induction msgs generalizing lg with
  | nil => simp [LogAll]
  | cons m rest ih =>
    simp only [LogAll]
    rw [ih (Log lg m).1, Log_listener]
    unfold Log
    cases lg.mCurrentListener <;> simp

/-- C19, as stated, fails: after 1001 `Log` calls with the messages 0, 1, ..., 1000 on a new
logger, `RegisterListener` passes the 1000 messages 1, ..., 1000 to the listener; message 0 was
logged but is not published. -/
theorem registerListener_misses_dropped_message :
    (RegisterListener (LogAll (create : Logger Nat) (List.range 1001)).1).2
      = (List.range 1001).drop 1 ∧
    (0 : Nat) ∈ List.range 1001 ∧
    (0 : Nat) ∉ (RegisterListener (LogAll (create : Logger Nat) (List.range 1001)).1).2 := by
  have h : (RegisterListener (LogAll (create : Logger Nat) (List.range 1001)).1).2
      = (List.range 1001).drop 1 := by
    have := (LogAll_stored (List.range 1001) (create : Logger Nat) (by simp [create])).1
    simp only [RegisterListener]
    rw [this]
    simp [create, MaxStoredMessages]
  refine ⟨h, by simp, ?_⟩
  rw [h, List.range_succ_eq_map]
  simp

/-- C19, amended: on a logger without a listener that has logged the messages `before` since
its construction, `RegisterListener` publishes to the new listener the stored messages, which
are the last `min(n, MaxStoredMessages)` of the `n` messages logged so far (all of them when
`n <= 1000`), once each and in the order they were logged; nothing was passed to a listener
before; and afterwards every `Log` call passes its message to the listener exactly once, in
call order. -/
theorem registerListener_publishes_stored {M : Type} (before after : List M) :
    (LogAll (create : Logger M) before).2 = [] ∧
    (RegisterListener (LogAll (create : Logger M) before).1).2
      = before.drop (before.length - MaxStoredMessages) ∧
    (before.length ≤ MaxStoredMessages →
      (RegisterListener (LogAll (create : Logger M) before).1).2 = before) ∧
    (LogAll (RegisterListener (LogAll (create : Logger M) before).1).1 after).2 = after ∧
    (∀ (lg : Logger M) (message : M), lg.mCurrentListener = true →
      (Log lg message).2 = [message]) := by
  have hs := (LogAll_stored before (create : Logger M) (by simp [create])).1
  have hreg : (RegisterListener (LogAll (create : Logger M) before).1).2
      = before.drop (before.length - MaxStoredMessages) := by
    simp only [RegisterListener]
    rw [hs]
    simp [create]
  refine ⟨?_, hreg, ?_, ?_, ?_⟩
  · rw [LogAll_delivered]
    simp [create]
  · intro hle
    rw [hreg, Nat.sub_eq_zero_of_le hle, List.drop_zero]
  · rw [LogAll_delivered]
    simp [RegisterListener]
  · intro lg message h
    simp [Log, h]

end Logger

/-! ## UIPreferencesManager: the ship load directories -/

namespace UIPreferencesManager

end UIPreferencesManager

/-! ## ShipRenderContext: the layout of the element VBO -/

namespace Render

/-- C21: `UploadElementsEnd` lays the element sections out back to back in the order triangles,
ropes, springs, points, ephemeral points: when the sizes fit `size_t`, the start index of each
section is the sum of the byte sizes of the sections before it, so each section ends where the
next one starts and no two overlap; the allocated size is the ephemeral start plus room for
`MaxEphemeralParticles` point elements; the uploads go to these starts with these sizes; and,
a point element being one index of type `GL_UNSIGNED_INT`, the draw of
`points + ephemeral points` indices from the point start in `RenderEnd` reads exactly the bytes
of the points section and of the ephemeral points section. -/
theorem uploadElementsEnd_layout {T L P : Type} (sizes : ElementSizes)
    (ctx : ShipRenderContext T L P) (doFinalizeEphemeralPoints : Bool)
    (hfits : (sectionSizes sizes ctx).sum
      + GameParameters.MaxEphemeralParticles * sizes.PointElement < sizeModulus)
    (hpoint : sizes.PointElement = sizeofGLuint)
    (hcount : ctx.mPointElementBuffer.length + ctx.mEphemeralPointElementBuffer.length
      < 2 ^ 31) :
    (∀ i : Nat, i < 5 →
      (sectionStarts (UploadElementsEnd sizes ctx doFinalizeEphemeralPoints).1)[i]?
        = some (((sectionSizes sizes ctx).take i).sum)) ∧
    (∀ i : Nat, i < 4 →
      ((sectionStarts (UploadElementsEnd sizes ctx doFinalizeEphemeralPoints).1)[i]?.getD 0)
          + ((sectionSizes sizes ctx)[i]?.getD 0)
        = (sectionStarts (UploadElementsEnd sizes ctx doFinalizeEphemeralPoints).1)[i + 1]?.getD
            0) ∧
    sectionSizes sizes (UploadElementsEnd sizes ctx doFinalizeEphemeralPoints).1
      = sectionSizes sizes ctx ∧
    (UploadElementsEnd sizes ctx doFinalizeEphemeralPoints).2.bufferDataSize
      = (UploadElementsEnd sizes ctx
            doFinalizeEphemeralPoints).1.mEphemeralPointElementVBOStartIndex
          + GameParameters.MaxEphemeralParticles * sizes.PointElement ∧
    (UploadElementsEnd sizes ctx doFinalizeEphemeralPoints).2.bufferSubData
      = (List.zipWith BufferSubData.mk
          (sectionStarts (UploadElementsEnd sizes ctx doFinalizeEphemeralPoints).1)
          (sectionSizes sizes ctx)).take (if doFinalizeEphemeralPoints = true then 5 else 4) ∧
    (RenderEnd.drawPoints (UploadElementsEnd sizes ctx doFinalizeEphemeralPoints).1).indices
      = (UploadElementsEnd sizes ctx doFinalizeEphemeralPoints).1.mPointElementVBOStartIndex ∧
    (RenderEnd.drawPoints (UploadElementsEnd sizes ctx doFinalizeEphemeralPoints).1).count
      = ((ctx.mPointElementBuffer.length + ctx.mEphemeralPointElementBuffer.length : Nat)
          : Int) ∧
    (∀ b : Nat,
      (RenderEnd.drawPoints (UploadElementsEnd sizes ctx doFinalizeEphemeralPoints).1).Reads b
        ↔ (BufferSubData.Covers
              ⟨(UploadElementsEnd sizes ctx
                  doFinalizeEphemeralPoints).1.mPointElementVBOStartIndex,
                ctx.mPointElementBuffer.length * sizes.PointElement⟩ b
            ∨ BufferSubData.Covers
              ⟨(UploadElementsEnd sizes ctx
                  doFinalizeEphemeralPoints).1.mEphemeralPointElementVBOStartIndex,
                ctx.mEphemeralPointElementBuffer.length * sizes.PointElement⟩ b)) := by
  obtain ⟨sT, sL, sP⟩ := sizes
  simp only at hpoint
  subst hpoint
  simp only [sectionSizes, List.sum_cons, List.sum_nil, sizeModulus, sizeofGLuint,
    GameParameters.MaxEphemeralParticles] at hfits hcount
  generalize hT : ctx.mTriangleElementBuffer.length * sT = bT at hfits
  generalize hR : ctx.mRopeElementBuffer.length * sL = bR at hfits
  generalize hS : ctx.mSpringElementBuffer.length * sL = bS at hfits
  have e1 : (0 + bT) % 2 ^ 64 = bT := by
    rw [Nat.zero_add]; exact Nat.mod_eq_of_lt (by omega)
  have e2 : (bT + bR) % 2 ^ 64 = bT + bR := Nat.mod_eq_of_lt (by omega)
  have e3 : (bT + bR + bS) % 2 ^ 64 = bT + bR + bS := Nat.mod_eq_of_lt (by omega)
  have e4 : (bT + bR + bS + ctx.mPointElementBuffer.length * 4) % 2 ^ 64
      = bT + bR + bS + ctx.mPointElementBuffer.length * 4 := Nat.mod_eq_of_lt (by omega)
  have e5 : (bT + bR + bS + ctx.mPointElementBuffer.length * 4 + 4096 * 4) % 2 ^ 64
      = bT + bR + bS + ctx.mPointElementBuffer.length * 4 + 4096 * 4 :=
    Nat.mod_eq_of_lt (by omega)
  have f1 : bT % 2 ^ 64 = bT := Nat.mod_eq_of_lt (by omega)
  have f2 : bR % 2 ^ 64 = bR := Nat.mod_eq_of_lt (by omega)
  have f3 : bS % 2 ^ 64 = bS := Nat.mod_eq_of_lt (by omega)
  have f4 : (ctx.mPointElementBuffer.length * 4) % 2 ^ 64 = ctx.mPointElementBuffer.length * 4 :=
    Nat.mod_eq_of_lt (by omega)
  have f5 : (ctx.mEphemeralPointElementBuffer.length * 4) % 2 ^ 64
      = ctx.mEphemeralPointElementBuffer.length * 4 := Nat.mod_eq_of_lt (by omega)
  have g1 : (ctx.mPointElementBuffer.length + ctx.mEphemeralPointElementBuffer.length)
      % 2 ^ 64 = ctx.mPointElementBuffer.length + ctx.mEphemeralPointElementBuffer.length :=
    Nat.mod_eq_of_lt (by omega)
  have g2 : toGLsizei (ctx.mPointElementBuffer.length
      + ctx.mEphemeralPointElementBuffer.length)
      = ((ctx.mPointElementBuffer.length + ctx.mEphemeralPointElementBuffer.length : Nat)
          : Int) := by
    unfold toGLsizei
    rw [Nat.mod_eq_of_lt (by omega)]
    push_cast
    ring
  simp only [UploadElementsEnd, RenderEnd.drawPoints, sectionSizes, sectionStarts, sizeModulus,
    sizeofGLuint, GameParameters.MaxEphemeralParticles, hT, hR, hS, e1, e2, e3, e4, e5, f1, f2,
    f3, f4, f5, g1, g2, Nat.one_mul, BufferSubData.Covers, DrawElements.Reads]
  refine ⟨?_, ?_, trivial, trivial, ?_, trivial, trivial, ?_⟩
  · intro i hi
    have hi5 : i = 0 ∨ i = 1 ∨ i = 2 ∨ i = 3 ∨ i = 4 := by omega
    rcases hi5 with h | h | h | h | h <;> subst h <;> simp <;> omega
  · intro i hi
    have hi4 : i = 0 ∨ i = 1 ∨ i = 2 ∨ i = 3 := by omega
    rcases hi4 with h | h | h | h <;> subst h <;> simp
  · cases doFinalizeEphemeralPoints <;> simp
  · intro b
    clear hfits hcount e1 e2 e3 e4 e5 f1 f2 f3 f4 f5 g1 g2 hT hR hS
    constructor
    · rintro ⟨h1, h2⟩
      omega
    · rintro (⟨h1, h2⟩ | ⟨h1, h2⟩)
      · refine ⟨h1, ?_⟩
        omega
      · refine ⟨by omega, ?_⟩
        omega

theorem uploadElementsEnd_layout_witness :
    (UploadElementsEnd sampleElementSizes sampleContext true).2.bufferDataSize
      = (UploadElementsEnd sampleElementSizes sampleContext
            true).1.mEphemeralPointElementVBOStartIndex
          + GameParameters.MaxEphemeralParticles * sampleElementSizes.PointElement ∧
    sectionStarts (UploadElementsEnd sampleElementSizes sampleContext true).1
      = [0, 24, 32, 56, 64] :=
  ⟨(uploadElementsEnd_layout sampleElementSizes sampleContext true (by decide) (by decide)
      (by decide)).2.2.2.1, by decide⟩

end Render

/-! ## SoundController: the lookup of the material sounds -/

namespace SoundController

theorem findSmaller_neg {T M V : Type} (sounds : T × M × SizeType × Bool → Option V)
    (soundType : T) (materialSound : M) (isUnderwater : Bool) (s : Int) (h : s < 0) :
    PlayMSUOneShotMultipleChoiceSound.findSmaller sounds soundType materialSound isUnderwater s
      = none := by
  rw [PlayMSUOneShotMultipleChoiceSound.findSmaller]
  simp only [SizeType.Min, SizeType.toInt, ge_iff_le]
  rw [if_neg (by omega)]

theorem findSmaller_step {T M V : Type} (sounds : T × M × SizeType × Bool → Option V)
    (soundType : T) (materialSound : M) (isUnderwater : Bool) (s : Int) (h : 0 ≤ s) :
    PlayMSUOneShotMultipleChoiceSound.findSmaller sounds soundType materialSound isUnderwater s
      = match PlayMSUOneShotMultipleChoiceSound.find sounds
            (soundType, materialSound, SizeType.ofInt s, isUnderwater) with
        | some it => some it
        | none =>
          PlayMSUOneShotMultipleChoiceSound.findSmaller sounds soundType materialSound
            isUnderwater (s - 1) := by
  rw [PlayMSUOneShotMultipleChoiceSound.findSmaller]
  simp only [SizeType.Min, SizeType.toInt, ge_iff_le]
  rw [if_pos h]

/-- The lookup tries the pairs of `lookupOrder` in order and returns the first entry found. -/
theorem findVector_eq_findSome {T M V : Type} (sounds : T × M × SizeType × Bool → Option V)
    (soundType : T) (materialSound : M) (sizeType : SizeType) (isUnderwater : Bool) :
    PlayMSUOneShotMultipleChoiceSound.findVector sounds soundType materialSound sizeType
        isUnderwater
      = (lookupOrder sizeType isUnderwater).findSome? (fun c =>
          PlayMSUOneShotMultipleChoiceSound.find sounds
            (soundType, materialSound, c.1, c.2)) := by
  have o0 : SizeType.ofInt 0 = SizeType.Small := rfl
  have o1 : SizeType.ofInt 1 = SizeType.Medium := rfl
  have o2 : SizeType.ofInt 2 = SizeType.Large := rfl
  cases sizeType
  · simp only [PlayMSUOneShotMultipleChoiceSound.findVector, SizeType.toInt, lookupOrder,
      SizeType.descending]
    rw [findSmaller_neg _ _ _ _ _ (by norm_num),
      findSmaller_step _ _ _ _ 0 (le_refl _), findSmaller_neg _ _ _ _ _ (by norm_num), o0]
    simp only [List.filter, SizeType.toInt]
    simp only [List.findSome?]
    rcases PlayMSUOneShotMultipleChoiceSound.find sounds
        (soundType, materialSound, SizeType.Small, isUnderwater) with _ | a
    · rcases PlayMSUOneShotMultipleChoiceSound.find sounds
        (soundType, materialSound, SizeType.Small, !isUnderwater) with _ | b <;> simp
    · simp
  · simp only [PlayMSUOneShotMultipleChoiceSound.findVector, SizeType.toInt, lookupOrder,
      SizeType.descending]
    rw [show ((1 : Int) - 1) = 0 by norm_num,
      findSmaller_step _ _ _ _ 0 (le_refl _), findSmaller_neg _ _ _ _ _ (by norm_num),
      findSmaller_step _ _ _ (!isUnderwater) 1 (by norm_num),
      show ((1 : Int) - 1) = 0 by norm_num,
      findSmaller_step _ _ _ (!isUnderwater) 0 (le_refl _),
      findSmaller_neg _ _ _ _ _ (by norm_num), o0, o1]
    simp only [List.filter, SizeType.toInt]
    simp only [List.findSome?]
    rcases PlayMSUOneShotMultipleChoiceSound.find sounds
        (soundType, materialSound, SizeType.Medium, isUnderwater) with _ | a
    · rcases PlayMSUOneShotMultipleChoiceSound.find sounds
        (soundType, materialSound, SizeType.Small, isUnderwater) with _ | b
      · rcases PlayMSUOneShotMultipleChoiceSound.find sounds
          (soundType, materialSound, SizeType.Medium, !isUnderwater) with _ | c
        · rcases PlayMSUOneShotMultipleChoiceSound.find sounds
            (soundType, materialSound, SizeType.Small, !isUnderwater) with _ | d <;> simp
        · simp
      · simp
    · simp
  · simp only [PlayMSUOneShotMultipleChoiceSound.findVector, SizeType.toInt, lookupOrder,
      SizeType.descending]
    rw [show ((2 : Int) - 1) = 1 by norm_num,
      findSmaller_step _ _ _ _ 1 (by norm_num),
      show ((1 : Int) - 1) = 0 by norm_num,
      findSmaller_step _ _ _ _ 0 (le_refl _), findSmaller_neg _ _ _ _ _ (by norm_num),
      findSmaller_step _ _ _ (!isUnderwater) 2 (by norm_num),
      show ((2 : Int) - 1) = 1 by norm_num,
      findSmaller_step _ _ _ (!isUnderwater) 1 (by norm_num),
      show ((1 : Int) - 1) = 0 by norm_num,
      findSmaller_step _ _ _ (!isUnderwater) 0 (le_refl _),
      findSmaller_neg _ _ _ _ _ (by norm_num), o0, o1, o2]
    simp only [List.filter, SizeType.toInt]
    simp only [List.findSome?]
    rcases PlayMSUOneShotMultipleChoiceSound.find sounds
        (soundType, materialSound, SizeType.Large, isUnderwater) with _ | a
    · rcases PlayMSUOneShotMultipleChoiceSound.find sounds
        (soundType, materialSound, SizeType.Medium, isUnderwater) with _ | b
      · rcases PlayMSUOneShotMultipleChoiceSound.find sounds
          (soundType, materialSound, SizeType.Small, isUnderwater) with _ | c
        · rcases PlayMSUOneShotMultipleChoiceSound.find sounds
            (soundType, materialSound, SizeType.Large, !isUnderwater) with _ | d
          · rcases PlayMSUOneShotMultipleChoiceSound.find sounds
              (soundType, materialSound, SizeType.Medium, !isUnderwater) with _ | e
            · rcases PlayMSUOneShotMultipleChoiceSound.find sounds
                (soundType, materialSound, SizeType.Small, !isUnderwater) with _ | f <;> simp
            · simp
          · simp
        · simp
      · simp
    · simp

end SoundController

namespace SoundController

theorem mem_lookupOrder (sizeType : SizeType) (isUnderwater : Bool) (b : SizeType)
    (flag : Bool) :
    (b, flag) ∈ lookupOrder sizeType isUnderwater ↔ b.toInt ≤ sizeType.toInt := by
  cases b <;> cases sizeType <;> cases flag <;> cases isUnderwater <;> decide

/-- C22: the sound lookup for a key (sound type, material, size bucket, underwater) returns the
first entry found when trying, in this order, the exact key, the smaller buckets with the same
underwater flag, largest first, then the requested bucket and the smaller ones with the opposite
flag, largest first; it plays nothing if and only if the map has no entry for that sound type
and material with a bucket at most the requested one under either flag; and the entry it
selects is an entry of the map with the same sound type, the same material and a bucket at most
the requested one. -/
theorem msu_lookup_order {T M V : Type} (sounds : T × M × SizeType × Bool → Option V)
    (soundType : T) (materialSound : M) (size : Nat) (isUnderwater : Bool) :
    (∀ u : Bool,
      lookupOrder SizeType.Small u = [(SizeType.Small, u), (SizeType.Small, !u)] ∧
      lookupOrder SizeType.Medium u
        = [(SizeType.Medium, u), (SizeType.Small, u), (SizeType.Medium, !u),
            (SizeType.Small, !u)] ∧
      lookupOrder SizeType.Large u
        = [(SizeType.Large, u), (SizeType.Medium, u), (SizeType.Small, u),
            (SizeType.Large, !u), (SizeType.Medium, !u), (SizeType.Small, !u)]) ∧
    PlayMSUOneShotMultipleChoiceSound sounds soundType materialSound size isUnderwater
      = (lookupOrder (PlayMSUOneShotMultipleChoiceSound.sizeType size)
          isUnderwater).findSome? (fun c =>
            (sounds (soundType, materialSound, c.1, c.2)).map (fun v =>
              ((soundType, materialSound, c.1, c.2), v))) ∧
    (PlayMSUOneShotMultipleChoiceSound sounds soundType materialSound size isUnderwater = none
      ↔ ∀ (b : SizeType) (flag : Bool),
          b.toInt ≤ (PlayMSUOneShotMultipleChoiceSound.sizeType size).toInt →
          sounds (soundType, materialSound, b, flag) = none) ∧
    (∀ (key : T × M × SizeType × Bool) (v : V),
      PlayMSUOneShotMultipleChoiceSound sounds soundType materialSound size isUnderwater
        = some (key, v) →
      sounds key = some v ∧ key.1 = soundType ∧ key.2.1 = materialSound ∧
        key.2.2.1.toInt ≤ (PlayMSUOneShotMultipleChoiceSound.sizeType size).toInt) := by
  have hfind := findVector_eq_findSome sounds soundType materialSound
    (PlayMSUOneShotMultipleChoiceSound.sizeType size) isUnderwater
  refine ⟨?_, hfind, ?_, ?_⟩
  · intro u
    cases u <;> decide
  · unfold PlayMSUOneShotMultipleChoiceSound
    rw [hfind, List.findSome?_eq_none_iff]
    constructor
    · intro h b flag hb
      have := h (b, flag) ((mem_lookupOrder _ _ b flag).mpr hb)
      simpa [PlayMSUOneShotMultipleChoiceSound.find] using this
    · rintro h ⟨b, flag⟩ hc
      have := h b flag ((mem_lookupOrder _ _ b flag).mp hc)
      simp [PlayMSUOneShotMultipleChoiceSound.find, this]
  · intro key v hsel
    unfold PlayMSUOneShotMultipleChoiceSound at hsel
    rw [hfind] at hsel
    obtain ⟨⟨b, flag⟩, hc, hf⟩ := List.exists_of_findSome?_eq_some hsel
    have hb := (mem_lookupOrder _ _ b flag).mp hc
    simp only [PlayMSUOneShotMultipleChoiceSound.find, Option.map_eq_some'] at hf
    obtain ⟨w, hw, heq⟩ := hf
    simp only [Prod.mk.injEq] at heq
    obtain ⟨hk, hv⟩ := heq
    subst hk
    subst hv
    exact ⟨hw, rfl, rfl, hb⟩

end SoundController

/-! ## Logger: the stored messages -/

namespace Logger

/-- C23: after any sequence of `n` `Log` calls on a new logger, the logger stores exactly the
last `min(n, MaxStoredMessages)` messages, in call order, where `MaxStoredMessages = 1000`; so
the stored queue never holds more than 1000 messages. -/
theorem log_stores_last_messages {M : Type} (msgs : List M) :
    (LogAll (create : Logger M) msgs).1.mStoredMessages
      = msgs.drop (msgs.length - MaxStoredMessages) ∧
    (LogAll (create : Logger M) msgs).1.mStoredMessages.length
      = min msgs.length MaxStoredMessages ∧
    (LogAll (create : Logger M) msgs).1.mStoredMessages.length ≤ MaxStoredMessages ∧
    MaxStoredMessages = 1000 := by
  have h := (LogAll_stored msgs (create : Logger M) (by simp [create])).1
  have h' : (LogAll (create : Logger M) msgs).1.mStoredMessages
      = msgs.drop (msgs.length - MaxStoredMessages) := by
    rw [h]
    simp [create]
  refine ⟨h', ?_, ?_, rfl⟩
  · rw [h', List.length_drop]
    omega
  · rw [h', List.length_drop]
    omega

end Logger

/-! ## SoundController: the wave-splash trigger -/

namespace SoundController

theorem OnWaterSplashed_last {F : Type} [LinearOrderedField F] (st : WaterSplashState F)
    (w : F) : (OnWaterSplashed st w).1.mLastWaterSplashed = w := by
  unfold OnWaterSplashed
  split_ifs <;> rfl

theorem OnWaterSplashed_requested {F : Type} [LinearOrderedField F] (st : WaterSplashState F)
    (w : F) :
    (OnWaterSplashed st w).2 = true
      ↔ (w > st.mLastWaterSplashed ∧ w > st.mCurrentWaterSplashedTrigger) := by
  unfold OnWaterSplashed
  split_ifs with h1 h2 <;> simp_all

/-- One call keeps the trigger at most `WaveSplashTriggerSize` above the last value. -/
theorem OnWaterSplashed_trigger_le {F : Type} [LinearOrderedField F] (st : WaterSplashState F)
    (w : F)
    (h : st.mCurrentWaterSplashedTrigger ≤ st.mLastWaterSplashed + WaveSplashTriggerSize) :
    (OnWaterSplashed st w).1.mCurrentWaterSplashedTrigger
      ≤ (OnWaterSplashed st w).1.mLastWaterSplashed + WaveSplashTriggerSize := by
  unfold OnWaterSplashed
  split_ifs with h1 h2
  · exact le_refl _
  · show st.mCurrentWaterSplashedTrigger ≤ w + WaveSplashTriggerSize
    linarith
  · exact le_refl _

theorem OnWaterSplashedAll_trigger_le {F : Type} [LinearOrderedField F] (ws : List F)
    (st : WaterSplashState F)
    (h : st.mCurrentWaterSplashedTrigger ≤ st.mLastWaterSplashed + WaveSplashTriggerSize) :
    (OnWaterSplashedAll st ws).mCurrentWaterSplashedTrigger
      ≤ (OnWaterSplashedAll st ws).mLastWaterSplashed + WaveSplashTriggerSize := by
  induction ws generalizing st with
  | nil => exact h
  | cons w rest ih => exact ih _ (OnWaterSplashed_trigger_le st w h)

/-- Along a non-decreasing run of values, the trigger and the last value stay at or above what a
requested wave sound left. -/
theorem OnWaterSplashed_floor {F : Type} [LinearOrderedField F] (st : WaterSplashState F)
    (w1 w : F) (h1 : w1 + WaveSplashTriggerSize ≤ st.mCurrentWaterSplashedTrigger)
    (h2 : w1 ≤ st.mLastWaterSplashed) (hw : st.mLastWaterSplashed ≤ w) :
    w1 + WaveSplashTriggerSize ≤ (OnWaterSplashed st w).1.mCurrentWaterSplashedTrigger ∧
      w1 ≤ (OnWaterSplashed st w).1.mLastWaterSplashed := by
  rw [OnWaterSplashed_last]
  refine ⟨?_, le_trans h2 hw⟩
  unfold OnWaterSplashed
  split_ifs with h3 h4
  · show w1 + WaveSplashTriggerSize ≤ w + WaveSplashTriggerSize
    linarith
  · exact h1
  · show w1 + WaveSplashTriggerSize ≤ w + WaveSplashTriggerSize
    linarith

theorem later_wave_above_floor {F : Type} [LinearOrderedField F] (w1 w2 : F) (ws : List F)
    (st : WaterSplashState F)
    (h1 : w1 + WaveSplashTriggerSize ≤ st.mCurrentWaterSplashedTrigger)
    (h2 : w1 ≤ st.mLastWaterSplashed)
    (hchain : List.Chain (fun a b => a ≤ b) st.mLastWaterSplashed (ws ++ [w2]))
    (hreq : (OnWaterSplashed (OnWaterSplashedAll st ws) w2).2 = true) :
    w2 > w1 + WaveSplashTriggerSize := by
  induction ws generalizing st with
  | nil =>
    have := (OnWaterSplashed_requested st w2).mp hreq
    exact lt_of_le_of_lt h1 this.2
  | cons w rest ih =>
    simp only [List.cons_append, List.chain_cons] at hchain
    obtain ⟨f1, f2⟩ := OnWaterSplashed_floor st w1 w h1 h2 hchain.1
    apply ih (OnWaterSplashed st w).1 f1 f2
    · rw [OnWaterSplashed_last]; exact hchain.2
    · exact hreq

/-- C24: for every state and value `w`, `OnWaterSplashed(w)` requests a wave sound exactly when
`w` exceeds both the previous value and the current trigger, and leaves the last value equal to
`w`; starting from the reset state (last value 0, trigger `WaveSplashTriggerSize = 0.5`), after
every call of every sequence of calls the trigger is at most `w + 0.5`; and along a
non-decreasing run of values that starts with a value `w1` at which a wave sound is requested,
every later value `w2` at which a wave sound is requested is more than 0.5 above `w1`. -/
theorem wave_splash_hysteresis {F : Type} [LinearOrderedField F] :
    (WaterSplashState.reset (F := F)).mLastWaterSplashed = 0 ∧
    (WaterSplashState.reset (F := F)).mCurrentWaterSplashedTrigger = 1 / 2 ∧
    (WaveSplashTriggerSize : F) = 1 / 2 ∧
    (∀ (st : WaterSplashState F) (w : F),
      ((OnWaterSplashed st w).2 = true
        ↔ (w > st.mLastWaterSplashed ∧ w > st.mCurrentWaterSplashedTrigger)) ∧
      (OnWaterSplashed st w).1.mLastWaterSplashed = w) ∧
    (∀ (ws : List F) (w : F),
      (OnWaterSplashed (OnWaterSplashedAll WaterSplashState.reset ws) w).1.mLastWaterSplashed
        = w ∧
      (OnWaterSplashed (OnWaterSplashedAll WaterSplashState.reset ws)
        w).1.mCurrentWaterSplashedTrigger ≤ w + WaveSplashTriggerSize) ∧
    (∀ (st : WaterSplashState F) (w1 w2 : F) (ws : List F),
      (OnWaterSplashed st w1).2 = true →
      List.Chain (fun a b => a ≤ b) w1 (ws ++ [w2]) →
      (OnWaterSplashed (OnWaterSplashedAll (OnWaterSplashed st w1).1 ws) w2).2 = true →
      w2 > w1 + WaveSplashTriggerSize) := by
  have hsize : (WaveSplashTriggerSize : F) = 1 / 2 := by
    unfold WaveSplashTriggerSize; norm_num
  refine ⟨?_, ?_, hsize, ?_, ?_, ?_⟩
  · show ((0.0 : F)) = 0
    norm_num
  · show (WaveSplashTriggerSize : F) = 1 / 2
    exact hsize
  · intro st w
    exact ⟨OnWaterSplashed_requested st w, OnWaterSplashed_last st w⟩
  · intro ws w
    have h0 : (WaterSplashState.reset (F := F)).mCurrentWaterSplashedTrigger
        ≤ (WaterSplashState.reset (F := F)).mLastWaterSplashed + WaveSplashTriggerSize := by
      show (WaveSplashTriggerSize : F) ≤ (0.0 : F) + WaveSplashTriggerSize
      norm_num
    have h1 := OnWaterSplashedAll_trigger_le ws _ h0
    have h2 := OnWaterSplashed_trigger_le _ w h1
    rw [OnWaterSplashed_last] at h2
    exact ⟨OnWaterSplashed_last _ w, h2⟩
  · intro st w1 w2 ws hreq hchain hreq2
    have hw := (OnWaterSplashed_requested st w1).mp hreq
    have ht : (OnWaterSplashed st w1).1.mCurrentWaterSplashedTrigger
        = w1 + WaveSplashTriggerSize := by
      unfold OnWaterSplashed
      rw [if_pos hw.1, if_pos hw.2]
    apply later_wave_above_floor w1 w2 ws (OnWaterSplashed st w1).1
    · rw [ht]
    · rw [OnWaterSplashed_last]
    · rw [OnWaterSplashed_last]; exact hchain
    · exact hreq2

theorem wave_splash_hysteresis_witness :
    (3 : ℚ) > 1 + WaveSplashTriggerSize :=
  wave_splash_hysteresis.2.2.2.2.2 WaterSplashState.reset 1 3 [1, 2]
    (by simp [OnWaterSplashed, WaterSplashState.reset, WaveSplashTriggerSize]; norm_num)
    (by norm_num)
    (by
      simp [OnWaterSplashedAll, OnWaterSplashed, WaterSplashState.reset, WaveSplashTriggerSize]
      norm_num)

end SoundController

/-! ## MainFrame: the bomb counters -/

namespace MainFrame

theorem SafeFrom_placed (count : Nat) (bombType t : BombType) (rest : List BombEvent)
    (h : SafeFrom count bombType (BombEvent.placed t :: rest)) :
    SafeFrom (count + (if t = bombType then 1 else 0)) bombType rest := by
  intro k
  have := h (k + 1)
  simp only [List.take_succ_cons, removals, placements] at this
  omega

theorem SafeFrom_removed (count : Nat) (bombType t : BombType) (rest : List BombEvent)
    (h : SafeFrom count bombType (BombEvent.removed t :: rest)) :
    (if t = bombType then 1 else 0) ≤ count ∧
      SafeFrom (count - (if t = bombType then 1 else 0)) bombType rest := by
  constructor
  · have := h 1
    simp only [List.take_succ_cons, List.take_zero, removals, placements] at this
    omega
  · intro k
    have := h (k + 1)
    simp only [List.take_succ_cons, removals, placements] at this
    omega

theorem OnBombPlaced_other (mf : MainFrame) (t : BombType) (h1 : t ≠ BombType.RCBomb)
    (h2 : t ≠ BombType.AntiMatterBomb) : OnBombPlaced mf t = mf := by
  unfold OnBombPlaced
  rw [if_neg (fun h => h1 h.symm), if_neg (fun h => h2 h.symm)]

theorem OnBombRemoved_other (mf : MainFrame) (t : BombType) (h1 : t ≠ BombType.RCBomb)
    (h2 : t ≠ BombType.AntiMatterBomb) : OnBombRemoved mf t = (mf, true) := by
  unfold OnBombRemoved
  rw [if_neg (fun h => h1 h.symm), if_neg (fun h => h2 h.symm)]

/-- One placement: the counters and the menu items. -/
theorem OnBombPlaced_spec (mf : MainFrame) (t : BombType)
    (hrc : mf.mCurrentRCBombCount + 1 < sizeModulus)
    (ham : mf.mCurrentAntiMatterBombCount + 1 < sizeModulus) (hmenu : MenuItemsAgree mf) :
    (OnBombPlaced mf t).mCurrentRCBombCount
      = mf.mCurrentRCBombCount + (if t = BombType.RCBomb then 1 else 0) ∧
    (OnBombPlaced mf t).mCurrentAntiMatterBombCount
      = mf.mCurrentAntiMatterBombCount + (if t = BombType.AntiMatterBomb then 1 else 0) ∧
    MenuItemsAgree (OnBombPlaced mf t) ∧
    (t = BombType.RCBomb → (OnBombPlaced mf t).mRCBombsDetonateMenuItem ≠ none) ∧
    (t = BombType.AntiMatterBomb → (OnBombPlaced mf t).mAntiMatterBombsDetonateMenuItem ≠ none) ∧
    (t ≠ BombType.RCBomb →
      (OnBombPlaced mf t).mRCBombsDetonateMenuItem = mf.mRCBombsDetonateMenuItem) ∧
    (t ≠ BombType.AntiMatterBomb →
      (OnBombPlaced mf t).mAntiMatterBombsDetonateMenuItem
        = mf.mAntiMatterBombsDetonateMenuItem) := by
  obtain ⟨m1, m2⟩ := hmenu
  cases t
  · simp only [OnBombPlaced, MenuItemsAgree, Nat.mod_eq_of_lt ham, reduceCtorEq, if_false,
      if_true]
    refine ⟨by simp, by simp, ⟨m1, ?_⟩, by simp, by simp, by simp, by simp⟩
    intro b hb
    simp only [Option.some.injEq] at hb
    rw [← hb]; simp
  · simp only [OnBombPlaced, reduceCtorEq, if_false]
    exact ⟨by simp, by simp, ⟨m1, m2⟩, by simp, by simp, by simp, by simp⟩
  · simp only [OnBombPlaced, MenuItemsAgree, Nat.mod_eq_of_lt hrc, reduceCtorEq, if_false,
      if_true]
    refine ⟨by simp, by simp, ⟨?_, m2⟩, by simp, by simp, by simp, by simp⟩
    intro b hb
    simp only [Option.some.injEq] at hb
    rw [← hb]; simp
  · simp only [OnBombPlaced, reduceCtorEq, if_false]
    exact ⟨by simp, by simp, ⟨m1, m2⟩, by simp, by simp, by simp, by simp⟩

/-- One removal of a bomb that was placed: the counters, the assertion and the menu items. -/
theorem OnBombRemoved_spec (mf : MainFrame) (t : BombType)
    (hrc : mf.mCurrentRCBombCount < sizeModulus)
    (ham : mf.mCurrentAntiMatterBombCount < sizeModulus)
    (hrc1 : (if t = BombType.RCBomb then 1 else 0) ≤ mf.mCurrentRCBombCount)
    (ham1 : (if t = BombType.AntiMatterBomb then 1 else 0) ≤ mf.mCurrentAntiMatterBombCount)
    (hmenu : MenuItemsAgree mf) :
    (OnBombRemoved mf t).1.mCurrentRCBombCount
      = mf.mCurrentRCBombCount - (if t = BombType.RCBomb then 1 else 0) ∧
    (OnBombRemoved mf t).1.mCurrentAntiMatterBombCount
      = mf.mCurrentAntiMatterBombCount - (if t = BombType.AntiMatterBomb then 1 else 0) ∧
    (OnBombRemoved mf t).2 = true ∧
    MenuItemsAgree (OnBombRemoved mf t).1 ∧
    (t = BombType.RCBomb → (OnBombRemoved mf t).1.mRCBombsDetonateMenuItem ≠ none) ∧
    (t = BombType.AntiMatterBomb →
      (OnBombRemoved mf t).1.mAntiMatterBombsDetonateMenuItem ≠ none) ∧
    (t ≠ BombType.RCBomb →
      (OnBombRemoved mf t).1.mRCBombsDetonateMenuItem = mf.mRCBombsDetonateMenuItem) ∧
    (t ≠ BombType.AntiMatterBomb →
      (OnBombRemoved mf t).1.mAntiMatterBombsDetonateMenuItem
        = mf.mAntiMatterBombsDetonateMenuItem) := by
  obtain ⟨m1, m2⟩ := hmenu
  have wrap : ∀ c : Nat, 1 ≤ c → c < sizeModulus → (c + sizeModulus - 1) % sizeModulus = c - 1 := by
    intro c h1 h2
    have : c + sizeModulus - 1 = (c - 1) + sizeModulus := by omega
    rw [this, Nat.add_mod_right, Nat.mod_eq_of_lt (by omega)]
  cases t
  · simp only [if_true, reduceCtorEq, if_false] at hrc1 ham1
    simp only [OnBombRemoved, MenuItemsAgree, wrap _ ham1 ham, reduceCtorEq, if_false, if_true]
    refine ⟨by simp, by simp, by simpa using ham1, ⟨m1, ?_⟩, by simp, by simp, by simp, by simp⟩
    intro b hb
    simp only [Option.some.injEq] at hb
    rw [← hb]; simp
  · simp only [OnBombRemoved, reduceCtorEq, if_false]
    exact ⟨by simp, by simp, trivial, ⟨m1, m2⟩, by simp, by simp, by simp, by simp⟩
  · simp only [if_true, reduceCtorEq, if_false] at hrc1 ham1
    simp only [OnBombRemoved, MenuItemsAgree, wrap _ hrc1 hrc, reduceCtorEq, if_false, if_true]
    refine ⟨by simp, by simp, by simpa using hrc1, ⟨?_, m2⟩, by simp, by simp, by simp, by simp⟩
    intro b hb
    simp only [Option.some.injEq] at hb
    rw [← hb]; simp
  · simp only [OnBombRemoved, reduceCtorEq, if_false]
    exact ⟨by simp, by simp, trivial, ⟨m1, m2⟩, by simp, by simp, by simp, by simp⟩

/-- A sequence of events that never removes a bomb that was not placed: the counters, the
assertions and the menu items. -/
theorem onBombEvents_spec (events : List BombEvent) : ∀ (mf : MainFrame),
    mf.mCurrentRCBombCount + events.length < sizeModulus →
    mf.mCurrentAntiMatterBombCount + events.length < sizeModulus →
    SafeFrom mf.mCurrentRCBombCount BombType.RCBomb events →
    SafeFrom mf.mCurrentAntiMatterBombCount BombType.AntiMatterBomb events →
    MenuItemsAgree mf →
    (onBombEvents mf events).1.mCurrentRCBombCount + removals BombType.RCBomb events
      = mf.mCurrentRCBombCount + placements BombType.RCBomb events ∧
    (onBombEvents mf events).1.mCurrentAntiMatterBombCount
        + removals BombType.AntiMatterBomb events
      = mf.mCurrentAntiMatterBombCount + placements BombType.AntiMatterBomb events ∧
    (onBombEvents mf events).2 = true ∧
    MenuItemsAgree (onBombEvents mf events).1 ∧
    (0 < placements BombType.RCBomb events + removals BombType.RCBomb events
        ∨ mf.mRCBombsDetonateMenuItem ≠ none →
      (onBombEvents mf events).1.mRCBombsDetonateMenuItem ≠ none) ∧
    (0 < placements BombType.AntiMatterBomb events + removals BombType.AntiMatterBomb events
        ∨ mf.mAntiMatterBombsDetonateMenuItem ≠ none →
      (onBombEvents mf events).1.mAntiMatterBombsDetonateMenuItem ≠ none) := by
  induction events with
  | nil =>
    intro mf _ _ _ _ hmenu
    refine ⟨rfl, rfl, rfl, hmenu, ?_, ?_⟩
    · rintro (h | h)
      · simp only [removals, placements] at h
        omega
      · exact h
    · rintro (h | h)
      · simp only [removals, placements] at h
        omega
      · exact h
  | cons e rest ih =>
    intro mf hrc ham srcs sams hmenu
    simp only [List.length_cons] at hrc ham
    cases e with
    | placed t =>
      obtain ⟨p1, p2, p3, p4, p5, p6, p7⟩ :=
        OnBombPlaced_spec mf t (by omega) (by omega) hmenu
      have s1 := SafeFrom_placed _ _ _ _ srcs
      have s2 := SafeFrom_placed _ _ _ _ sams
      rw [← p1] at s1
      rw [← p2] at s2
      obtain ⟨q1, q2, q3, q4, q5, q6⟩ :=
        ih (OnBombPlaced mf t) (by rw [p1]; split_ifs <;> omega)
          (by rw [p2]; split_ifs <;> omega) s1 s2 p3
      simp only [onBombEvents, removals, placements]
      refine ⟨by rw [p1] at q1; omega, by rw [p2] at q2; omega, q3, q4, ?_, ?_⟩
      · intro h
        apply q5
        by_cases ht : t = BombType.RCBomb
        · exact Or.inr (p4 ht)
        · rw [p6 ht]
          rw [if_neg ht] at h
          rcases h with h | h
          · exact Or.inl (by omega)
          · exact Or.inr h
      · intro h
        apply q6
        by_cases ht : t = BombType.AntiMatterBomb
        · exact Or.inr (p5 ht)
        · rw [p7 ht]
          rw [if_neg ht] at h
          rcases h with h | h
          · exact Or.inl (by omega)
          · exact Or.inr h
    | removed t =>
      obtain ⟨r1, s1⟩ := SafeFrom_removed _ _ _ _ srcs
      obtain ⟨r2, s2⟩ := SafeFrom_removed _ _ _ _ sams
      obtain ⟨p1, p2, pa, p3, p4, p5, p6, p7⟩ :=
        OnBombRemoved_spec mf t (by omega) (by omega) r1 r2 hmenu
      rw [← p1] at s1
      rw [← p2] at s2
      obtain ⟨q1, q2, q3, q4, q5, q6⟩ :=
        ih (OnBombRemoved mf t).1 (by rw [p1]; omega) (by rw [p2]; omega) s1 s2 p3
      simp only [onBombEvents, removals, placements, pa, q3, Bool.and_self]
      refine ⟨by rw [p1] at q1; omega, by rw [p2] at q2; omega, trivial, q4, ?_, ?_⟩
      · intro h
        apply q5
        by_cases ht : t = BombType.RCBomb
        · exact Or.inr (p4 ht)
        · rw [p6 ht]
          rw [if_neg ht] at h
          rcases h with h | h
          · exact Or.inl (by omega)
          · exact Or.inr h
      · intro h
        apply q6
        by_cases ht : t = BombType.AntiMatterBomb
        · exact Or.inr (p5 ht)
        · rw [p7 ht]
          rw [if_neg ht] at h
          rcases h with h | h
          · exact Or.inl (by omega)
          · exact Or.inr h

/-- C25: starting from zero counts, after any sequence of `OnBombPlaced` / `OnBombRemoved`
events (fewer than 2^64 of them) in which no bomb type is removed more often than it was placed,
the RC-bomb counter equals the RC placements minus the RC removals and the anti-matter counter
likewise, every evaluated assertion `count > 0` held, each detonate menu item that received an
`Enable` call (which it did when an event of its bomb type occurred) received `true` in the last
one exactly when its counter is positive, and an event of any other bomb type changes
nothing. -/
theorem bomb_counters_track_events (events : List BombEvent) (hsafe : NeverOverRemoved events)
    (hlen : events.length < sizeModulus) :
    (onBombEvents zeroCounts events).1.mCurrentRCBombCount
      = placements BombType.RCBomb events - removals BombType.RCBomb events ∧
    (onBombEvents zeroCounts events).1.mCurrentAntiMatterBombCount
      = placements BombType.AntiMatterBomb events - removals BombType.AntiMatterBomb events ∧
    (onBombEvents zeroCounts events).2 = true ∧
    (∀ b, (onBombEvents zeroCounts events).1.mRCBombsDetonateMenuItem = some b →
      (b = true ↔ 0 < (onBombEvents zeroCounts events).1.mCurrentRCBombCount)) ∧
    (∀ b, (onBombEvents zeroCounts events).1.mAntiMatterBombsDetonateMenuItem = some b →
      (b = true ↔ 0 < (onBombEvents zeroCounts events).1.mCurrentAntiMatterBombCount)) ∧
    (0 < placements BombType.RCBomb events + removals BombType.RCBomb events →
      (onBombEvents zeroCounts events).1.mRCBombsDetonateMenuItem ≠ none) ∧
    (0 < placements BombType.AntiMatterBomb events + removals BombType.AntiMatterBomb events →
      (onBombEvents zeroCounts events).1.mAntiMatterBombsDetonateMenuItem ≠ none) ∧
    (∀ (mf : MainFrame) (t : BombType), t ≠ BombType.RCBomb → t ≠ BombType.AntiMatterBomb →
      OnBombPlaced mf t = mf ∧ OnBombRemoved mf t = (mf, true)) := by
  have s1 : SafeFrom zeroCounts.mCurrentRCBombCount BombType.RCBomb events := by
    intro k
    have := hsafe k BombType.RCBomb
    show _ ≤ 0 + _
    omega
  have s2 : SafeFrom zeroCounts.mCurrentAntiMatterBombCount BombType.AntiMatterBomb events := by
    intro k
    have := hsafe k BombType.AntiMatterBomb
    show _ ≤ 0 + _
    omega
  have hm : MenuItemsAgree zeroCounts := by
    constructor <;> intro b hb <;> simp [zeroCounts] at hb
  obtain ⟨q1, q2, q3, q4, q5, q6⟩ :=
    onBombEvents_spec events zeroCounts (by show 0 + _ < _; omega) (by show 0 + _ < _; omega)
      s1 s2 hm
  have z1 : zeroCounts.mCurrentRCBombCount = 0 := rfl
  have z2 : zeroCounts.mCurrentAntiMatterBombCount = 0 := rfl
  rw [z1] at q1
  rw [z2] at q2
  refine ⟨by omega, by omega, q3, q4.1, q4.2, fun h => q5 (Or.inl h), fun h => q6 (Or.inl h), ?_⟩
  intro mf t h1 h2
  exact ⟨OnBombPlaced_other mf t h1 h2, OnBombRemoved_other mf t h1 h2⟩

theorem sampleBombEvents_safe : NeverOverRemoved sampleBombEvents := by
  intro k t
  have hk : k = 0 ∨ k = 1 ∨ k = 2 ∨ k = 3 ∨ k = 4 ∨ 5 ≤ k := by omega
  rcases hk with h | h | h | h | h | h
  · subst h; cases t <;> decide
  · subst h; cases t <;> decide
  · subst h; cases t <;> decide
  · subst h; cases t <;> decide
  · subst h; cases t <;> decide
  · rw [List.take_of_length_le (by simpa [sampleBombEvents] using h)]
    cases t <;> decide

theorem bomb_counters_track_events_witness :
    (onBombEvents zeroCounts sampleBombEvents).1.mCurrentRCBombCount
      = placements BombType.RCBomb sampleBombEvents
        - removals BombType.RCBomb sampleBombEvents ∧
    (onBombEvents zeroCounts sampleBombEvents).1.mCurrentRCBombCount = 1 :=
  ⟨(bomb_counters_track_events sampleBombEvents sampleBombEvents_safe (by decide)).1,
    by decide⟩

end MainFrame

/-! ## UIPreferencesManager: saving then loading -/

namespace UIPreferencesManager

end UIPreferencesManager

/-! ## Binary32: properties of the rounding -/

namespace Binary32

theorem roundHalfEven_intCast (n : ℤ) : roundHalfEven (n : ℚ) = n := by
  unfold roundHalfEven
  simp

theorem roundHalfEven_floor_le (x : ℚ) : ⌊x⌋ ≤ roundHalfEven x := by
  unfold roundHalfEven
  split_ifs <;> omega

theorem roundHalfEven_le_floor_succ (x : ℚ) : roundHalfEven x ≤ ⌊x⌋ + 1 := by
  unfold roundHalfEven
  split_ifs <;> omega

theorem roundHalfEven_mono {x y : ℚ} (h : x ≤ y) : roundHalfEven x ≤ roundHalfEven y := by
  have hf : ⌊x⌋ ≤ ⌊y⌋ := Int.floor_mono h
  rcases lt_or_eq_of_le hf with hlt | heq
  · calc roundHalfEven x ≤ ⌊x⌋ + 1 := roundHalfEven_le_floor_succ x
      _ ≤ ⌊y⌋ := hlt
      _ ≤ roundHalfEven y := roundHalfEven_floor_le y
  · unfold roundHalfEven
    rw [← heq]
    have hxy : x - ⌊x⌋ ≤ y - ⌊x⌋ := by linarith
    split_ifs <;> first | omega | (exfalso; linarith)

theorem roundHalfEven_ge_of_le (n : ℤ) (x : ℚ) (h : (n : ℚ) ≤ x) : n ≤ roundHalfEven x := by
  have := roundHalfEven_mono h
  rwa [roundHalfEven_intCast] at this

theorem roundHalfEven_le_of_le (n : ℤ) (x : ℚ) (h : x ≤ (n : ℚ)) : roundHalfEven x ≤ n := by
  have := roundHalfEven_mono h
  rwa [roundHalfEven_intCast] at this

theorem roundHalfEven_sub_le (x : ℚ) : |(roundHalfEven x : ℚ) - x| ≤ 1 / 2 := by
  have h1 : (⌊x⌋ : ℚ) ≤ x := Int.floor_le x
  have h2 : x < ⌊x⌋ + 1 := Int.lt_floor_add_one x
  unfold roundHalfEven
  rw [abs_le]
  split_ifs <;> push_cast <;> constructor <;> linarith

theorem roundHalfEven_eq_of_near (x : ℚ) (n : ℤ) (h1 : (n : ℚ) - 1 / 2 < x)
    (h2 : x < (n : ℚ) + 1 / 2) : roundHalfEven x = n := by
  have h := roundHalfEven_sub_le x
  rw [abs_le] at h
  have a : ((roundHalfEven x : ℤ) : ℚ) < (n : ℚ) + 1 := by linarith [h.2]
  have b : (n : ℚ) - 1 < ((roundHalfEven x : ℤ) : ℚ) := by linarith [h.1]
  have a' : roundHalfEven x < n + 1 := by exact_mod_cast a
  have b' : n - 1 < roundHalfEven x := by exact_mod_cast b
  omega

theorem two_zpow_pos (e : ℤ) : (0 : ℚ) < 2 ^ e := zpow_pos (by norm_num) e

theorem two_zpow_le {a b : ℤ} (h : a ≤ b) : (2 : ℚ) ^ a ≤ 2 ^ b :=
  zpow_le_zpow_right₀ (by norm_num) h

theorem zpow_log_le (x : ℚ) (hx : 0 < x) : (2 : ℚ) ^ Int.log 2 x ≤ x := by
  have := Int.zpow_log_le_self (b := 2) (by norm_num) hx
  simpa using this

theorem lt_zpow_log_succ (x : ℚ) : x < (2 : ℚ) ^ (Int.log 2 x + 1) := by
  have := Int.lt_zpow_succ_log_self (b := 2) (by norm_num) x
  simpa using this

theorem log_eq (x : ℚ) (e : ℤ) (hx : 0 < x) (h1 : (2 : ℚ) ^ e ≤ x) (h2 : x < 2 ^ (e + 1)) :
    Int.log 2 x = e := by
  have a : e ≤ Int.log 2 x := by
    apply (Int.zpow_le_iff_le_log (b := 2) (by norm_num) hx).mp
    simpa using h1
  have b : Int.log 2 x < e + 1 := by
    apply (Int.lt_zpow_iff_log_lt (b := 2) (by norm_num) hx).mp
    simpa using h2
  omega

theorem exponent_mono {x y : ℚ} (hx : 0 < x) (h : x ≤ y) : exponent x ≤ exponent y := by
  unfold exponent
  exact max_le_max (Int.log_mono_right hx h) (le_refl _)

theorem exponent_ge (x : ℚ) : -126 ≤ exponent x := le_max_right _ _

theorem lt_zpow_exponent_succ (x : ℚ) : x < (2 : ℚ) ^ (exponent x + 1) :=
  lt_of_lt_of_le (lt_zpow_log_succ x) (two_zpow_le (by unfold exponent; omega))

theorem roundMagnitude_zero : roundMagnitude 0 = 0 := by
  unfold roundMagnitude
  rw [zero_div]
  have : roundHalfEven 0 = 0 := by
    have := roundHalfEven_intCast 0
    simpa using this
  rw [this]
  simp

theorem roundMagnitude_nonneg (x : ℚ) (hx : 0 ≤ x) : 0 ≤ roundMagnitude x := by
  unfold roundMagnitude
  have hu := two_zpow_pos (exponent x - 23)
  have : (0 : ℤ) ≤ roundHalfEven (x / 2 ^ (exponent x - 23)) :=
    roundHalfEven_ge_of_le 0 _ (by simpa using div_nonneg hx hu.le)
  have h2 : (0 : ℚ) ≤ (roundHalfEven (x / 2 ^ (exponent x - 23)) : ℚ) := by exact_mod_cast this
  exact mul_nonneg h2 hu.le

/-- The rounded value does not leave the binade upwards. -/
theorem roundMagnitude_le_zpow (x : ℚ) : roundMagnitude x ≤ 2 ^ (exponent x + 1) := by
  unfold roundMagnitude
  have hu := two_zpow_pos (exponent x - 23)
  have hx := lt_zpow_exponent_succ x
  have e1 : (2 : ℚ) ^ (exponent x + 1) = 2 ^ (24 : ℤ) * 2 ^ (exponent x - 23) := by
    rw [← zpow_add₀ (by norm_num : (2 : ℚ) ≠ 0)]
    congr 1
    ring
  have hq : x / 2 ^ (exponent x - 23) ≤ ((2 ^ 24 : ℤ) : ℚ) := by
    rw [div_le_iff₀ hu]
    have : (((2 ^ 24 : ℤ)) : ℚ) = 2 ^ (24 : ℤ) := by norm_num
    rw [this, ← e1]
    exact hx.le
  have hr := roundHalfEven_le_of_le _ _ hq
  have hr' : (roundHalfEven (x / 2 ^ (exponent x - 23)) : ℚ) ≤ 2 ^ (24 : ℤ) := by
    have : ((roundHalfEven (x / 2 ^ (exponent x - 23)) : ℤ) : ℚ) ≤ ((2 ^ 24 : ℤ) : ℚ) := by
      exact_mod_cast hr
    have e : (((2 ^ 24 : ℤ)) : ℚ) = 2 ^ (24 : ℤ) := by norm_num
    rwa [e] at this
  rw [e1]
  exact mul_le_mul_of_nonneg_right hr' hu.le

/-- The rounded value of a normal number does not leave the binade downwards. -/
theorem zpow_le_roundMagnitude (x : ℚ) (hx : (2 : ℚ) ^ exponent x ≤ x) :
    2 ^ exponent x ≤ roundMagnitude x := by
  unfold roundMagnitude
  have hu := two_zpow_pos (exponent x - 23)
  have e1 : (2 : ℚ) ^ exponent x = 2 ^ (23 : ℤ) * 2 ^ (exponent x - 23) := by
    rw [← zpow_add₀ (by norm_num : (2 : ℚ) ≠ 0)]
    congr 1
    ring
  have hq : ((2 ^ 23 : ℤ) : ℚ) ≤ x / 2 ^ (exponent x - 23) := by
    rw [le_div_iff₀ hu]
    have : (((2 ^ 23 : ℤ)) : ℚ) = 2 ^ (23 : ℤ) := by norm_num
    rw [this, ← e1]
    exact hx
  have hr := roundHalfEven_ge_of_le _ _ hq
  have hr' : (2 : ℚ) ^ (23 : ℤ) ≤ (roundHalfEven (x / 2 ^ (exponent x - 23)) : ℚ) := by
    have : ((2 ^ 23 : ℤ) : ℚ) ≤ ((roundHalfEven (x / 2 ^ (exponent x - 23)) : ℤ) : ℚ) := by
      exact_mod_cast hr
    have e : (((2 ^ 23 : ℤ)) : ℚ) = 2 ^ (23 : ℤ) := by norm_num
    rwa [e] at this
  nth_rewrite 1 [e1]
  exact mul_le_mul_of_nonneg_right hr' hu.le

theorem zpow_exponent_le (x : ℚ) (hx : 0 < x) (h : -126 < exponent x) :
    (2 : ℚ) ^ exponent x ≤ x := by
  have e : exponent x = Int.log 2 x := by
    unfold exponent at h ⊢
    rcases max_cases (Int.log 2 x) (-126) with ⟨h1, _⟩ | ⟨h1, _⟩
    · exact h1
    · rw [h1] at h; omega
  rw [e]
  exact zpow_log_le x hx

theorem roundMagnitude_mono {x y : ℚ} (hx : 0 ≤ x) (h : x ≤ y) :
    roundMagnitude x ≤ roundMagnitude y := by
  rcases eq_or_lt_of_le hx with h0 | hpos
  · rw [← h0, roundMagnitude_zero]
    exact roundMagnitude_nonneg y (le_trans hx h)
  · have he := exponent_mono hpos h
    rcases eq_or_lt_of_le he with heq | hlt
    · unfold roundMagnitude
      rw [heq]
      have hu := two_zpow_pos (exponent y - 23)
      have hq : x / 2 ^ (exponent y - 23) ≤ y / 2 ^ (exponent y - 23) :=
        div_le_div_of_nonneg_right h hu.le
      have hr := roundHalfEven_mono hq
      have hr' : (roundHalfEven (x / 2 ^ (exponent y - 23)) : ℚ)
          ≤ (roundHalfEven (y / 2 ^ (exponent y - 23)) : ℚ) := by exact_mod_cast hr
      exact mul_le_mul_of_nonneg_right hr' hu.le
    · have hy : (2 : ℚ) ^ exponent y ≤ y :=
        zpow_exponent_le y (lt_of_lt_of_le hpos h) (lt_of_le_of_lt (exponent_ge x) hlt)
      calc roundMagnitude x ≤ 2 ^ (exponent x + 1) := roundMagnitude_le_zpow x
        _ ≤ 2 ^ exponent y := two_zpow_le (by omega)
        _ ≤ roundMagnitude y := zpow_le_roundMagnitude y hy

/-- The rounding is monotone. -/
theorem fl_mono {x y : ℚ} (h : x ≤ y) : fl x ≤ fl y := by
  unfold fl
  by_cases hx : x < 0
  · by_cases hy : y < 0
    · rw [if_pos hx, if_pos hy]
      have := roundMagnitude_mono (x := -y) (y := -x) (by linarith) (by linarith)
      linarith
    · rw [if_pos hx, if_neg hy]
      have h1 := roundMagnitude_nonneg (-x) (by linarith)
      have h2 := roundMagnitude_nonneg y (by linarith)
      linarith
  · have hy : ¬ y < 0 := by linarith
    rw [if_neg hx, if_neg hy]
    exact roundMagnitude_mono (by linarith) h

theorem fl_zero : fl 0 = 0 := by
  unfold fl
  rw [if_neg (lt_irrefl 0), roundMagnitude_zero]

theorem fl_neg (x : ℚ) : fl (-x) = -fl x := by
  unfold fl
  rcases lt_trichotomy x 0 with h | h | h
  · rw [if_neg (by linarith), if_pos h, neg_neg]
  · subst h
    simp [roundMagnitude_zero]
  · rw [if_pos (by linarith), if_neg (by linarith), neg_neg]

theorem exponent_eq (x : ℚ) (e : ℤ) (h1 : (2 : ℚ) ^ e ≤ x) (h2 : x < 2 ^ (e + 1))
    (he : -126 ≤ e) : exponent x = e := by
  have hx : 0 < x := lt_of_lt_of_le (two_zpow_pos e) h1
  unfold exponent
  rw [log_eq x e hx h1 h2]
  exact max_eq_left he

/-- A number with at most 24 significant bits above the smallest subnormal is a binary32
number: the rounding leaves it alone. -/
theorem roundMagnitude_scaled (m : ℕ) (k : ℤ) (hm : m < 2 ^ 24) (hk : -149 ≤ k) :
    roundMagnitude ((m : ℚ) * 2 ^ k) = (m : ℚ) * 2 ^ k := by
  rcases Nat.eq_zero_or_pos m with h0 | hpos
  · subst h0
    simp [roundMagnitude_zero]
  · have hk2 := two_zpow_pos k
    have hmq : (0 : ℚ) < (m : ℚ) := by exact_mod_cast hpos
    have hx : (0 : ℚ) < (m : ℚ) * 2 ^ k := mul_pos hmq hk2
    have hlt : (m : ℚ) * 2 ^ k < 2 ^ (k + 24) := by
      have e : (2 : ℚ) ^ (k + 24) = 2 ^ (24 : ℤ) * 2 ^ k := by
        rw [← zpow_add₀ (by norm_num : (2 : ℚ) ≠ 0)]
        congr 1
        ring
      rw [e]
      apply mul_lt_mul_of_pos_right _ hk2
      have : ((m : ℕ) : ℚ) < ((2 ^ 24 : ℕ) : ℚ) := by exact_mod_cast hm
      have e2 : (((2 ^ 24 : ℕ)) : ℚ) = 2 ^ (24 : ℤ) := by norm_num
      rwa [e2] at this
    have hlog : Int.log 2 ((m : ℚ) * 2 ^ k) < k + 24 := by
      apply (Int.lt_zpow_iff_log_lt (b := 2) (by norm_num) hx).mp
      simpa using hlt
    have hE : exponent ((m : ℚ) * 2 ^ k) ≤ k + 23 := by
      unfold exponent
      exact max_le (by omega) (by omega)
    obtain ⟨j, hj⟩ := Int.eq_ofNat_of_zero_le (show 0 ≤ k + 23 - exponent ((m : ℚ) * 2 ^ k) by omega)
    have hu := two_zpow_pos (exponent ((m : ℚ) * 2 ^ k) - 23)
    have hsplit : (2 : ℚ) ^ k = 2 ^ j * 2 ^ (exponent ((m : ℚ) * 2 ^ k) - 23) := by
      rw [← zpow_natCast, ← zpow_add₀ (by norm_num : (2 : ℚ) ≠ 0)]
      congr 1
      omega
    have hq : (m : ℚ) * 2 ^ k / 2 ^ (exponent ((m : ℚ) * 2 ^ k) - 23)
        = (((m * 2 ^ j : ℕ) : ℤ) : ℚ) := by
      rw [div_eq_iff hu.ne']
      nth_rewrite 1 [hsplit]
      push_cast
      ring
    unfold roundMagnitude
    rw [hq, roundHalfEven_intCast]
    nth_rewrite 2 [hsplit]
    push_cast
    ring

theorem fl_scaled (m : ℕ) (k : ℤ) (hm : m < 2 ^ 24) (hk : -149 ≤ k) :
    fl ((m : ℚ) * 2 ^ k) = (m : ℚ) * 2 ^ k := by
  have h : ¬ ((m : ℚ) * 2 ^ k < 0) :=
    not_lt.mpr (mul_nonneg (by exact_mod_cast Nat.zero_le m) (two_zpow_pos k).le)
  unfold fl
  rw [if_neg h]
  exact roundMagnitude_scaled m k hm hk

/-- The rounding of a normal number `x` in the binade of exponent `e` that is nearer to the
multiple `n` of the unit in the last place than to any other. -/
theorem fl_eq_of_near (x : ℚ) (e n : ℤ) (h1 : (2 : ℚ) ^ e ≤ x) (h2 : x < 2 ^ (e + 1))
    (he : -126 ≤ e) (hlo : (n : ℚ) - 1 / 2 < x / 2 ^ (e - 23))
    (hhi : x / 2 ^ (e - 23) < (n : ℚ) + 1 / 2) : fl x = (n : ℚ) * 2 ^ (e - 23) := by
  have hx : 0 < x := lt_of_lt_of_le (two_zpow_pos e) h1
  unfold fl
  rw [if_neg (by linarith)]
  unfold roundMagnitude
  rw [exponent_eq x e h1 h2 he, roundHalfEven_eq_of_near _ n hlo hhi]

/-- The relative error of the rounding of a normal number is at most `2 ^ (-24)`. -/
theorem fl_sub_le (x : ℚ) (hx : (2 : ℚ) ^ (-126 : ℤ) ≤ x) :
    |fl x - x| ≤ 2 ^ (-24 : ℤ) * x := by
  have hpos : 0 < x := lt_of_lt_of_le (two_zpow_pos _) hx
  have hE : (2 : ℚ) ^ exponent x ≤ x := by
    rcases eq_or_lt_of_le (exponent_ge x) with h | h
    · rw [← h]; exact hx
    · exact zpow_exponent_le x hpos h
  have hu := two_zpow_pos (exponent x - 23)
  have hr := roundHalfEven_sub_le (x / 2 ^ (exponent x - 23))
  have e1 : fl x - x
      = ((roundHalfEven (x / 2 ^ (exponent x - 23)) : ℚ) - x / 2 ^ (exponent x - 23))
          * 2 ^ (exponent x - 23) := by
    unfold fl
    rw [if_neg (by linarith)]
    unfold roundMagnitude
    field_simp
  have e2 : (1 / 2 : ℚ) * 2 ^ (exponent x - 23) = 2 ^ (-24 : ℤ) * 2 ^ exponent x := by
    rw [← zpow_add₀ (by norm_num : (2 : ℚ) ≠ 0)]
    have : (1 / 2 : ℚ) = 2 ^ (-1 : ℤ) := by norm_num
    rw [this, ← zpow_add₀ (by norm_num : (2 : ℚ) ≠ 0)]
    congr 1
    ring
  rw [e1, abs_mul, abs_of_pos hu]
  calc |(roundHalfEven (x / 2 ^ (exponent x - 23)) : ℚ) - x / 2 ^ (exponent x - 23)|
        * 2 ^ (exponent x - 23)
      ≤ 1 / 2 * 2 ^ (exponent x - 23) := mul_le_mul_of_nonneg_right hr hu.le
    _ = 2 ^ (-24 : ℤ) * 2 ^ exponent x := e2
    _ ≤ 2 ^ (-24 : ℤ) * x := mul_le_mul_of_nonneg_left hE (two_zpow_pos _).le

end Binary32

/-! ## Binary32: concrete values -/

namespace Binary32

theorem fl_eq_self (x : ℚ) (m : ℕ) (k : ℤ) (hm : m < 2 ^ 24) (hk : -149 ≤ k)
    (hx : x = (m : ℚ) * 2 ^ k) : fl x = x := by
  rw [hx]
  exact fl_scaled m k hm hk

/-- Numbers that the runs below meet and that are binary32 numbers. -/
theorem fl_values :
    fl 1 = 1 ∧ fl 12 = 12 ∧ fl 24 = 24 ∧ fl 480 = 480 ∧ fl 500 = 500 ∧ fl 294 = 294 ∧
    fl (13176795 / 2 ^ 24) = 13176795 / 2 ^ 24 ∧
    fl (13176795 / 2 ^ 23) = 13176795 / 2 ^ 23 ∧
    fl (4913933 / 2 ^ 24) = 4913933 / 2 ^ 24 ∧
    fl (15099494 / 2 ^ 24) = 15099494 / 2 ^ 24 ∧
    fl (1677722 / 2 ^ 24) = 1677722 / 2 ^ 24 ∧
    fl (1 / 2 ^ 15) = 1 / 2 ^ 15 :=
  ⟨fl_eq_self _ 1 0 (by norm_num) (by norm_num) (by norm_num),
    fl_eq_self _ 12 0 (by norm_num) (by norm_num) (by norm_num),
    fl_eq_self _ 24 0 (by norm_num) (by norm_num) (by norm_num),
    fl_eq_self _ 480 0 (by norm_num) (by norm_num) (by norm_num),
    fl_eq_self _ 500 0 (by norm_num) (by norm_num) (by norm_num),
    fl_eq_self _ 294 0 (by norm_num) (by norm_num) (by norm_num),
    fl_eq_self _ 13176795 (-24) (by norm_num) (by norm_num) (by norm_num),
    fl_eq_self _ 13176795 (-23) (by norm_num) (by norm_num) (by norm_num),
    fl_eq_self _ 4913933 (-24) (by norm_num) (by norm_num) (by norm_num),
    fl_eq_self _ 15099494 (-24) (by norm_num) (by norm_num) (by norm_num),
    fl_eq_self _ 1677722 (-24) (by norm_num) (by norm_num) (by norm_num),
    fl_eq_self _ 1 (-15) (by norm_num) (by norm_num) (by norm_num)⟩

/-- The difference `0.1f - 1.0f` is not a binary32 number: it is rounded to
`-0.899999976f`. -/
theorem fl_oneTenth_sub_one :
    fl (13421773 / 2 ^ 27 - 1) = -(15099494 / 2 ^ 24) := by
  have e : (13421773 / 2 ^ 27 - 1 : ℚ) = -(120795955 / 2 ^ 27) := by norm_num
  rw [e, fl_neg]
  have h := fl_eq_of_near (120795955 / 2 ^ 27) (-1) 15099494 (by norm_num) (by norm_num)
    (by norm_num) (by norm_num) (by norm_num)
  rw [h]
  norm_num

end Binary32

/-! ## ParameterSmoother: `Update` in float arithmetic -/

namespace GameController.ParameterSmoother

theorem UpdateRounded_advance {F : Type} [LinearOrderedField F] (A : FloatArithmetic F)
    (ps : ParameterSmoother F) (now : Int)
    (h : ps.mCurrentTimestamp < ps.mEndTimestamp) :
    UpdateRounded A ps now =
      ({ ps with
          mCurrentTimestamp := min now ps.mEndTimestamp
          mCurrentValue := UpdateRounded.currentValue A ps.mStartValue ps.mTargetValue
            (leftFractionRounded A ps.mTrajectoryTime ps.mEndTimestamp
              (min now ps.mEndTimestamp)) },
        [UpdateRounded.currentValue A ps.mStartValue ps.mTargetValue
            (leftFractionRounded A ps.mTrajectoryTime ps.mEndTimestamp
              (min now ps.mEndTimestamp))]) := by
  unfold UpdateRounded
  rw [if_pos h]

theorem UpdateRounded_rest {F : Type} [LinearOrderedField F] (A : FloatArithmetic F)
    (ps : ParameterSmoother F) (now : Int)
    (h : ¬ ps.mCurrentTimestamp < ps.mEndTimestamp) :
    UpdateRounded A ps now = (ps, []) := by
  unfold UpdateRounded
  rw [if_neg h]

/-- In exact arithmetic `UpdateRounded` is `Update`. -/
theorem UpdateRounded_exact {F : Type} [LinearOrderedField F] (sin : F → F) (Pi : F)
    (ps : ParameterSmoother F) (now : Int) :
    UpdateRounded (FloatArithmetic.exact sin Pi) ps now = Update sin Pi ps now := by
  unfold UpdateRounded Update
  rfl

/-- With no time left, `leftFraction` does not depend on the end timestamp. -/
theorem leftFractionRounded_end {F : Type} [LinearOrderedField F] (A : FloatArithmetic F)
    (trajectoryTime endTimestamp : Int) :
    leftFractionRounded A trajectoryTime endTimestamp endTimestamp
      = leftFractionRounded A trajectoryTime 0 0 := by
  unfold leftFractionRounded
  simp

theorem leftFractionRounded_exact_end (trajectoryTime : Int) :
    leftFractionRounded (FloatArithmetic.exact Real.sin Real.pi) trajectoryTime 0 0 = 0 := by
  unfold leftFractionRounded FloatArithmetic.exact
  split_ifs <;> simp

/-- In exact arithmetic the value computed for no time left is the target. -/
theorem currentValue_exact_end (startValue targetValue : ℝ) :
    UpdateRounded.currentValue (FloatArithmetic.exact Real.sin Real.pi) startValue targetValue 0
      = targetValue := by
  have h := progress_phase_zero
  unfold progress phase at h
  unfold UpdateRounded.currentValue progressRounded phaseRounded FloatArithmetic.exact
  simp only [id]
  rw [h]
  ring

/-- In binary32, with a `sin` that is 1 at `Pi<float> / 2` and whose value at `Pi<float> / 4`
is not rounded to 1, the progress computed for no time left is exactly 1. -/
theorem progressRounded_end_binary32 (sin : ℚ → ℚ) (h1 : sin (13176795 / 2 ^ 23) = 1)
    (h2 : Binary32.fl (1 - sin (13176795 / 2 ^ 24)) ≠ 0) :
    progressRounded (FloatArithmetic.binary32 sin)
      (phaseRounded (FloatArithmetic.binary32 sin) 0) = 1 := by
  obtain ⟨f1, _, _, _, _, _, f7, f8, _⟩ := Binary32.fl_values
  have e1 : (13176795 / 2 ^ 22 : ℚ) / 4 = 13176795 / 2 ^ 24 := by norm_num
  have e2 : (13176795 / 2 ^ 24 : ℚ) + 13176795 / 2 ^ 24 = 13176795 / 2 ^ 23 := by norm_num
  unfold progressRounded phaseRounded FloatArithmetic.binary32
  simp only [e1, sub_zero, f1, f7, mul_one, e2, f8, h1]
  rw [div_self h2, f1, f1]

/-- In binary32 the value computed for no time left on the way from `1.0f` to `0.1f` is
`0.100000024f`. -/
theorem currentValue_binary32_end :
    UpdateRounded.currentValue (FloatArithmetic.binary32 sinAtTrajectoryEnd) 1 oneTenth 0
      = 13421776 / 2 ^ 27 := by
  obtain ⟨f1, _, _, _, _, _, _, _, f9, f10, f11, _⟩ := Binary32.fl_values
  have hp := progressRounded_end_binary32 sinAtTrajectoryEnd
    (by unfold sinAtTrajectoryEnd; norm_num)
    (by
      have e : (1 : ℚ) - sinAtTrajectoryEnd (13176795 / 2 ^ 24) = 4913933 / 2 ^ 24 := by
        unfold sinAtTrajectoryEnd; norm_num
      rw [e, f9]
      norm_num)
  unfold UpdateRounded.currentValue
  rw [hp]
  show Binary32.fl (1 + Binary32.fl (Binary32.fl (oneTenth - 1) * 1)) = 13421776 / 2 ^ 27
  unfold oneTenth
  rw [Binary32.fl_oneTenth_sub_one, mul_one, Binary32.fl_neg, f10]
  have e : (1 : ℚ) + -(15099494 / 2 ^ 24) = 1677722 / 2 ^ 24 := by norm_num
  rw [e, f11]
  norm_num

/-- C7, as stated, fails in binary32: a smoother at `1.0f` with a trajectory time of 500 ms gets
`SetValue(0.1f)` at clock reading 0, which schedules the end timestamp 501; `Update(501)` reaches
the end timestamp and leaves `GetValue()` at `0.100000024f`, which is not the target `0.1f`. -/
theorem update_at_end_misses_target_binary32 :
    (SetValue (create (1 : ℚ) 500 0) oneTenth 0).1.mEndTimestamp = 501 ∧
    (UpdateRounded (FloatArithmetic.binary32 sinAtTrajectoryEnd)
      (SetValue (create 1 500 0) oneTenth 0).1 501).1.mCurrentTimestamp = 501 ∧
    (UpdateRounded (FloatArithmetic.binary32 sinAtTrajectoryEnd)
      (SetValue (create 1 500 0) oneTenth 0).1 501).1.mTargetValue = 13421773 / 2 ^ 27 ∧
    GetValue (UpdateRounded (FloatArithmetic.binary32 sinAtTrajectoryEnd)
      (SetValue (create 1 500 0) oneTenth 0).1 501).1 = 13421776 / 2 ^ 27 ∧
    GetValue (UpdateRounded (FloatArithmetic.binary32 sinAtTrajectoryEnd)
        (SetValue (create 1 500 0) oneTenth 0).1 501).1
      ≠ (UpdateRounded (FloatArithmetic.binary32 sinAtTrajectoryEnd)
        (SetValue (create 1 500 0) oneTenth 0).1 501).1.mTargetValue := by
  have hlt : (SetValue (create (1 : ℚ) 500 0) oneTenth 0).1.mCurrentTimestamp
      < (SetValue (create (1 : ℚ) 500 0) oneTenth 0).1.mEndTimestamp := by decide
  have hv : GetValue (UpdateRounded (FloatArithmetic.binary32 sinAtTrajectoryEnd)
      (SetValue (create 1 500 0) oneTenth 0).1 501).1 = 13421776 / 2 ^ 27 := by
    rw [UpdateRounded_advance _ _ _ hlt]
    show UpdateRounded.currentValue (FloatArithmetic.binary32 sinAtTrajectoryEnd) 1 oneTenth
      (leftFractionRounded (FloatArithmetic.binary32 sinAtTrajectoryEnd) 500 501 (min 501 501))
        = 13421776 / 2 ^ 27
    have hl : leftFractionRounded (FloatArithmetic.binary32 sinAtTrajectoryEnd) 500 501
        (min 501 501) = 0 := by
      obtain ⟨_, _, _, _, f5, _⟩ := Binary32.fl_values
      unfold leftFractionRounded FloatArithmetic.binary32
      simp [Binary32.fl_zero]
    rw [hl]
    exact currentValue_binary32_end
  have ht : (UpdateRounded (FloatArithmetic.binary32 sinAtTrajectoryEnd)
      (SetValue (create 1 500 0) oneTenth 0).1 501).1.mTargetValue = 13421773 / 2 ^ 27 := by
    rw [UpdateRounded_advance _ _ _ hlt]
    rfl
  refine ⟨by decide, ?_, ht, hv, ?_⟩
  · rw [UpdateRounded_advance _ _ _ hlt]
    decide
  · rw [hv, ht]
    norm_num

/-- C7, amended: once the end timestamp has been reached, every further `Update`, for any
argument, changes no field of the smoother and does not invoke the setter, in every float
arithmetic: this holds for a smoother just constructed, whose `GetValue()` is the target, and
for a smoother on which an `Update(now)` with `now >= mEndTimestamp` has run. If that `Update`
advanced the smoother, `GetValue()` is the float value of
`mStartValue + (mTargetValue - mStartValue) * progress` computed for no time left, which is the
target in exact arithmetic; otherwise that `Update` left the smoother as it was. -/
theorem update_noop_once_end_reached {F : Type} [LinearOrderedField F] (A : FloatArithmetic F)
    (ps : ParameterSmoother F) (now0 : Int) (hnow : ps.mEndTimestamp ≤ now0) :
    (∀ (getterValue : F) (trajectoryTime clockNow now : Int),
      UpdateRounded A (create getterValue trajectoryTime clockNow) now
        = (create getterValue trajectoryTime clockNow, []) ∧
      GetValue (create getterValue trajectoryTime clockNow)
        = (create getterValue trajectoryTime clockNow).mTargetValue) ∧
    (∀ now : Int,
      UpdateRounded A (UpdateRounded A ps now0).1 now = ((UpdateRounded A ps now0).1, [])) ∧
    (ps.mCurrentTimestamp < ps.mEndTimestamp →
      GetValue (UpdateRounded A ps now0).1
        = UpdateRounded.currentValue A ps.mStartValue ps.mTargetValue
            (leftFractionRounded A ps.mTrajectoryTime 0 0) ∧
      (UpdateRounded A ps now0).1.mTargetValue = ps.mTargetValue) ∧
    (¬ ps.mCurrentTimestamp < ps.mEndTimestamp → (UpdateRounded A ps now0).1 = ps) ∧
    (∀ (trajectoryTime : Int) (startValue targetValue : ℝ),
      UpdateRounded.currentValue (FloatArithmetic.exact Real.sin Real.pi) startValue targetValue
        (leftFractionRounded (FloatArithmetic.exact Real.sin Real.pi) trajectoryTime 0 0)
          = targetValue) := by
  refine ⟨?_, ?_, ?_, ?_, ?_⟩
  · intro g T c now
    exact ⟨UpdateRounded_rest A _ now (lt_irrefl c), rfl⟩
  · intro now
    by_cases hlt : ps.mCurrentTimestamp < ps.mEndTimestamp
    · rw [UpdateRounded_advance A ps now0 hlt, min_eq_right hnow]
      exact UpdateRounded_rest A _ now (lt_irrefl ps.mEndTimestamp)
    · rw [UpdateRounded_rest A ps now0 hlt]
      exact UpdateRounded_rest A ps now hlt
  · intro hlt
    rw [UpdateRounded_advance A ps now0 hlt, min_eq_right hnow, leftFractionRounded_end]
    exact ⟨rfl, rfl⟩
  · intro hlt
    rw [UpdateRounded_rest A ps now0 hlt]
  · intro T s v
    rw [leftFractionRounded_exact_end]
    exact currentValue_exact_end s v

theorem update_noop_once_end_reached_witness :
    UpdateRounded (FloatArithmetic.binary32 sinAtTrajectoryEnd)
        (UpdateRounded (FloatArithmetic.binary32 sinAtTrajectoryEnd)
          (SetValue (create 1 500 0) oneTenth 0).1 501).1 777
      = ((UpdateRounded (FloatArithmetic.binary32 sinAtTrajectoryEnd)
          (SetValue (create 1 500 0) oneTenth 0).1 501).1, []) :=
  (update_noop_once_end_reached (FloatArithmetic.binary32 sinAtTrajectoryEnd)
    (SetValue (create 1 500 0) oneTenth 0).1 501 (by decide)).2.1 777

/-- C8, as stated, fails in binary32: a smoother at `1.0f` with a trajectory time of zero gets
`SetValue(0.1f)`; the single `Update` leaves `GetValue()` at `0.100000024f` and has invoked the
setter with that value, not with `0.1f`. -/
theorem zero_duration_misses_target_binary32 :
    GetValue (UpdateRounded (FloatArithmetic.binary32 sinAtTrajectoryEnd)
      (SetValue (create 1 0 0) oneTenth 0).1 0).1 = 13421776 / 2 ^ 27 ∧
    (SetValue (create 1 0 0) oneTenth 0).2
      ++ (UpdateRounded (FloatArithmetic.binary32 sinAtTrajectoryEnd)
        (SetValue (create 1 0 0) oneTenth 0).1 0).2 = [13421776 / 2 ^ 27] ∧
    oneTenth = 13421773 / 2 ^ 27 ∧
    GetValue (UpdateRounded (FloatArithmetic.binary32 sinAtTrajectoryEnd)
      (SetValue (create 1 0 0) oneTenth 0).1 0).1 ≠ oneTenth := by
  have hlt : (SetValue (create (1 : ℚ) 0 0) oneTenth 0).1.mCurrentTimestamp
      < (SetValue (create (1 : ℚ) 0 0) oneTenth 0).1.mEndTimestamp := by decide
  have hc : UpdateRounded.currentValue (FloatArithmetic.binary32 sinAtTrajectoryEnd)
      (SetValue (create (1 : ℚ) 0 0) oneTenth 0).1.mStartValue
      (SetValue (create (1 : ℚ) 0 0) oneTenth 0).1.mTargetValue
      (leftFractionRounded (FloatArithmetic.binary32 sinAtTrajectoryEnd)
        (SetValue (create (1 : ℚ) 0 0) oneTenth 0).1.mTrajectoryTime
        (SetValue (create (1 : ℚ) 0 0) oneTenth 0).1.mEndTimestamp
        (min 0 (SetValue (create (1 : ℚ) 0 0) oneTenth 0).1.mEndTimestamp))
      = 13421776 / 2 ^ 27 := currentValue_binary32_end
  rw [UpdateRounded_advance _ _ _ hlt, hc]
  refine ⟨rfl, rfl, rfl, ?_⟩
  show (13421776 / 2 ^ 27 : ℚ) ≠ oneTenth
  unfold oneTenth
  norm_num

/-- C8, amended: for a smoother whose trajectory time is zero, `SetValue(v)` followed by one
`Update(now)`, for every clock reading `now`, leaves `GetValue()` at the float value of
`start + (v - start) * progress` computed for `leftFraction = 0`, where `start` is the value that
`GetValue()` returned before; the setter has been invoked exactly once, with that same value;
in exact arithmetic this value is `v`. -/
theorem zero_duration_applies_target {F : Type} [LinearOrderedField F] (A : FloatArithmetic F)
    (ps : ParameterSmoother F) (v : F) (clockNow now : Int) (hT : ps.mTrajectoryTime = 0) :
    GetValue (UpdateRounded A (SetValue ps v clockNow).1 now).1
      = UpdateRounded.currentValue A (GetValue ps) v 0 ∧
    (SetValue ps v clockNow).2 ++ (UpdateRounded A (SetValue ps v clockNow).1 now).2
      = [UpdateRounded.currentValue A (GetValue ps) v 0] ∧
    UpdateRounded.currentValue A (GetValue ps) v 0
      = A.fl (GetValue ps
          + A.fl (A.fl (v - GetValue ps) * progressRounded A (phaseRounded A 0))) ∧
    (∀ startValue targetValue : ℝ,
      UpdateRounded.currentValue (FloatArithmetic.exact Real.sin Real.pi) startValue targetValue
        0 = targetValue) := by
  have hlt : (SetValue ps v clockNow).1.mCurrentTimestamp
      < (SetValue ps v clockNow).1.mEndTimestamp := by
    show clockNow < clockNow + ps.mTrajectoryTime + 1
    omega
  have hl : ∀ e c : Int,
      leftFractionRounded A (SetValue ps v clockNow).1.mTrajectoryTime e c = 0 := by
    intro e c
    show leftFractionRounded A ps.mTrajectoryTime e c = 0
    unfold leftFractionRounded
    rw [if_pos hT]
  rw [UpdateRounded_advance A _ now hlt, hl]
  exact ⟨rfl, rfl, rfl, currentValue_exact_end⟩

theorem zero_duration_applies_target_witness :
    GetValue (UpdateRounded (FloatArithmetic.binary32 sinAtTrajectoryEnd)
      (SetValue (create 1 0 10) oneTenth 20).1 5).1
      = UpdateRounded.currentValue (FloatArithmetic.binary32 sinAtTrajectoryEnd) 1 oneTenth 0 :=
  (zero_duration_applies_target (FloatArithmetic.binary32 sinAtTrajectoryEnd) (create 1 0 10)
    oneTenth 20 5 rfl).1

end GameController.ParameterSmoother

/-! ## GameParameters: the mechanical sub-steps -/

namespace GameParameters

/-- The literal `0.02f` is `10737418 / 2 ^ 29`. -/
theorem fl_simulationStep : Binary32.fl 0.02 = 10737418 / 2 ^ 29 := by
  have e : (0.02 : ℚ) = 1 / 50 := by norm_num
  rw [e, Binary32.fl_eq_of_near (1 / 50) (-6) 10737418 (by norm_num) (by norm_num)
    (by norm_num) (by norm_num) (by norm_num)]
  norm_num

/-- C10, as stated, fails in binary32. For the adjustment 12.25 the number of sub-steps is 294,
`MechanicalSimulationStepTimeDuration()` is `0.02f / 294` rounded, and 294 times it is not the
step `0.02f`, neither exactly nor as a `float` product (`0.0199999977f`). For the adjustment
`1.50000012f` the product `24 * a` is not a `float`, and the number of sub-steps differs from
it. -/
theorem mechanical_substeps_product_misses_step :
    (MinNumMechanicalDynamicsIterationsAdjustment : ℚ) ≤ 49 / 4 ∧
    (49 / 4 : ℚ) ≤ MaxNumMechanicalDynamicsIterationsAdjustment ∧
    NumMechanicalDynamicsIterations Binary32.fl (NumericType.float Binary32.fl)
      (withIterationsAdjustment (49 / 4)) = 294 ∧
    MechanicalSimulationStepTimeDuration Binary32.fl (NumericType.float Binary32.fl)
      (withIterationsAdjustment (49 / 4)) = 2337397 / 2 ^ 35 ∧
    SimulationStepTimeDuration Binary32.fl (NumericType.float Binary32.fl) = 10737418 / 2 ^ 29 ∧
    NumMechanicalDynamicsIterations Binary32.fl (NumericType.float Binary32.fl)
        (withIterationsAdjustment (49 / 4))
      * MechanicalSimulationStepTimeDuration Binary32.fl (NumericType.float Binary32.fl)
        (withIterationsAdjustment (49 / 4))
      ≠ SimulationStepTimeDuration Binary32.fl (NumericType.float Binary32.fl) ∧
    Binary32.fl
      (NumMechanicalDynamicsIterations Binary32.fl (NumericType.float Binary32.fl)
        (withIterationsAdjustment (49 / 4))
      * MechanicalSimulationStepTimeDuration Binary32.fl (NumericType.float Binary32.fl)
        (withIterationsAdjustment (49 / 4))) = 10737417 / 2 ^ 29 ∧
    (MinNumMechanicalDynamicsIterationsAdjustment : ℚ) ≤ 12582913 / 2 ^ 23 ∧
    (12582913 / 2 ^ 23 : ℚ) ≤ MaxNumMechanicalDynamicsIterationsAdjustment ∧
    NumMechanicalDynamicsIterations Binary32.fl (NumericType.float Binary32.fl)
      (withIterationsAdjustment (12582913 / 2 ^ 23)) = 9437185 / 2 ^ 18 ∧
    NumMechanicalDynamicsIterations Binary32.fl (NumericType.float Binary32.fl)
      (withIterationsAdjustment (12582913 / 2 ^ 23)) ≠ 24 * (12582913 / 2 ^ 23) := by
  obtain ⟨_, _, f24, _, _, f294, _⟩ := Binary32.fl_values
  have hN : NumMechanicalDynamicsIterations Binary32.fl (NumericType.float Binary32.fl)
      (withIterationsAdjustment (49 / 4)) = 294 := by
    show Binary32.fl (Binary32.fl ((24 : ℕ) : ℚ) * (49 / 4)) = 294
    have e : (((24 : ℕ) : ℚ)) = 24 := by norm_num
    rw [e, f24]
    have e2 : (24 : ℚ) * (49 / 4) = 294 := by norm_num
    rw [e2, f294]
  have hc : SimulationStepTimeDuration Binary32.fl (NumericType.float Binary32.fl)
      = 10737418 / 2 ^ 29 := fl_simulationStep
  have hdt : MechanicalSimulationStepTimeDuration Binary32.fl (NumericType.float Binary32.fl)
      (withIterationsAdjustment (49 / 4)) = 2337397 / 2 ^ 35 := by
    show Binary32.fl (SimulationStepTimeDuration Binary32.fl (NumericType.float Binary32.fl)
      / NumMechanicalDynamicsIterations Binary32.fl (NumericType.float Binary32.fl)
        (withIterationsAdjustment (49 / 4))) = 2337397 / 2 ^ 35
    rw [hN, hc, Binary32.fl_eq_of_near (10737418 / 2 ^ 29 / 294) (-14) 9349588 (by norm_num)
      (by norm_num) (by norm_num) (by norm_num) (by norm_num)]
    norm_num
  have hN2 : NumMechanicalDynamicsIterations Binary32.fl (NumericType.float Binary32.fl)
      (withIterationsAdjustment (12582913 / 2 ^ 23)) = 9437185 / 2 ^ 18 := by
    show Binary32.fl (Binary32.fl ((24 : ℕ) : ℚ) * (12582913 / 2 ^ 23)) = 9437185 / 2 ^ 18
    have e : (((24 : ℕ) : ℚ)) = 24 := by norm_num
    rw [e, f24, Binary32.fl_eq_of_near (24 * (12582913 / 2 ^ 23)) 5 9437185 (by norm_num)
      (by norm_num) (by norm_num) (by norm_num) (by norm_num)]
    norm_num
  refine ⟨?_, ?_, hN, hdt, hc, ?_, ?_, ?_, ?_, hN2, ?_⟩
  · unfold MinNumMechanicalDynamicsIterationsAdjustment; norm_num
  · unfold MaxNumMechanicalDynamicsIterationsAdjustment; norm_num
  · rw [hN, hdt, hc]; norm_num
  · rw [hN, hdt, Binary32.fl_eq_of_near (294 * (2337397 / 2 ^ 35)) (-6) 10737417 (by norm_num)
      (by norm_num) (by norm_num) (by norm_num) (by norm_num)]
    norm_num
  · unfold MinNumMechanicalDynamicsIterationsAdjustment; norm_num
  · unfold MaxNumMechanicalDynamicsIterationsAdjustment; norm_num
  · rw [hN2]; norm_num

end GameParameters

namespace GameParameters

/-- C10, amended: for every `NumMechanicalDynamicsIterationsAdjustment` `a` within
`[MinNumMechanicalDynamicsIterationsAdjustment, MaxNumMechanicalDynamicsIterationsAdjustment]`,
which is `[0.5, 20]`, in binary32: the `float` number `N` of mechanical sub-steps is the product
`24 * a` rounded, within the relative error `2 ^ (-24)` of `24 * a`, so `12 <= N <= 480` and `N`
is not zero; `MechanicalSimulationStepTimeDuration<float>()` is the quotient `0.02f / N`
rounded, it is positive, and `N` times it is within the relative error `2 ^ (-24)` of the
simulation step `0.02f`, the `float` product within `3 * 2 ^ (-24)`; for an integral `T` the
number of sub-steps is `N` truncated, still within `[12, 480]`. -/
theorem mechanical_substeps (gp : GameParameters ℚ)
    (hmin : MinNumMechanicalDynamicsIterationsAdjustment
      ≤ gp.NumMechanicalDynamicsIterationsAdjustment)
    (hmax : gp.NumMechanicalDynamicsIterationsAdjustment
      ≤ MaxNumMechanicalDynamicsIterationsAdjustment) :
    (MinNumMechanicalDynamicsIterationsAdjustment : ℚ) = 1 / 2 ∧
    (MaxNumMechanicalDynamicsIterationsAdjustment : ℚ) = 20 ∧
    NumMechanicalDynamicsIterations Binary32.fl (NumericType.float Binary32.fl) gp
      = Binary32.fl (24 * gp.NumMechanicalDynamicsIterationsAdjustment) ∧
    |NumMechanicalDynamicsIterations Binary32.fl (NumericType.float Binary32.fl) gp
        - 24 * gp.NumMechanicalDynamicsIterationsAdjustment|
      ≤ 2 ^ (-24 : ℤ) * (24 * gp.NumMechanicalDynamicsIterationsAdjustment) ∧
    12 ≤ NumMechanicalDynamicsIterations Binary32.fl (NumericType.float Binary32.fl) gp ∧
    NumMechanicalDynamicsIterations Binary32.fl (NumericType.float Binary32.fl) gp ≤ 480 ∧
    NumMechanicalDynamicsIterations Binary32.fl (NumericType.float Binary32.fl) gp ≠ 0 ∧
    SimulationStepTimeDuration Binary32.fl (NumericType.float Binary32.fl) = 10737418 / 2 ^ 29 ∧
    MechanicalSimulationStepTimeDuration Binary32.fl (NumericType.float Binary32.fl) gp
      = Binary32.fl (SimulationStepTimeDuration Binary32.fl (NumericType.float Binary32.fl)
          / NumMechanicalDynamicsIterations Binary32.fl (NumericType.float Binary32.fl) gp) ∧
    0 < MechanicalSimulationStepTimeDuration Binary32.fl (NumericType.float Binary32.fl) gp ∧
    |NumMechanicalDynamicsIterations Binary32.fl (NumericType.float Binary32.fl) gp
          * MechanicalSimulationStepTimeDuration Binary32.fl (NumericType.float Binary32.fl) gp
        - SimulationStepTimeDuration Binary32.fl (NumericType.float Binary32.fl)|
      ≤ 2 ^ (-24 : ℤ) * SimulationStepTimeDuration Binary32.fl (NumericType.float Binary32.fl) ∧
    |Binary32.fl
          (NumMechanicalDynamicsIterations Binary32.fl (NumericType.float Binary32.fl) gp
            * MechanicalSimulationStepTimeDuration Binary32.fl (NumericType.float Binary32.fl)
                gp)
        - SimulationStepTimeDuration Binary32.fl (NumericType.float Binary32.fl)|
      ≤ 3 * 2 ^ (-24 : ℤ)
          * SimulationStepTimeDuration Binary32.fl (NumericType.float Binary32.fl) ∧
    NumMechanicalDynamicsIterations Binary32.fl NumericType.integral gp
      = ⌊NumMechanicalDynamicsIterations Binary32.fl (NumericType.float Binary32.fl) gp⌋ ∧
    12 ≤ NumMechanicalDynamicsIterations Binary32.fl NumericType.integral gp ∧
    NumMechanicalDynamicsIterations Binary32.fl NumericType.integral gp ≤ 480 := by
  obtain ⟨_, f12, f24, f480, _, _, _, _, _, _, _, f15⟩ := Binary32.fl_values
  have e1 : (MinNumMechanicalDynamicsIterationsAdjustment : ℚ) = 1 / 2 := by
    unfold MinNumMechanicalDynamicsIterationsAdjustment; norm_num
  have e2 : (MaxNumMechanicalDynamicsIterationsAdjustment : ℚ) = 20 := by
    unfold MaxNumMechanicalDynamicsIterationsAdjustment; norm_num
  rw [e1] at hmin
  rw [e2] at hmax
  have hu : (2 : ℚ) ^ (-24 : ℤ) = 1 / 16777216 := by norm_num
  have hsmall : (2 : ℚ) ^ (-126 : ℤ) ≤ 1 / 16777216 := by
    rw [← hu]
    exact Binary32.two_zpow_le (by norm_num)
  have hc : SimulationStepTimeDuration Binary32.fl (NumericType.float Binary32.fl)
      = 10737418 / 2 ^ 29 := fl_simulationStep
  have hN : NumMechanicalDynamicsIterations Binary32.fl (NumericType.float Binary32.fl) gp
      = Binary32.fl (24 * gp.NumMechanicalDynamicsIterationsAdjustment) := by
    show Binary32.fl (Binary32.fl ((24 : ℕ) : ℚ) * gp.NumMechanicalDynamicsIterationsAdjustment)
      = _
    have e : (((24 : ℕ) : ℚ)) = 24 := by norm_num
    rw [e, f24]
  have hdt : MechanicalSimulationStepTimeDuration Binary32.fl (NumericType.float Binary32.fl) gp
      = Binary32.fl (SimulationStepTimeDuration Binary32.fl (NumericType.float Binary32.fl)
          / NumMechanicalDynamicsIterations Binary32.fl (NumericType.float Binary32.fl) gp) :=
    rfl
  have hint : NumMechanicalDynamicsIterations Binary32.fl NumericType.integral gp
      = if 0 ≤ NumMechanicalDynamicsIterations Binary32.fl (NumericType.float Binary32.fl) gp
        then ⌊NumMechanicalDynamicsIterations Binary32.fl (NumericType.float Binary32.fl) gp⌋
        else ⌈NumMechanicalDynamicsIterations Binary32.fl (NumericType.float Binary32.fl) gp⌉ :=
    rfl
  rw [hdt, hint, hc, hN]
  generalize gp.NumMechanicalDynamicsIterationsAdjustment = a at hmin hmax
  have h12 : 12 ≤ Binary32.fl (24 * a) := by
    have := Binary32.fl_mono (show (12 : ℚ) ≤ 24 * a by linarith)
    rwa [f12] at this
  have h480 : Binary32.fl (24 * a) ≤ 480 := by
    have := Binary32.fl_mono (show 24 * a ≤ (480 : ℚ) by linarith)
    rwa [f480] at this
  have hpos : (0 : ℚ) < Binary32.fl (24 * a) := by linarith
  have herrN := Binary32.fl_sub_le (24 * a)
    (le_trans hsmall (by linarith))
  generalize Binary32.fl (24 * a) = N at h12 h480 hpos herrN ⊢
  have hq1 : (1 : ℚ) / 2 ^ 15 ≤ 10737418 / 2 ^ 29 / N := by
    rw [le_div_iff₀ hpos]
    have : (1 : ℚ) / 2 ^ 15 * N ≤ 1 / 2 ^ 15 * 480 :=
      mul_le_mul_of_nonneg_left h480 (by norm_num)
    have e : (1 : ℚ) / 2 ^ 15 * 480 ≤ 10737418 / 2 ^ 29 := by norm_num
    linarith
  have hq2 : (10737418 : ℚ) / 2 ^ 29 / N ≤ 1 / 512 := by
    rw [div_le_iff₀ hpos]
    have : (1 : ℚ) / 512 * 12 ≤ 1 / 512 * N := mul_le_mul_of_nonneg_left h12 (by norm_num)
    have e : (10737418 : ℚ) / 2 ^ 29 ≤ 1 / 512 * 12 := by norm_num
    linarith
  have hdpos : (0 : ℚ) < Binary32.fl (10737418 / 2 ^ 29 / N) := by
    have := Binary32.fl_mono hq1
    rw [f15] at this
    have e : (0 : ℚ) < 1 / 2 ^ 15 := by norm_num
    linarith
  have herrq := Binary32.fl_sub_le (10737418 / 2 ^ 29 / N) (le_trans hsmall (by
    have e : (1 : ℚ) / 16777216 ≤ 1 / 2 ^ 15 := by norm_num
    linarith))
  have hNq : N * (10737418 / 2 ^ 29 / N) = 10737418 / 2 ^ 29 :=
    mul_div_cancel₀ _ hpos.ne'
  have hprod : |N * Binary32.fl (10737418 / 2 ^ 29 / N) - 10737418 / 2 ^ 29|
      ≤ 2 ^ (-24 : ℤ) * (10737418 / 2 ^ 29) := by
    have e : N * Binary32.fl (10737418 / 2 ^ 29 / N) - 10737418 / 2 ^ 29
        = N * (Binary32.fl (10737418 / 2 ^ 29 / N) - 10737418 / 2 ^ 29 / N) := by
      rw [mul_sub, hNq]
    rw [e, abs_mul, abs_of_pos hpos]
    calc N * |Binary32.fl (10737418 / 2 ^ 29 / N) - 10737418 / 2 ^ 29 / N|
        ≤ N * (2 ^ (-24 : ℤ) * (10737418 / 2 ^ 29 / N)) :=
          mul_le_mul_of_nonneg_left herrq hpos.le
      _ = 2 ^ (-24 : ℤ) * (N * (10737418 / 2 ^ 29 / N)) := by ring
      _ = 2 ^ (-24 : ℤ) * (10737418 / 2 ^ 29) := by rw [hNq]
  have hprod' := hprod
  rw [hu, abs_le] at hprod'
  have herrp := Binary32.fl_sub_le (N * Binary32.fl (10737418 / 2 ^ 29 / N))
    (le_trans hsmall (by
      have e : (1 : ℚ) / 16777216
          ≤ 10737418 / 2 ^ 29 - 1 / 16777216 * (10737418 / 2 ^ 29) := by
        norm_num
      linarith [hprod'.1]))
  rw [hu] at herrN herrp ⊢
  rw [abs_le] at herrp
  refine ⟨e1, e2, rfl, herrN, h12, h480, hpos.ne', rfl, rfl, hdpos, ?_, ?_, ?_, ?_, ?_⟩
  · rw [← hu]; exact hprod
  · rw [abs_le]
    constructor
    · linarith [hprod'.1, hprod'.2, herrp.1, herrp.2]
    · linarith [hprod'.1, hprod'.2, herrp.1, herrp.2]
  · rw [if_pos hpos.le]
  · rw [if_pos hpos.le]
    exact Int.le_floor.mpr (by exact_mod_cast h12)
  · rw [if_pos hpos.le]
    have h := Int.floor_le N
    have : ((⌊N⌋ : ℤ) : ℚ) ≤ ((480 : ℤ) : ℚ) := by
      push_cast
      linarith
    exact_mod_cast this

theorem mechanical_substeps_witness :
    NumMechanicalDynamicsIterations Binary32.fl (NumericType.float Binary32.fl)
        (withIterationsAdjustment (49 / 4))
      = Binary32.fl (24 * (withIterationsAdjustment (49 / 4)).NumMechanicalDynamicsIterationsAdjustment) ∧
    0 < MechanicalSimulationStepTimeDuration Binary32.fl (NumericType.float Binary32.fl)
      (withIterationsAdjustment (49 / 4)) :=
  have h := mechanical_substeps (withIterationsAdjustment (49 / 4))
    (by norm_num [withIterationsAdjustment, MinNumMechanicalDynamicsIterationsAdjustment])
    (by norm_num [withIterationsAdjustment, MaxNumMechanicalDynamicsIterationsAdjustment])
  ⟨h.2.2.1, h.2.2.2.2.2.2.2.2.2.1⟩

end GameParameters

/-! ## GameController: the setters in float arithmetic -/

namespace GameController.ParameterSmoother

theorem PendingRounded_Update {F : Type} [LinearOrderedField F] (A : FloatArithmetic F)
    (s v : F) (e T : Int) (ps : ParameterSmoother F) (now : Int)
    (h : PendingRounded s v e T
      (UpdateRounded.currentValue A s v (leftFractionRounded A T 0 0)) ps) :
    PendingRounded s v e T (UpdateRounded.currentValue A s v (leftFractionRounded A T 0 0))
      (UpdateRounded A ps now).1 := by
  obtain ⟨hs, ht, he, hT, hc⟩ := h
  by_cases hlt : ps.mCurrentTimestamp < ps.mEndTimestamp
  · rw [UpdateRounded_advance A ps now hlt]
    refine ⟨hs, ht, he, hT, ?_⟩
    by_cases hnow : ps.mEndTimestamp ≤ now
    · right
      show UpdateRounded.currentValue A ps.mStartValue ps.mTargetValue
        (leftFractionRounded A ps.mTrajectoryTime ps.mEndTimestamp (min now ps.mEndTimestamp))
          = _
      rw [min_eq_right hnow, leftFractionRounded_end, hs, ht, hT]
    · left
      show min now ps.mEndTimestamp < ps.mEndTimestamp
      rw [min_eq_left (by omega)]
      omega
  · rw [UpdateRounded_rest A ps now hlt]
    exact ⟨hs, ht, he, hT, hc⟩

theorem PendingRounded_UpdateAll {F : Type} [LinearOrderedField F] (A : FloatArithmetic F)
    (s v : F) (e T : Int) (nows : List Int) (ps : ParameterSmoother F)
    (h : PendingRounded s v e T
      (UpdateRounded.currentValue A s v (leftFractionRounded A T 0 0)) ps) :
    PendingRounded s v e T (UpdateRounded.currentValue A s v (leftFractionRounded A T 0 0))
      (UpdateAllRounded A ps nows) := by
  induction nows generalizing ps with
  | nil => exact h
  | cons now rest ih => exact ih _ (PendingRounded_Update A s v e T ps now h)

/-- After `SetValue(v)` at clock reading `t`, an `Update(now)` with
`now >= t + mTrajectoryTime + 1`, after any run of `Update` calls, leaves the float value
computed for no time left. -/
theorem SetValue_UpdateAllRounded_end {F : Type} [LinearOrderedField F] (A : FloatArithmetic F)
    (ps : ParameterSmoother F) (v : F) (t : Int) (nows : List Int) (now : Int)
    (hT : 0 ≤ ps.mTrajectoryTime) (hnow : t + ps.mTrajectoryTime + 1 ≤ now) :
    GetValue (UpdateRounded A (UpdateAllRounded A (SetValue ps v t).1 nows) now).1
      = UpdateRounded.currentValue A (GetValue ps) v
          (leftFractionRounded A ps.mTrajectoryTime 0 0) := by
  have h0 : PendingRounded (GetValue ps) v (t + ps.mTrajectoryTime + 1) ps.mTrajectoryTime
      (UpdateRounded.currentValue A (GetValue ps) v
        (leftFractionRounded A ps.mTrajectoryTime 0 0)) (SetValue ps v t).1 := by
    refine ⟨rfl, rfl, rfl, rfl, Or.inl ?_⟩
    show t < t + ps.mTrajectoryTime + 1
    omega
  obtain ⟨hs, ht, he, hTT, hc⟩ := PendingRounded_UpdateAll A _ _ _ _ nows _ h0
  generalize UpdateAllRounded A (SetValue ps v t).1 nows = q at hs ht he hTT hc
  by_cases hlt : q.mCurrentTimestamp < q.mEndTimestamp
  · rw [UpdateRounded_advance A q now hlt, min_eq_right (by omega), leftFractionRounded_end,
      hs, ht, hTT]
    rfl
  · rw [UpdateRounded_rest A q now hlt]
    rcases hc with hc | hc
    · exact absurd hc hlt
    · exact hc

end GameController.ParameterSmoother

namespace GameController

/-- C2, amended: the setters never fail and never clamp. For every directly stored parameter `X`
that has `GetMinX`/`GetMaxX`, other than `AirBubblesDensity`, and every `v`, after `SetX(v)`
`GetX()` is `v`, so it lies in `[GetMinX(), GetMaxX()]` exactly when `v` does.
`SetAirBubblesDensity(v)` stores the float difference `128 - v`, unclamped, and
`GetAirBubblesDensity()` then returns the float difference `128 - (128 - v)`; in binary32 `0.1f`
reads back as `0.0999984741f`. For every smoothed parameter, `GetX()` reads the smoother;
`SetX(v)` at clock reading `t` leaves the stored parameters alone and makes `v`, unchanged, the
target of the smoother, with `GetX()` still the value from before the call; and once the
smoothing has finished (an `Update(now)` with `now >= t + mTrajectoryTime + 1`, after any run of
`Update` calls) the smoother's `GetValue()` is the float value of
`start + (v - start) * progress` computed for no time left, where `start` is the value from
before the call. -/
theorem setters_store_value_unclamped {F : Type} [LinearOrderedField F] :
    (∀ p ∈ directFloatParameters (F := F), ∀ (gc : GameController F) (v : F),
      p.Get (p.Set gc v) = v ∧
      ((p.GetMin ≤ p.Get (p.Set gc v) ∧ p.Get (p.Set gc v) ≤ p.GetMax)
        ↔ (p.GetMin ≤ v ∧ v ≤ p.GetMax))) ∧
    (∀ (fl : F → F) (gc : GameController F) (v : F),
      (SetAirBubblesDensity fl gc v).mGameParameters.CumulatedIntakenWaterThresholdForAirBubbles
        = fl (GameParameters.MaxCumulatedIntakenWaterThresholdForAirBubbles - v) ∧
      GetAirBubblesDensity fl (SetAirBubblesDensity fl gc v)
        = fl (GameParameters.MaxCumulatedIntakenWaterThresholdForAirBubbles
            - fl (GameParameters.MaxCumulatedIntakenWaterThresholdForAirBubbles - v)) ∧
      (SetAirBubblesDensity fl gc v).mParameterSmoothers = gc.mParameterSmoothers) ∧
    GetAirBubblesDensity Binary32.fl
      (SetAirBubblesDensity Binary32.fl sampleController ParameterSmoother.oneTenth)
        = 13107 / 2 ^ 17 ∧
    (∀ p ∈ directCountParameters (F := F), ∀ (gc : GameController F) (v : Nat),
      p.Get (p.Set gc v) = v ∧
      ((p.GetMin ≤ p.Get (p.Set gc v) ∧ p.Get (p.Set gc v) ≤ p.GetMax)
        ↔ (p.GetMin ≤ v ∧ v ≤ p.GetMax))) ∧
    (∀ p ∈ smoothedParameters (F := F), ∀ (gc : GameController F) (ps : ParameterSmoother F)
        (v : F) (t : Int), gc.mParameterSmoothers[p.index]? = some ps →
      p.Get gc = some ps.GetValue ∧
      (p.Set gc v t).mGameParameters = gc.mGameParameters ∧
      (p.Set gc v t).mParameterSmoothers[p.index]? = some (ps.SetValue v t).1 ∧
      (ps.SetValue v t).1.mTargetValue = v ∧
      p.Get (p.Set gc v t) = some ps.GetValue ∧
      (∀ A : FloatArithmetic F, 0 ≤ ps.mTrajectoryTime → ∀ (nows : List Int) (now : Int),
        t + ps.mTrajectoryTime + 1 ≤ now →
        ParameterSmoother.GetValue (ParameterSmoother.UpdateRounded A
          (ParameterSmoother.UpdateAllRounded A (ps.SetValue v t).1 nows) now).1
          = ParameterSmoother.UpdateRounded.currentValue A ps.GetValue v
              (ParameterSmoother.leftFractionRounded A ps.mTrajectoryTime 0 0))) := by
  refine ⟨?_, ?_, ?_, ?_, ?_⟩
  · intro p hp gc v
    have h := directFloat_get_set p hp gc v
    exact ⟨h, by rw [h]⟩
  · intro fl gc v
    exact ⟨rfl, rfl, rfl⟩
  · show Binary32.fl ((GameParameters.MaxCumulatedIntakenWaterThresholdForAirBubbles : ℚ)
        - Binary32.fl (GameParameters.MaxCumulatedIntakenWaterThresholdForAirBubbles
            - ParameterSmoother.oneTenth)) = 13107 / 2 ^ 17
    have e : (GameParameters.MaxCumulatedIntakenWaterThresholdForAirBubbles : ℚ) = 128 := by
      unfold GameParameters.MaxCumulatedIntakenWaterThresholdForAirBubbles
      norm_num
    rw [e]
    unfold ParameterSmoother.oneTenth
    rw [Binary32.fl_eq_of_near (128 - 13421773 / 2 ^ 27) 6 16764109 (by norm_num) (by norm_num)
      (by norm_num) (by norm_num) (by norm_num)]
    have e2 : (128 : ℚ) - ((16764109 : ℤ) : ℚ) * 2 ^ ((6 : ℤ) - 23) = 13107 / 2 ^ 17 := by
      norm_num
    rw [e2]
    exact Binary32.fl_eq_self _ 13107 (-17) (by norm_num) (by norm_num) (by norm_num)
  · intro p hp gc v
    have h := directCount_get_set p hp gc v
    exact ⟨h, by rw [h]⟩
  · intro p hp gc ps v t hps
    obtain ⟨hget, hset⟩ := smoothed_accessors p hp gc
    obtain ⟨hget', _⟩ := smoothed_accessors p hp (p.Set gc v t)
    obtain ⟨hgp, hsm⟩ := hset v t
    rw [hps] at hget hsm
    refine ⟨hget, hgp, hsm, rfl, ?_, ?_⟩
    · rw [hget', hsm]
      rfl
    · intro A hT nows now hnow
      exact ParameterSmoother.SetValue_UpdateAllRounded_end A ps v t nows now hT hnow

theorem setters_store_value_unclamped_witness :
    GetWaterDensityAdjustment (SetWaterDensityAdjustment (sampleController (F := ℚ)) 3) = 3 :=
  ((setters_store_value_unclamped (F := ℚ)).1
    ⟨GetWaterDensityAdjustment, SetWaterDensityAdjustment, GetMinWaterDensityAdjustment,
      GetMaxWaterDensityAdjustment⟩
    (by simp [directFloatParameters]) sampleController 3).1

end GameController
